import Mathlib

/-!
The bounded circular queue of `thread_comm`.

A shallow embedding of `src/include/thread_comm.h` (class template
`thread_comm::circular_queue<T>`).

Modelling conventions

* `std::unique_ptr<T>` is `Option α`: `none` is the empty (null) handle,
  `some v` owns the value `v`.  `std::move` out of a handle leaves `none` behind.
* `std::size_t` is `Nat` with explicit reduction modulo `SIZE_T_MOD = 2^64`
  wherever the source increments or decrements.
* Every member function runs with the queue's mutex held, and the predicate
  form of `wait`/`wait_for` re-checks the predicate with the mutex held before
  it returns; the code after the wait therefore runs atomically on the state in
  which the wait ended.  A member function is modelled as a function of that
  state.  The result `none` means that the calling thread stays suspended on the
  condition variable in that state (the call has not completed).
* A call that does not complete normally is `Except.error`: `Fault.abort` for
  `std::abort`, `Fault.length_error` for the `std::length_error` thrown by
  `std::vector` when asked for more than `vector::max_size()` elements.
* `data[i]` with `i` out of bounds is undefined behaviour in the source; the
  model uses `List.set` (no effect) and `List.getD _ _ none` there.  The state
  invariant proved below shows that no reachable state indexes out of bounds.
-/

namespace thread_comm

/-- Modulus of `std::size_t` arithmetic (64-bit target). -/
def SIZE_T_MOD : Nat := 18446744073709551616

/-- Largest value of the C++ type `int` (32-bit). -/
def INT_MAX : Int := 2147483647

/-- Smallest value of the C++ type `int` (32-bit). -/
def INT_MIN : Int := -2147483648

/-- Largest length of a `std::vector<std::unique_ptr<T>>`, `vector::max_size()`
on the 64-bit target (`PTRDIFF_MAX / sizeof(std::unique_ptr<T>)`, that is
`2^60 - 1`). -/
def VECTOR_MAX_SIZE : Nat := 1152921504606846975

/-- Ways a call ends without completing: `abort` is the call of `std::abort`,
`length_error` the exception `std::length_error` leaving the call. -/
inductive Fault where
  | abort
  | length_error
  deriving DecidableEq, Repr

/-- The private struct `timeout_data_s` (thread_comm.h 35-44). -/
structure timeout_data where
  duration : Int
  timed_out : Bool
  deriving DecidableEq, Repr

/-- Constructor of `timeout_data_s`: `timed_out(false)`. -/
def timeout_data.init (_duration : Int) : timeout_data :=
  ⟨_duration, false⟩

/-- `condition_variable::wait(lock, pred)`: returns only when `pred` holds;
`none` is "still suspended". -/
def cv_wait (pred : Bool) : Option Unit :=
  if pred then some () else none

/-- `condition_variable::wait_for(lock, duration, pred)`: returns the value of
`pred` in the state in which the wait ends (`false`: the duration elapsed and
the predicate is still false). -/
def cv_wait_for (_duration : Int) (pred : Bool) : Bool :=
  pred

/-- Data members of `circular_queue<T>` (thread_comm.h 46-64); the mutex and the
two condition variables carry no data. -/
structure circular_queue (α : Type) where
  size : Nat
  read_index : Nat
  write_index : Nat
  count : Nat
  data : List (Option α)
  deriving DecidableEq, Repr

namespace circular_queue

variable {α : Type}

/-- Lines 80-88 of `_write`: `data[write_index++] = std::move(message)`, wrap of
`write_index`, `++count`.  Returns the new state; the moved-from handle is
empty. -/
def _write_store (q : circular_queue α) (message : Option α) : circular_queue α :=
  let data := q.data.set q.write_index message
  let write_index := (q.write_index + 1) % SIZE_T_MOD
  let write_index := if write_index = q.size then 0 else write_index
  let count := (q.count + 1) % SIZE_T_MOD
  { q with data := data, write_index := write_index, count := count }

/-- `circular_queue::_write` (thread_comm.h 66-89).  Returns the new state, the
caller's handle after the call and the pointee of `td` after the call. -/
def _write (q : circular_queue α) (message : Option α) (td : Option timeout_data) :
    Option (circular_queue α × Option α × Option timeout_data) :=
  match td with
  | none =>
    match cv_wait (decide (q.count < q.size)) with
    | none => none
    | some _ => some (q._write_store message, none, none)
  | some t =>
    if !cv_wait_for t.duration (decide (q.count < q.size)) then
      some (q, message, some ⟨t.duration, true⟩)
    else
      some (q._write_store message, none, some t)

/-- Lines 104-114 of `_read`: `m = std::move(data[read_index++])`, wrap of
`read_index`, `--count`.  Returns the new state and `m`. -/
def _read_take (q : circular_queue α) : circular_queue α × Option α :=
  let m := q.data.getD q.read_index none
  let data := q.data.set q.read_index none
  let read_index := (q.read_index + 1) % SIZE_T_MOD
  let read_index := if read_index = q.size then 0 else read_index
  let count := (q.count + SIZE_T_MOD - 1) % SIZE_T_MOD
  ({ q with data := data, read_index := read_index, count := count }, m)

/-- `circular_queue::_read` (thread_comm.h 91-115).  Returns the new state, the
returned handle and the pointee of `td` after the call. -/
def _read (q : circular_queue α) (td : Option timeout_data) :
    Option (circular_queue α × Option α × Option timeout_data) :=
  match td with
  | none =>
    match cv_wait (decide (q.count > 0)) with
    | none => none
    | some _ => some ((q._read_take).1, (q._read_take).2, none)
  | some t =>
    if !cv_wait_for t.duration (decide (q.count > 0)) then
      some (q, none, some ⟨t.duration, true⟩)
    else
      some ((q._read_take).1, (q._read_take).2, some t)

/-- Member initialiser `size(_size)` (thread_comm.h 119): the `int` argument
converted to `std::size_t`. -/
def construct_size (_size : Int) : Nat :=
  (_size % (SIZE_T_MOD : Int)).toNat

/-- Constructor `circular_queue(int _size = 1)` (thread_comm.h 118-134): the
`int` argument is converted to `std::size_t`; a size of zero aborts (lines
123-127); `std::vector<std::unique_ptr<T>>(size)` (line 133) throws
`std::length_error` for a size above `vector::max_size()` and otherwise yields
`size` empty handles.  Running out of memory is not modelled. -/
def construct (_size : Int) : Except Fault (circular_queue α) :=
  let size := construct_size _size
  if size = 0 then
    Except.error Fault.abort
  else if VECTOR_MAX_SIZE < size then
    Except.error Fault.length_error
  else
    Except.ok
      { size := size, read_index := 0, write_index := 0, count := 0,
        data := List.replicate size none }

/-- Default argument of the constructor (`int _size = 1`). -/
def default_size : Int := 1

/-- `circular_queue::write` (thread_comm.h 151-154): new state and the caller's
handle after the call. -/
def write (q : circular_queue α) (message : Option α) :
    Option (circular_queue α × Option α) :=
  match q._write message none with
  | none => none
  | some (q1, message1, _) => some (q1, message1)

/-- `circular_queue::read` (thread_comm.h 156-159): new state and the returned
handle. -/
def read (q : circular_queue α) : Option (circular_queue α × Option α) :=
  match q._read none with
  | none => none
  | some (q1, m, _) => some (q1, m)

/-- `circular_queue::timed_write` (thread_comm.h 161-169): new state, the
caller's handle after the call, and the returned `!td.timed_out`. -/
def timed_write (q : circular_queue α) (message : Option α) (duration : Int) :
    Option (circular_queue α × Option α × Bool) :=
  let td := timeout_data.init duration
  match q._write message (some td) with
  | none => none
  | some (q1, message1, td1) => some (q1, message1, !(td1.getD td).timed_out)

/-- `circular_queue::timed_read` (thread_comm.h 171-181): new state, the
returned handle, and the value of the reference parameter `timed_out` after the
call (its value before the call is the third argument). -/
def timed_read (q : circular_queue α) (duration : Int) (_timed_out : Bool) :
    Option (circular_queue α × Option α × Bool) :=
  let td := timeout_data.init duration
  match q._read (some td) with
  | none => none
  | some (q1, m, td1) => some (q1, m, (td1.getD td).timed_out)

/-- `circular_queue::try_writing` (thread_comm.h 183-190). -/
def try_writing (q : circular_queue α) (message : Option α) :
    Option (circular_queue α × Option α × Bool) :=
  if q.count < q.size then
    match q._write message none with
    | none => none
    | some (q1, message1, _) => some (q1, message1, true)
  else
    some (q, message, false)

/-- `circular_queue::try_reading` (thread_comm.h 192-199). -/
def try_reading (q : circular_queue α) : Option (circular_queue α × Option α) :=
  if q.count > 0 then
    match q._read none with
    | none => none
    | some (q1, m, _) => some (q1, m)
  else
    some (q, none)

/-- `circular_queue::msg_count` (thread_comm.h 201-204); the state is not
touched. -/
def msg_count (q : circular_queue α) : Nat :=
  q.count

/-- The public operations of a queue, with their arguments. -/
inductive Op (α : Type) where
  | write (message : Option α)
  | read
  | timed_write (message : Option α) (duration : Int)
  | timed_read (duration : Int) (timed_out : Bool)
  | try_writing (message : Option α)
  | try_reading
  | msg_count
  deriving DecidableEq, Repr

/-- What a completed call hands back to its caller: the return value and the
final value of each reference parameter. -/
inductive Ret (α : Type) where
  | write (message : Option α)
  | read (m : Option α)
  | timed_write (ok : Bool) (message : Option α)
  | timed_read (m : Option α) (timed_out : Bool)
  | try_writing (ok : Bool) (message : Option α)
  | try_reading (m : Option α)
  | msg_count (n : Nat)
  deriving DecidableEq, Repr

/-- One completed call on state `q`: dispatch to the member function. -/
def call (q : circular_queue α) : Op α → Option (circular_queue α × Ret α)
  | Op.write message =>
    match q.write message with
    | none => none
    | some (q1, message1) => some (q1, Ret.write message1)
  | Op.read =>
    match q.read with
    | none => none
    | some (q1, m) => some (q1, Ret.read m)
  | Op.timed_write message duration =>
    match q.timed_write message duration with
    | none => none
    | some (q1, message1, ok) => some (q1, Ret.timed_write ok message1)
  | Op.timed_read duration timed_out =>
    match q.timed_read duration timed_out with
    | none => none
    | some (q1, m, timed_out1) => some (q1, Ret.timed_read m timed_out1)
  | Op.try_writing message =>
    match q.try_writing message with
    | none => none
    | some (q1, message1, ok) => some (q1, Ret.try_writing ok message1)
  | Op.try_reading =>
    match q.try_reading with
    | none => none
    | some (q1, m) => some (q1, Ret.try_reading m)
  | Op.msg_count => some (q, Ret.msg_count q.msg_count)

/-- One entry of an execution record: the state a call ran on, the call, and
what it handed back. -/
structure Step (α : Type) where
  pre : circular_queue α
  op : Op α
  ret : Ret α
  deriving DecidableEq, Repr

/-- Runs a sequence of calls, each to completion, in the order given (the order
in which the calls acquire the mutex for their final, successful predicate
check).  `none`: some call of the sequence cannot complete in the state it
meets. -/
def run (q : circular_queue α) : List (Op α) → Option (circular_queue α × List (Step α))
  | [] => some (q, [])
  | op :: ops =>
    match q.call op with
    | none => none
    | some (q1, r) =>
      match run q1 ops with
      | none => none
      | some (q2, tr) => some (q2, ⟨q, op, r⟩ :: tr)

/-- The handle a step stored in the queue, if the step is a completed write:
`write` always, `timed_write`/`try_writing` when they returned `true`. -/
def Step.stored (s : Step α) : List (Option α) :=
  match s.op, s.ret with
  | Op.write message, Ret.write _ => [message]
  | Op.timed_write message _, Ret.timed_write true _ => [message]
  | Op.try_writing message, Ret.try_writing true _ => [message]
  | _, _ => []

/-- The handle a step took out of the queue, if the step is a completed read:
`read` always, `timed_read` when it did not time out, `try_reading` when it took
its `count > 0` branch. -/
def Step.taken (s : Step α) : List (Option α) :=
  match s.op, s.ret with
  | Op.read, Ret.read m => [m]
  | Op.timed_read _ _, Ret.timed_read m false => [m]
  | Op.try_reading, Ret.try_reading m => if s.pre.count > 0 then [m] else []
  | _, _ => []

/-- All handles stored by the completed writes of a record, in order. -/
def written (tr : List (Step α)) : List (Option α) :=
  tr.flatMap Step.stored

/-- All handles handed out by the completed reads of a record, in order. -/
def returned (tr : List (Step α)) : List (Option α) :=
  tr.flatMap Step.taken

/-- The queued handles, oldest first: the slots `read_index`, `read_index + 1`,
... (modulo `size`), `count` of them. -/
def contents (q : circular_queue α) : List (Option α) :=
  (List.range q.count).map fun i => q.data.getD ((q.read_index + i) % q.size) none

/-- States a queue constructed with argument `c` can be in after some sequence
of completed calls. -/
def Reachable (c : Int) (q : circular_queue α) : Prop :=
  ∃ (q0 : circular_queue α) (ops : List (Op α)) (tr : List (Step α)),
    construct c = Except.ok q0 ∧ run q0 ops = some (q, tr)

/-- The ring-buffer state invariant. -/
structure Inv (q : circular_queue α) : Prop where
  size_pos : 0 < q.size
  size_lt : q.size < SIZE_T_MOD
  data_len : q.data.length = q.size
  read_lt : q.read_index < q.size
  write_lt : q.write_index < q.size
  count_le : q.count ≤ q.size
  write_eq : q.write_index = (q.read_index + q.count) % q.size

/-- What is left of a queue state when the transported handles are
disregarded: `size`, `read_index`, `write_index`, `count` and the number of
slots. -/
def shape (q : circular_queue α) : Nat × Nat × Nat × Nat × Nat :=
  (q.size, q.read_index, q.write_index, q.count, q.data.length)

/-- A call with the handle it passes disregarded. -/
def Op.erase : Op α → Op Unit
  | Op.write _ => Op.write none
  | Op.read => Op.read
  | Op.timed_write _ duration => Op.timed_write none duration
  | Op.timed_read duration timed_out => Op.timed_read duration timed_out
  | Op.try_writing _ => Op.try_writing none
  | Op.try_reading => Op.try_reading
  | Op.msg_count => Op.msg_count

/-- What a call hands back with the handles disregarded: which call returned,
and its flag or count. -/
def Ret.erase : Ret α → Ret Unit
  | Ret.write _ => Ret.write none
  | Ret.read _ => Ret.read none
  | Ret.timed_write ok _ => Ret.timed_write ok none
  | Ret.timed_read _ timed_out => Ret.timed_read none timed_out
  | Ret.try_writing ok _ => Ret.try_writing ok none
  | Ret.try_reading _ => Ret.try_reading none
  | Ret.msg_count n => Ret.msg_count n

/-- Slot `i` belongs to the occupied window
`{(read_index + k) mod size | 0 ≤ k < count}`. -/
def occupied (q : circular_queue α) (i : Nat) : Prop :=
  ∃ k, k < q.count ∧ i = (q.read_index + k) % q.size

instance (q : circular_queue α) (i : Nat) : Decidable (occupied q i) :=
  inferInstanceAs (Decidable (∃ k, k < q.count ∧ i = (q.read_index + k) % q.size))

/-- Every slot of the storage outside the occupied window holds an empty
handle. -/
def Clean (q : circular_queue α) : Prop :=
  ∀ i, i < q.size → ¬ occupied q i → q.data.getD i none = none

end circular_queue

/-- Identity of a thread (`std::thread::id`): only equality matters. -/
abbrev thread_id : Type := Nat

/-- The private class `channel::thr_safe_set` (thread_comm.h 230-256): an
`std::unordered_set<std::thread::id>`; the reader-writer mutex carries no
data. -/
structure thr_safe_set where
  owner_ids : Finset thread_id
  deriving DecidableEq

namespace thr_safe_set

/-- Constructor `thr_safe_set()` (thread_comm.h 236): the empty set. -/
def empty : thr_safe_set :=
  ⟨∅⟩

/-- Constructor `thr_safe_set(const std::thread::id _id)` (thread_comm.h
238-240): `owner_ids.insert(_id)` on the empty set. -/
def single (_id : thread_id) : thr_safe_set :=
  ⟨insert _id ∅⟩

/-- `thr_safe_set::present` (thread_comm.h 242-245). -/
def present (s : thr_safe_set) (_id : thread_id) : Bool :=
  decide (_id ∈ s.owner_ids)

/-- `thr_safe_set::add` (thread_comm.h 247-250): `owner_ids.insert(_id)`. -/
def add (s : thr_safe_set) (_id : thread_id) : thr_safe_set :=
  ⟨insert _id s.owner_ids⟩

/-- `thr_safe_set::remove` (thread_comm.h 252-255): `owner_ids.erase(_id)`. -/
def remove (s : thr_safe_set) (_id : thread_id) : thr_safe_set :=
  ⟨s.owner_ids.erase _id⟩

end thr_safe_set

/-- Data members of `channel<T>` (thread_comm.h 258-265). -/
structure channel (α : Type) where
  read_owners : thr_safe_set
  write_owners : thr_safe_set
  non_readers : thr_safe_set
  non_writers : thr_safe_set
  worker_to_read_owner_queue : circular_queue α
  write_owner_to_worker_queue : circular_queue α
  deriving DecidableEq

namespace channel

variable {α : Type}

/-- What a channel call does to its caller: `Except.error Fault.abort` when the
process is aborted, `Except.ok none` when the caller stays suspended inside the
selected queue, `Except.ok (some r)` when the call completes with `r`. -/
abbrev Outcome (β : Type) : Type := Except Fault (Option β)

/-- `channel::assert_read_allowance` (thread_comm.h 267-273). -/
def assert_read_allowance (c : channel α) (_id : thread_id) : Except Fault Unit :=
  if c.non_readers.present _id then Except.error Fault.abort else Except.ok ()

/-- `channel::assert_write_allowance` (thread_comm.h 275-281). -/
def assert_write_allowance (c : channel α) (_id : thread_id) : Except Fault Unit :=
  if c.non_writers.present _id then Except.error Fault.abort else Except.ok ()

/-- Constructor `channel(int read_q_size = 1, int write_q_size = 0)`
(thread_comm.h 284-290), run by thread `creator`
(`std::this_thread::get_id()`).  Members are initialised in declaration order;
either queue constructor may abort or throw, which ends the construction. -/
def construct (creator : thread_id) (read_q_size : Int) (write_q_size : Int) :
    Except Fault (channel α) :=
  match circular_queue.construct read_q_size with
  | Except.error e => Except.error e
  | Except.ok up =>
    match circular_queue.construct
        (if write_q_size = 0 then read_q_size else write_q_size) with
    | Except.error e => Except.error e
    | Except.ok down =>
      Except.ok
        { read_owners := thr_safe_set.single creator,
          write_owners := thr_safe_set.single creator,
          non_readers := thr_safe_set.empty,
          non_writers := thr_safe_set.empty,
          worker_to_read_owner_queue := up,
          write_owner_to_worker_queue := down }

/-- Default arguments of the constructor (`read_q_size = 1`). -/
def default_read_q_size : Int := 1

/-- Default arguments of the constructor (`write_q_size = 0`). -/
def default_write_q_size : Int := 0

/-- `channel::read` (thread_comm.h 303-312), called by thread `_id`. -/
def read (c : channel α) (_id : thread_id) : Outcome (channel α × Option α) :=
  match c.assert_read_allowance _id with
  | Except.error e => Except.error e
  | Except.ok _ =>
    if c.read_owners.present _id then
      match c.worker_to_read_owner_queue.read with
      | none => Except.ok none
      | some (q, m) => Except.ok (some ({ c with worker_to_read_owner_queue := q }, m))
    else
      match c.write_owner_to_worker_queue.read with
      | none => Except.ok none
      | some (q, m) => Except.ok (some ({ c with write_owner_to_worker_queue := q }, m))

/-- `channel::write` (thread_comm.h 314-323), called by thread `_id`: new state
and the caller's handle after the call. -/
def write (c : channel α) (_id : thread_id) (message : Option α) :
    Outcome (channel α × Option α) :=
  match c.assert_write_allowance _id with
  | Except.error e => Except.error e
  | Except.ok _ =>
    if c.write_owners.present _id then
      match c.write_owner_to_worker_queue.write message with
      | none => Except.ok none
      | some (q, message1) =>
        Except.ok (some ({ c with write_owner_to_worker_queue := q }, message1))
    else
      match c.worker_to_read_owner_queue.write message with
      | none => Except.ok none
      | some (q, message1) =>
        Except.ok (some ({ c with worker_to_read_owner_queue := q }, message1))

/-- `channel::try_reading` (thread_comm.h 333-342). -/
def try_reading (c : channel α) (_id : thread_id) : Outcome (channel α × Option α) :=
  match c.assert_read_allowance _id with
  | Except.error e => Except.error e
  | Except.ok _ =>
    if c.read_owners.present _id then
      match c.worker_to_read_owner_queue.try_reading with
      | none => Except.ok none
      | some (q, m) => Except.ok (some ({ c with worker_to_read_owner_queue := q }, m))
    else
      match c.write_owner_to_worker_queue.try_reading with
      | none => Except.ok none
      | some (q, m) => Except.ok (some ({ c with write_owner_to_worker_queue := q }, m))

/-- `channel::timed_read` (thread_comm.h 344-355): new state, returned handle
and the reference parameter `timed_out` after the call. -/
def timed_read (c : channel α) (_id : thread_id) (duration : Int) (timed_out : Bool) :
    Outcome (channel α × Option α × Bool) :=
  match c.assert_read_allowance _id with
  | Except.error e => Except.error e
  | Except.ok _ =>
    if c.read_owners.present _id then
      match c.worker_to_read_owner_queue.timed_read duration timed_out with
      | none => Except.ok none
      | some (q, m, timed_out1) =>
        Except.ok (some ({ c with worker_to_read_owner_queue := q }, m, timed_out1))
    else
      match c.write_owner_to_worker_queue.timed_read duration timed_out with
      | none => Except.ok none
      | some (q, m, timed_out1) =>
        Except.ok (some ({ c with write_owner_to_worker_queue := q }, m, timed_out1))

/-- `channel::read_msg_count` (thread_comm.h 357-363). -/
def read_msg_count (c : channel α) (_id : thread_id) : Nat :=
  if c.read_owners.present _id then
    c.worker_to_read_owner_queue.msg_count
  else
    c.write_owner_to_worker_queue.msg_count

/-- `channel::try_writing` (thread_comm.h 365-374): new state, the caller's
handle after the call and the returned flag. -/
def try_writing (c : channel α) (_id : thread_id) (message : Option α) :
    Outcome (channel α × Option α × Bool) :=
  match c.assert_write_allowance _id with
  | Except.error e => Except.error e
  | Except.ok _ =>
    if c.write_owners.present _id then
      match c.write_owner_to_worker_queue.try_writing message with
      | none => Except.ok none
      | some (q, message1, ok) =>
        Except.ok (some ({ c with write_owner_to_worker_queue := q }, message1, ok))
    else
      match c.worker_to_read_owner_queue.try_writing message with
      | none => Except.ok none
      | some (q, message1, ok) =>
        Except.ok (some ({ c with worker_to_read_owner_queue := q }, message1, ok))

/-- `channel::timed_write` (thread_comm.h 376-386). -/
def timed_write (c : channel α) (_id : thread_id) (message : Option α) (duration : Int) :
    Outcome (channel α × Option α × Bool) :=
  match c.assert_write_allowance _id with
  | Except.error e => Except.error e
  | Except.ok _ =>
    if c.write_owners.present _id then
      match c.write_owner_to_worker_queue.timed_write message duration with
      | none => Except.ok none
      | some (q, message1, ok) =>
        Except.ok (some ({ c with write_owner_to_worker_queue := q }, message1, ok))
    else
      match c.worker_to_read_owner_queue.timed_write message duration with
      | none => Except.ok none
      | some (q, message1, ok) =>
        Except.ok (some ({ c with worker_to_read_owner_queue := q }, message1, ok))

/-- `channel::write_msg_count` (thread_comm.h 388-394). -/
def write_msg_count (c : channel α) (_id : thread_id) : Nat :=
  if c.write_owners.present _id then
    c.write_owner_to_worker_queue.msg_count
  else
    c.worker_to_read_owner_queue.msg_count

/-- `channel::become_a_non_reader` (thread_comm.h 396-399). -/
def become_a_non_reader (c : channel α) (_id : thread_id) : channel α :=
  let read_owners := c.read_owners.remove _id
  let non_readers := c.non_readers.add _id
  { c with read_owners := read_owners, non_readers := non_readers }

/-- `channel::become_a_non_writer` (thread_comm.h 401-404). -/
def become_a_non_writer (c : channel α) (_id : thread_id) : channel α :=
  let write_owners := c.write_owners.remove _id
  let non_writers := c.non_writers.add _id
  { c with write_owners := write_owners, non_writers := non_writers }

/-- `channel::become_a_read_owner` (thread_comm.h 406-410). -/
def become_a_read_owner (c : channel α) (_id : thread_id) : Except Fault (channel α) :=
  match c.assert_read_allowance _id with
  | Except.error e => Except.error e
  | Except.ok _ => Except.ok { c with read_owners := c.read_owners.add _id }

/-- `channel::become_a_write_owner` (thread_comm.h 412-416). -/
def become_a_write_owner (c : channel α) (_id : thread_id) : Except Fault (channel α) :=
  match c.assert_write_allowance _id with
  | Except.error e => Except.error e
  | Except.ok _ => Except.ok { c with write_owners := c.write_owners.add _id }

/-- The public operations of a channel, with their arguments. -/
inductive Call (α : Type) where
  | read
  | write (message : Option α)
  | try_reading
  | timed_read (duration : Int) (timed_out : Bool)
  | read_msg_count
  | try_writing (message : Option α)
  | timed_write (message : Option α) (duration : Int)
  | write_msg_count
  | become_a_non_reader
  | become_a_non_writer
  | become_a_read_owner
  | become_a_write_owner
  deriving DecidableEq

/-- What a completed channel call hands back to its caller: the return value
and the final value of each reference parameter. -/
inductive Reply (α : Type) where
  | read (m : Option α)
  | write (message : Option α)
  | try_reading (m : Option α)
  | timed_read (m : Option α) (timed_out : Bool)
  | msg_count (n : Nat)
  | try_writing (ok : Bool) (message : Option α)
  | timed_write (ok : Bool) (message : Option α)
  | void
  deriving DecidableEq

/-- One call by thread `_id` on channel state `c`: dispatch to the member
function. -/
def call (c : channel α) (_id : thread_id) : Call α → Outcome (channel α × Reply α)
  | Call.read =>
    match c.read _id with
    | Except.error e => Except.error e
    | Except.ok none => Except.ok none
    | Except.ok (some (c1, m)) => Except.ok (some (c1, Reply.read m))
  | Call.write message =>
    match c.write _id message with
    | Except.error e => Except.error e
    | Except.ok none => Except.ok none
    | Except.ok (some (c1, message1)) => Except.ok (some (c1, Reply.write message1))
  | Call.try_reading =>
    match c.try_reading _id with
    | Except.error e => Except.error e
    | Except.ok none => Except.ok none
    | Except.ok (some (c1, m)) => Except.ok (some (c1, Reply.try_reading m))
  | Call.timed_read duration timed_out =>
    match c.timed_read _id duration timed_out with
    | Except.error e => Except.error e
    | Except.ok none => Except.ok none
    | Except.ok (some (c1, m, timed_out1)) =>
      Except.ok (some (c1, Reply.timed_read m timed_out1))
  | Call.read_msg_count => Except.ok (some (c, Reply.msg_count (c.read_msg_count _id)))
  | Call.try_writing message =>
    match c.try_writing _id message with
    | Except.error e => Except.error e
    | Except.ok none => Except.ok none
    | Except.ok (some (c1, message1, ok)) =>
      Except.ok (some (c1, Reply.try_writing ok message1))
  | Call.timed_write message duration =>
    match c.timed_write _id message duration with
    | Except.error e => Except.error e
    | Except.ok none => Except.ok none
    | Except.ok (some (c1, message1, ok)) =>
      Except.ok (some (c1, Reply.timed_write ok message1))
  | Call.write_msg_count => Except.ok (some (c, Reply.msg_count (c.write_msg_count _id)))
  | Call.become_a_non_reader => Except.ok (some (c.become_a_non_reader _id, Reply.void))
  | Call.become_a_non_writer => Except.ok (some (c.become_a_non_writer _id, Reply.void))
  | Call.become_a_read_owner =>
    match c.become_a_read_owner _id with
    | Except.error e => Except.error e
    | Except.ok c1 => Except.ok (some (c1, Reply.void))
  | Call.become_a_write_owner =>
    match c.become_a_write_owner _id with
    | Except.error e => Except.error e
    | Except.ok c1 => Except.ok (some (c1, Reply.void))

/-- Runs a sequence of calls, each by the thread named with it and each to
completion, in the order given.  `Except.error`: a call aborted the process;
`Except.ok none`: a call cannot complete in the state it meets. -/
def run (c : channel α) : List (thread_id × Call α) → Outcome (channel α × List (Reply α))
  | [] => Except.ok (some (c, []))
  | (t, op) :: rest =>
    match c.call t op with
    | Except.error e => Except.error e
    | Except.ok none => Except.ok none
    | Except.ok (some (c1, r)) =>
      match run c1 rest with
      | Except.error e => Except.error e
      | Except.ok none => Except.ok none
      | Except.ok (some (c2, rs)) => Except.ok (some (c2, r :: rs))

/-- The four role sets of two channel states coincide. -/
def same_roles (c c1 : channel α) : Prop :=
  c1.read_owners = c.read_owners ∧ c1.write_owners = c.write_owners ∧
    c1.non_readers = c.non_readers ∧ c1.non_writers = c.non_writers

/-- The two queue members of a channel (thread_comm.h 264-265). -/
inductive Side where
  | worker_to_read_owner
  | write_owner_to_worker
  deriving DecidableEq, Repr

/-- The queue the read functions hand the call to: the test
`read_owners.present(_id)` of `read`, `try_reading`, `timed_read` and
`read_msg_count` (thread_comm.h 307-311, 337-341, 350-354, 358-362). -/
def read_side (c : channel α) (_id : thread_id) : Side :=
  if c.read_owners.present _id then Side.worker_to_read_owner
  else Side.write_owner_to_worker

/-- The queue the write functions hand the call to: the test
`write_owners.present(_id)` of `write`, `try_writing`, `timed_write` and
`write_msg_count` (thread_comm.h 318-322, 369-373, 381-385, 389-393). -/
def write_side (c : channel α) (_id : thread_id) : Side :=
  if c.write_owners.present _id then Side.write_owner_to_worker
  else Side.worker_to_read_owner

/-- The queue member named by a side. -/
def queue (c : channel α) : Side → circular_queue α
  | Side.worker_to_read_owner => c.worker_to_read_owner_queue
  | Side.write_owner_to_worker => c.write_owner_to_worker_queue

/-- The channel with the queue member named by a side replaced. -/
def with_queue (c : channel α) (s : Side) (q : circular_queue α) : channel α :=
  match s with
  | Side.worker_to_read_owner => { c with worker_to_read_owner_queue := q }
  | Side.write_owner_to_worker => { c with write_owner_to_worker_queue := q }

/-- States a channel constructed by thread `creator` as `channel(up, down)` can
be in after some sequence of completed calls by any threads. -/
def Reachable (creator : thread_id) (up down : Int) (c : channel α) : Prop :=
  ∃ (c0 : channel α) (calls : List (thread_id × Call α)) (rs : List (Reply α)),
    construct creator up down = Except.ok c0 ∧ c0.run calls = Except.ok (some (c, rs))

/-- No thread is both an owner and barred, in either direction. -/
def roles_disjoint (c : channel α) : Prop :=
  ∀ t : thread_id,
    ¬ (c.read_owners.present t = true ∧ c.non_readers.present t = true) ∧
    ¬ (c.write_owners.present t = true ∧ c.non_writers.present t = true)

end channel

namespace scenario

variable {α : Type}

/-- The threads of the producer / workers / collector scenario. -/
inductive Actor where
  | creator
  | producer
  | collector
  | worker (j : Nat)
  deriving DecidableEq

/-- Progress of one worker thread, whose program is: read one handle, apply
the transformation, write the result. -/
inductive Worker (α : Type) where
  | idle
  | holding (m : Option α)
  | finished (m : Option α)
  deriving DecidableEq

/-- Thread identities of the scenario. -/
structure Ids where
  creator : thread_id
  producer : thread_id
  collector : thread_id
  worker : Nat → thread_id

/-- State of the scenario: the shared channel and the progress of every thread.
The creator's program is `become_a_non_writer(); become_a_non_reader()`, the
producer's is `become_a_write_owner()` followed by one `write` per value, the
collector's is `become_a_read_owner()` followed by one `read` per value. -/
structure Sys (α : Type) where
  ch : channel α
  creator_pc : Nat
  producer_ready : Bool
  to_send : List (Option α)
  workers : List (Worker α)
  collector_ready : Bool
  to_collect : Nat
  collected : List (Option α)

/-- Start of the scenario: thread `ids.creator` constructs `channel(up, down)`;
there is one worker and one collector read per value to send. -/
def init (ids : Ids) (up down : Int) (vs : List (Option α)) : Except Fault (Sys α) :=
  match channel.construct ids.creator up down with
  | Except.error e => Except.error e
  | Except.ok ch =>
    Except.ok
      { ch := ch, creator_pc := 0, producer_ready := false, to_send := vs,
        workers := List.replicate vs.length Worker.idle, collector_ready := false,
        to_collect := vs.length, collected := [] }

/-- The next call of thread `a`'s program, run on the shared channel.
`Except.error`: the call aborted the process; `Except.ok none`: the thread
cannot move (its call would stay suspended, or its program is over). -/
def step (ids : Ids) (f : Nat → Option α → Option α) (s : Sys α) :
    Actor → channel.Outcome (Sys α)
  | Actor.creator =>
    match s.creator_pc with
    | 0 =>
      Except.ok (some { s with ch := s.ch.become_a_non_writer ids.creator, creator_pc := 1 })
    | 1 =>
      Except.ok (some { s with ch := s.ch.become_a_non_reader ids.creator, creator_pc := 2 })
    | _ => Except.ok none
  | Actor.producer =>
    if s.producer_ready then
      match s.to_send with
      | [] => Except.ok none
      | v :: rest =>
        match s.ch.write ids.producer v with
        | Except.error e => Except.error e
        | Except.ok none => Except.ok none
        | Except.ok (some (ch, _)) => Except.ok (some { s with ch := ch, to_send := rest })
    else
      match s.ch.become_a_write_owner ids.producer with
      | Except.error e => Except.error e
      | Except.ok ch => Except.ok (some { s with ch := ch, producer_ready := true })
  | Actor.collector =>
    if s.collector_ready then
      match s.to_collect with
      | 0 => Except.ok none
      | n + 1 =>
        match s.ch.read ids.collector with
        | Except.error e => Except.error e
        | Except.ok none => Except.ok none
        | Except.ok (some (ch, m)) =>
          Except.ok (some { s with ch := ch, to_collect := n, collected := s.collected ++ [m] })
    else
      match s.ch.become_a_read_owner ids.collector with
      | Except.error e => Except.error e
      | Except.ok ch => Except.ok (some { s with ch := ch, collector_ready := true })
  | Actor.worker j =>
    match s.workers[j]? with
    | none => Except.ok none
    | some Worker.idle =>
      match s.ch.read (ids.worker j) with
      | Except.error e => Except.error e
      | Except.ok none => Except.ok none
      | Except.ok (some (ch, m)) =>
        Except.ok (some { s with ch := ch, workers := s.workers.set j (Worker.holding m) })
    | some (Worker.holding m) =>
      match s.ch.write (ids.worker j) (f j m) with
      | Except.error e => Except.error e
      | Except.ok none => Except.ok none
      | Except.ok (some (ch, _)) =>
        Except.ok (some { s with ch := ch, workers := s.workers.set j (Worker.finished m) })
    | some (Worker.finished _) => Except.ok none

/-- An interleaving: the threads move in the order listed, each move being the
next call of that thread's program run to completion. -/
def run (ids : Ids) (f : Nat → Option α → Option α) (s : Sys α) :
    List Actor → channel.Outcome (Sys α)
  | [] => Except.ok (some s)
  | a :: rest =>
    match step ids f s a with
    | Except.error e => Except.error e
    | Except.ok none => Except.ok none
    | Except.ok (some s1) => run ids f s1 rest

/-- Every thread has run its whole program. -/
def completed (s : Sys α) : Prop :=
  s.creator_pc = 2 ∧ s.producer_ready = true ∧ s.to_send = [] ∧
    (∀ w ∈ s.workers, ∃ m, w = Worker.finished m) ∧
    s.collector_ready = true ∧ s.to_collect = 0

/-- The handles the workers have read so far, in worker order. -/
def inputs : List (Worker α) → List (Option α)
  | [] => []
  | Worker.idle :: ws => inputs ws
  | Worker.holding m :: ws => m :: inputs ws
  | Worker.finished m :: ws => m :: inputs ws

/-- The handles the workers have written so far, in worker order; the first
worker of the list has index `n`. -/
def outputs (f : Nat → Option α → Option α) : Nat → List (Worker α) → List (Option α)
  | _, [] => []
  | n, Worker.finished m :: ws => f n m :: outputs f (n + 1) ws
  | n, Worker.idle :: ws => outputs f (n + 1) ws
  | n, Worker.holding _ :: ws => outputs f (n + 1) ws

/-- The results of workers `n`, `n + 1`, ... applied to the handles `ms`. -/
def results (f : Nat → Option α → Option α) : Nat → List (Option α) → List (Option α)
  | _, [] => []
  | n, m :: ms => f n m :: results f (n + 1) ms

/-- The identities the scenario needs to be different: the creator is neither
the producer nor the collector, and the first `k` workers are none of the
three. -/
def Ids.distinct (ids : Ids) (k : Nat) : Prop :=
  ids.creator ≠ ids.producer ∧ ids.creator ≠ ids.collector ∧
    ∀ j, j < k → ids.worker j ≠ ids.creator ∧ ids.worker j ≠ ids.producer ∧
      ids.worker j ≠ ids.collector

/-- Invariant of the scenario for the values `vs` to send: both queues satisfy
the ring invariant; only the creator has renounced a direction; the owner sets
hold at most the creator and the thread that claimed the role; every value is
either still to send, in queueDown, or was read by a worker; every result
written by a worker is either in queueUp or was collected. -/
structure SInv (ids : Ids) (f : Nat → Option α → Option α) (vs : List (Option α))
    (s : Sys α) : Prop where
  up_inv : s.ch.worker_to_read_owner_queue.Inv
  down_inv : s.ch.write_owner_to_worker_queue.Inv
  non_readers : ∀ t, s.ch.non_readers.present t = true → t = ids.creator
  non_writers : ∀ t, s.ch.non_writers.present t = true → t = ids.creator
  read_owners : ∀ t, s.ch.read_owners.present t = true →
    t = ids.creator ∨ t = ids.collector
  write_owners : ∀ t, s.ch.write_owners.present t = true →
    t = ids.creator ∨ t = ids.producer
  producer_owner : s.producer_ready = true →
    s.ch.write_owners.present ids.producer = true
  collector_owner : s.collector_ready = true →
    s.ch.read_owners.present ids.collector = true
  n_workers : s.workers.length = vs.length
  n_collect : s.to_collect + s.collected.length = vs.length
  sent : vs.Perm (s.to_send ++ s.ch.write_owner_to_worker_queue.contents ++
    inputs s.workers)
  got : (outputs f 0 s.workers).Perm
    (s.ch.worker_to_read_owner_queue.contents ++ s.collected)

/-- The state of the scenario between two rounds of the sequential
interleaving, `i` rounds being over: all role calls are made, both queues are
empty, the values from position `i` on are still to send, workers below `i`
have finished and the others have not started, and the collector has `i` reads
behind it. -/
structure Ready (vs : List (Option α)) (i : Nat) (s : Sys α) : Prop where
  creator_done : s.creator_pc = 2
  producer_ready : s.producer_ready = true
  collector_ready : s.collector_ready = true
  down_empty : s.ch.write_owner_to_worker_queue.count = 0
  up_empty : s.ch.worker_to_read_owner_queue.count = 0
  to_send : s.to_send = vs.drop i
  to_collect : s.to_collect + i = vs.length
  done : ∀ j, j < i → ∃ m, s.workers[j]? = some (Worker.finished m)
  idle : ∀ j, i ≤ j → j < vs.length → s.workers[j]? = some Worker.idle

/-- The sequential interleaving: the four role calls, then for each worker in
turn a producer write, the worker's read and write, and a collector read. -/
def sequential : Nat → Nat → List Actor
  | _, 0 => []
  | j, k + 1 =>
    Actor.producer :: Actor.worker j :: Actor.worker j :: Actor.collector ::
      sequential (j + 1) k

end scenario

namespace circular_queue

variable {α : Type}

/-! ## Lemmas on the embedding -/

theorem mod_wrap (a b n : Nat) (ha : a < n) (hb : b ≤ n) :
    (a + b) % n = if a + b < n then a + b else a + b - n := by
  split
  · next h => exact Nat.mod_eq_of_lt h
  · next h =>
    have h1 : a + b = (a + b - n) + n := by omega
    rw [h1, Nat.add_mod_right, Nat.mod_eq_of_lt (by omega)]
    omega

theorem store_fields (q : circular_queue α) (message : Option α)
    (hw : q.write_index < q.size) (hs : q.size < SIZE_T_MOD) (hc : q.count < q.size) :
    (q._write_store message).size = q.size ∧
    (q._write_store message).read_index = q.read_index ∧
    (q._write_store message).write_index = (q.write_index + 1) % q.size ∧
    (q._write_store message).count = q.count + 1 ∧
    (q._write_store message).data = q.data.set q.write_index message := by
  unfold SIZE_T_MOD at hs
  refine ⟨rfl, rfl, ?_, ?_, rfl⟩
  · show (if (q.write_index + 1) % SIZE_T_MOD = q.size then 0 else (q.write_index + 1) % SIZE_T_MOD) = _
    unfold SIZE_T_MOD
    have h1 : (q.write_index + 1) % 18446744073709551616 = q.write_index + 1 := by omega
    rw [h1]
    by_cases h : q.write_index + 1 = q.size
    · rw [if_pos h, h, Nat.mod_self]
    · rw [if_neg h, Nat.mod_eq_of_lt (by omega)]
  · show (q.count + 1) % SIZE_T_MOD = _
    unfold SIZE_T_MOD
    omega

theorem take_fields (q : circular_queue α)
    (hr : q.read_index < q.size) (hs : q.size < SIZE_T_MOD) (hc : 0 < q.count)
    (hcs : q.count ≤ q.size) :
    (q._read_take).1.size = q.size ∧
    (q._read_take).1.read_index = (q.read_index + 1) % q.size ∧
    (q._read_take).1.write_index = q.write_index ∧
    (q._read_take).1.count = q.count - 1 ∧
    (q._read_take).1.data = q.data.set q.read_index none ∧
    (q._read_take).2 = q.data.getD q.read_index none := by
  unfold SIZE_T_MOD at hs
  refine ⟨rfl, ?_, rfl, ?_, rfl, rfl⟩
  · show (if (q.read_index + 1) % SIZE_T_MOD = q.size then 0 else (q.read_index + 1) % SIZE_T_MOD) = _
    unfold SIZE_T_MOD
    have h1 : (q.read_index + 1) % 18446744073709551616 = q.read_index + 1 := by omega
    rw [h1]
    by_cases h : q.read_index + 1 = q.size
    · rw [if_pos h, h, Nat.mod_self]
    · rw [if_neg h, Nat.mod_eq_of_lt (by omega)]
  · show (q.count + SIZE_T_MOD - 1) % SIZE_T_MOD = _
    unfold SIZE_T_MOD
    omega


theorem write_eq (q : circular_queue α) (message : Option α) :
    q.write message =
      if q.count < q.size then some (q._write_store message, none) else none := by
  unfold write _write cv_wait
  by_cases h : q.count < q.size <;> simp [h]

theorem read_eq (q : circular_queue α) :
    q.read = if 0 < q.count then some (q._read_take) else none := by
  unfold read _read cv_wait
  by_cases h : 0 < q.count <;> simp [h]

theorem timed_write_eq (q : circular_queue α) (message : Option α) (duration : Int) :
    q.timed_write message duration =
      if q.count < q.size then some (q._write_store message, none, true)
      else some (q, message, false) := by
  unfold timed_write _write cv_wait_for timeout_data.init
  by_cases h : q.count < q.size <;> simp [h]

theorem timed_read_eq (q : circular_queue α) (duration : Int) (timed_out : Bool) :
    q.timed_read duration timed_out =
      if 0 < q.count then some ((q._read_take).1, (q._read_take).2, false)
      else some (q, none, true) := by
  unfold timed_read _read cv_wait_for timeout_data.init
  by_cases h : 0 < q.count <;> simp [h]

theorem try_writing_eq (q : circular_queue α) (message : Option α) :
    q.try_writing message =
      if q.count < q.size then some (q._write_store message, none, true)
      else some (q, message, false) := by
  unfold try_writing _write cv_wait
  by_cases h : q.count < q.size <;> simp [h]

theorem try_reading_eq (q : circular_queue α) :
    q.try_reading = if 0 < q.count then some (q._read_take) else some (q, none) := by
  unfold try_reading _read cv_wait
  by_cases h : 0 < q.count <;> simp [h]

theorem inv_store (q : circular_queue α) (message : Option α) (hq : Inv q)
    (hc : q.count < q.size) : Inv (q._write_store message) := by
  obtain ⟨h1, h2, h3, h4, h5⟩ := store_fields q message hq.write_lt hq.size_lt hc
  have hw := hq.write_eq
  have hr := hq.read_lt
  have hwl := hq.write_lt
  rw [mod_wrap _ _ _ hr hq.count_le] at hw
  refine ⟨?_, ?_, ?_, ?_, ?_, ?_, ?_⟩
  · rw [h1]; exact hq.size_pos
  · rw [h1]; exact hq.size_lt
  · rw [h5, h1, List.length_set]; exact hq.data_len
  · rw [h2, h1]; exact hr
  · rw [h3, h1]; exact Nat.mod_lt _ hq.size_pos
  · rw [h4, h1]; omega
  · rw [h3, h2, h4, h1, mod_wrap _ _ _ hwl (by omega), mod_wrap _ _ _ hr (by omega)]
    split at hw <;> split <;> split <;> omega

theorem inv_take (q : circular_queue α) (hq : Inv q) (hc : 0 < q.count) :
    Inv (q._read_take).1 := by
  obtain ⟨h1, h2, h3, h4, h5, _⟩ := take_fields q hq.read_lt hq.size_lt hc hq.count_le
  have hw := hq.write_eq
  have hr := hq.read_lt
  have hcl := hq.count_le
  rw [mod_wrap _ _ _ hr hq.count_le] at hw
  refine ⟨?_, ?_, ?_, ?_, ?_, ?_, ?_⟩
  · rw [h1]; exact hq.size_pos
  · rw [h1]; exact hq.size_lt
  · rw [h5, h1, List.length_set]; exact hq.data_len
  · rw [h2, h1]; exact Nat.mod_lt _ hq.size_pos
  · rw [h3, h1]; exact hq.write_lt
  · rw [h4, h1]; omega
  · have hlt : (q.read_index + 1) % q.size < q.size := Nat.mod_lt _ hq.size_pos
    rw [h3, h2, h4, h1, mod_wrap _ _ _ hlt (by omega)]
    rw [mod_wrap _ _ _ hr (by omega)]
    split at hw <;> split <;> split <;> omega


theorem getD_set_ne (l : List (Option α)) (i j : Nat) (v : Option α) (h : i ≠ j) :
    (l.set i v).getD j none = l.getD j none := by
  simp [List.getD_eq_getElem?_getD, List.getElem?_set_ne h]

theorem getD_set_eq (l : List (Option α)) (i : Nat) (v : Option α) (h : i < l.length) :
    (l.set i v).getD i none = v := by
  simp [List.getD_eq_getElem?_getD, h]

theorem contents_store (q : circular_queue α) (message : Option α) (hq : Inv q)
    (hc : q.count < q.size) :
    contents (q._write_store message) = contents q ++ [message] := by
  obtain ⟨h1, h2, h3, h4, h5⟩ := store_fields q message hq.write_lt hq.size_lt hc
  have hw := hq.write_eq
  have hr := hq.read_lt
  unfold contents
  rw [h1, h2, h4, h5, List.range_succ, List.map_append, List.map_singleton]
  congr 1
  · apply List.map_congr_left
    intro i hi
    rw [List.mem_range] at hi
    apply getD_set_ne
    rw [hw, mod_wrap _ _ _ hr hq.count_le, mod_wrap _ _ _ hr (by omega)]
    split <;> split <;> omega
  · rw [← hw, getD_set_eq _ _ _ (by rw [hq.data_len]; exact hq.write_lt)]

theorem contents_take (q : circular_queue α) (hq : Inv q) (hc : 0 < q.count) :
    contents q = (q._read_take).2 :: contents (q._read_take).1 := by
  obtain ⟨h1, h2, h3, h4, h5, h6⟩ := take_fields q hq.read_lt hq.size_lt hc hq.count_le
  have hr := hq.read_lt
  have hcl := hq.count_le
  unfold contents
  rw [h1, h2, h4, h5, h6]
  obtain ⟨n, hn⟩ : ∃ n, q.count = n + 1 := ⟨q.count - 1, by omega⟩
  rw [hn, List.range_succ_eq_map, List.map_cons, List.map_map, Nat.add_sub_cancel]
  refine congrArg₂ List.cons ?_ ?_
  · rw [Nat.add_zero, Nat.mod_eq_of_lt hr]
  · apply List.map_congr_left
    intro i hi
    rw [List.mem_range] at hi
    have hlt : (q.read_index + 1) % q.size < q.size := Nat.mod_lt _ hq.size_pos
    have e : ((q.read_index + 1) % q.size + i) % q.size = (q.read_index + (i + 1)) % q.size := by
      rw [mod_wrap _ _ _ hlt (by omega), mod_wrap _ _ _ hr (by omega),
        mod_wrap _ _ _ hr (by omega)]
      split <;> split <;> split <;> omega
    show q.data.getD ((q.read_index + (i + 1)) % q.size) none = _
    rw [e]
    symm
    apply getD_set_ne
    rw [mod_wrap _ _ _ hr (by omega)]
    split <;> omega


theorem size_store (q : circular_queue α) (message : Option α) :
    (q._write_store message).size = q.size := rfl

theorem size_take (q : circular_queue α) : (q._read_take).1.size = q.size := rfl

theorem contents_length (q : circular_queue α) : (contents q).length = q.count := by
  simp [contents]

theorem call_cases (q q1 : circular_queue α) (op : Op α) (r : Ret α)
    (h : q.call op = some (q1, r)) :
    (q.count < q.size ∧ ∃ m, q1 = q._write_store m ∧
        Step.stored ⟨q, op, r⟩ = [m] ∧ Step.taken ⟨q, op, r⟩ = []) ∨
    (0 < q.count ∧ q1 = (q._read_take).1 ∧
        Step.stored ⟨q, op, r⟩ = [] ∧ Step.taken ⟨q, op, r⟩ = [(q._read_take).2]) ∨
    (q1 = q ∧ Step.stored ⟨q, op, r⟩ = [] ∧ Step.taken ⟨q, op, r⟩ = []) := by
  cases op with
  | write message =>
    simp only [call, write_eq] at h
    by_cases hc : q.count < q.size
    · simp only [if_pos hc, Option.some.injEq, Prod.mk.injEq] at h
      obtain ⟨rfl, rfl⟩ := h
      exact Or.inl ⟨hc, message, rfl, rfl, rfl⟩
    · simp [if_neg hc] at h
  | read =>
    simp only [call, read_eq] at h
    by_cases hc : 0 < q.count
    · simp only [if_pos hc, Option.some.injEq, Prod.mk.injEq] at h
      obtain ⟨rfl, rfl⟩ := h
      exact Or.inr (Or.inl ⟨hc, rfl, rfl, rfl⟩)
    · simp [if_neg hc] at h
  | timed_write message duration =>
    simp only [call, timed_write_eq] at h
    by_cases hc : q.count < q.size
    · simp only [if_pos hc, Option.some.injEq, Prod.mk.injEq] at h
      obtain ⟨rfl, rfl⟩ := h
      exact Or.inl ⟨hc, message, rfl, rfl, rfl⟩
    · simp only [if_neg hc, Option.some.injEq, Prod.mk.injEq] at h
      obtain ⟨rfl, rfl⟩ := h
      exact Or.inr (Or.inr ⟨rfl, rfl, rfl⟩)
  | timed_read duration timed_out =>
    simp only [call, timed_read_eq] at h
    by_cases hc : 0 < q.count
    · simp only [if_pos hc, Option.some.injEq, Prod.mk.injEq] at h
      obtain ⟨rfl, rfl⟩ := h
      exact Or.inr (Or.inl ⟨hc, rfl, rfl, rfl⟩)
    · simp only [if_neg hc, Option.some.injEq, Prod.mk.injEq] at h
      obtain ⟨rfl, rfl⟩ := h
      exact Or.inr (Or.inr ⟨rfl, rfl, rfl⟩)
  | try_writing message =>
    simp only [call, try_writing_eq] at h
    by_cases hc : q.count < q.size
    · simp only [if_pos hc, Option.some.injEq, Prod.mk.injEq] at h
      obtain ⟨rfl, rfl⟩ := h
      exact Or.inl ⟨hc, message, rfl, rfl, rfl⟩
    · simp only [if_neg hc, Option.some.injEq, Prod.mk.injEq] at h
      obtain ⟨rfl, rfl⟩ := h
      exact Or.inr (Or.inr ⟨rfl, rfl, rfl⟩)
  | try_reading =>
    simp only [call, try_reading_eq] at h
    by_cases hc : 0 < q.count
    · simp only [if_pos hc, Option.some.injEq, Prod.mk.injEq] at h
      obtain ⟨rfl, rfl⟩ := h
      exact Or.inr (Or.inl ⟨hc, rfl, rfl, by simp [Step.taken, hc]⟩)
    · simp only [if_neg hc, Option.some.injEq, Prod.mk.injEq] at h
      obtain ⟨rfl, rfl⟩ := h
      exact Or.inr (Or.inr ⟨rfl, rfl, by simp [Step.taken, hc]⟩)
  | msg_count =>
    simp only [call, Option.some.injEq, Prod.mk.injEq] at h
    obtain ⟨rfl, rfl⟩ := h
    exact Or.inr (Or.inr ⟨rfl, rfl, rfl⟩)

theorem call_step (q q1 : circular_queue α) (op : Op α) (r : Ret α) (hq : Inv q)
    (h : q.call op = some (q1, r)) :
    Inv q1 ∧ q1.size = q.size ∧
      contents q ++ Step.stored ⟨q, op, r⟩ = Step.taken ⟨q, op, r⟩ ++ contents q1 := by
  rcases call_cases q q1 op r h with ⟨hc, m, rfl, hs, ht⟩ | ⟨hc, rfl, hs, ht⟩ | ⟨rfl, hs, ht⟩
  · exact ⟨inv_store q m hq hc, rfl, by rw [hs, ht, contents_store q m hq hc]; rfl⟩
  · exact ⟨inv_take q hq hc, rfl, by rw [hs, ht, contents_take q hq hc]; simp⟩
  · exact ⟨hq, rfl, by rw [hs, ht]; simp⟩

theorem run_cons (q : circular_queue α) (op : Op α) (ops : List (Op α))
    (q2 : circular_queue α) (tr : List (Step α)) (h : run q (op :: ops) = some (q2, tr)) :
    ∃ q1 r tr1, q.call op = some (q1, r) ∧ run q1 ops = some (q2, tr1) ∧
      tr = ⟨q, op, r⟩ :: tr1 := by
  simp only [run] at h
  cases hc : q.call op with
  | none => simp [hc] at h
  | some p =>
    obtain ⟨q1, r⟩ := p
    simp only [hc] at h
    cases hr : run q1 ops with
    | none => simp [hr] at h
    | some p2 =>
      obtain ⟨q3, tr1⟩ := p2
      simp only [hr, Option.some.injEq, Prod.mk.injEq] at h
      obtain ⟨rfl, rfl⟩ := h
      exact ⟨q1, r, tr1, rfl, hr, rfl⟩

theorem run_inv (ops : List (Op α)) : ∀ (q q2 : circular_queue α) (tr : List (Step α)),
    Inv q → run q ops = some (q2, tr) →
    Inv q2 ∧ q2.size = q.size ∧ contents q ++ written tr = returned tr ++ contents q2 := by
  induction ops with
  | nil =>
    intro q q2 tr hq h
    simp only [run, Option.some.injEq, Prod.mk.injEq] at h
    obtain ⟨rfl, rfl⟩ := h
    exact ⟨hq, rfl, by simp [written, returned]⟩
  | cons op ops ih =>
    intro q q2 tr hq h
    obtain ⟨q1, r, tr1, hc, hr, rfl⟩ := run_cons q op ops q2 tr h
    obtain ⟨hq1, hs1, e1⟩ := call_step q q1 op r hq hc
    obtain ⟨hq2, hs2, e2⟩ := ih q1 q2 tr1 hq1 hr
    refine ⟨hq2, by rw [hs2, hs1], ?_⟩
    have ew : written (⟨q, op, r⟩ :: tr1) = Step.stored ⟨q, op, r⟩ ++ written tr1 := by
      simp [written]
    have er : returned (⟨q, op, r⟩ :: tr1) = Step.taken ⟨q, op, r⟩ ++ returned tr1 := by
      simp [returned]
    rw [ew, er, ← List.append_assoc, e1, List.append_assoc, e2, List.append_assoc]

theorem construct_ok (c : Int) (q : circular_queue α)
    (h : construct c = Except.ok q) :
    q.size = (c % (SIZE_T_MOD : Int)).toNat ∧ q.size ≠ 0 ∧ q.read_index = 0 ∧
      q.write_index = 0 ∧ q.count = 0 ∧ q.data = List.replicate q.size none := by
  unfold construct construct_size at h
  by_cases hz : (c % (SIZE_T_MOD : Int)).toNat = 0
  · simp [hz] at h
  · by_cases hm : VECTOR_MAX_SIZE < (c % (SIZE_T_MOD : Int)).toNat
    · simp [hz, hm] at h
    · simp only [hz, hm, if_false, Except.ok.injEq] at h
      subst h
      exact ⟨rfl, hz, rfl, rfl, rfl, rfl⟩

theorem inv_construct (c : Int) (q : circular_queue α)
    (h : construct c = Except.ok q) : Inv q := by
  obtain ⟨h1, h2, h3, h4, h5, h6⟩ := construct_ok c q h
  have hlt : q.size < SIZE_T_MOD := by
    rw [h1]
    have := Int.emod_lt_of_pos c (show (0 : Int) < (SIZE_T_MOD : Int) by unfold SIZE_T_MOD; norm_num)
    have h0 := Int.emod_nonneg c (show ((SIZE_T_MOD : Nat) : Int) ≠ 0 by unfold SIZE_T_MOD; norm_num)
    omega
  refine ⟨by omega, hlt, ?_, by omega, by omega, by omega, ?_⟩
  · rw [h6, List.length_replicate]
  · rw [h3, h4, h5]; simp

theorem contents_construct (c : Int) (q : circular_queue α)
    (h : construct c = Except.ok q) : contents q = [] := by
  obtain ⟨_, _, _, _, h5, _⟩ := construct_ok c q h
  simp [contents, h5]


theorem written_append (tr1 tr2 : List (Step α)) :
    written (tr1 ++ tr2) = written tr1 ++ written tr2 := by
  simp [written]

theorem returned_append (tr1 tr2 : List (Step α)) :
    returned (tr1 ++ tr2) = returned tr1 ++ returned tr2 := by
  simp [returned]

theorem run_step (q : circular_queue α) (op : Op α) (ops : List (Op α))
    (q1 : circular_queue α) (r : Ret α) (hc : q.call op = some (q1, r)) :
    run q (op :: ops) =
      match run q1 ops with
      | none => none
      | some (q2, tr) => some (q2, ⟨q, op, r⟩ :: tr) := by
  rw [run, hc]

theorem run_append (ops1 ops2 : List (Op α)) :
    ∀ (q q1 q2 : circular_queue α) (tr1 tr2 : List (Step α)),
      run q ops1 = some (q1, tr1) → run q1 ops2 = some (q2, tr2) →
      run q (ops1 ++ ops2) = some (q2, tr1 ++ tr2) := by
  induction ops1 with
  | nil =>
    intro q q1 q2 tr1 tr2 h1 h2
    simp only [run, Option.some.injEq, Prod.mk.injEq] at h1
    obtain ⟨rfl, rfl⟩ := h1
    simpa using h2
  | cons op ops ih =>
    intro q q1 q2 tr1 tr2 h1 h2
    obtain ⟨qa, r, tra, hc, hr, rfl⟩ := run_cons q op ops q1 tr1 h1
    have h3 := ih qa q1 q2 tra tr2 hr h2
    rw [List.cons_append, run_step q op (ops ++ ops2) qa r hc, h3]
    rfl

theorem run_writes (vs : List (Option α)) :
    ∀ q : circular_queue α, Inv q → q.count + vs.length ≤ q.size →
      ∃ q1 tr, run q (vs.map Op.write) = some (q1, tr) ∧ Inv q1 ∧ q1.size = q.size ∧
        q1.count = q.count + vs.length ∧ written tr = vs ∧ returned tr = [] := by
  induction vs with
  | nil =>
    intro q hq _
    exact ⟨q, [], rfl, hq, rfl, rfl, rfl, rfl⟩
  | cons v vs ih =>
    intro q hq hle
    rw [List.length_cons] at hle
    have hc : q.count < q.size := by omega
    obtain ⟨_, _, _, h4, _⟩ := store_fields q v hq.write_lt hq.size_lt hc
    obtain ⟨q1, tr, hr, hq1, hs, hcnt, hw, hret⟩ :=
      ih (q._write_store v) (inv_store q v hq hc) (by rw [h4, size_store]; omega)
    refine ⟨q1, ⟨q, Op.write v, Ret.write none⟩ :: tr, ?_, hq1, by rw [hs, size_store], ?_, ?_, ?_⟩
    · simp only [List.map_cons, run, call, write_eq, if_pos hc, hr]
    · rw [hcnt, h4, List.length_cons]; omega
    · simp [written, Step.stored] at hw ⊢
      exact hw
    · simp [returned, Step.taken] at hret ⊢
      exact hret

theorem run_reads (k : Nat) :
    ∀ q : circular_queue α, Inv q → k ≤ q.count →
      ∃ q1 tr, run q (List.replicate k Op.read) = some (q1, tr) ∧ Inv q1 ∧ q1.size = q.size ∧
        q1.count + k = q.count ∧ written tr = [] := by
  induction k with
  | zero =>
    intro q hq _
    exact ⟨q, [], rfl, hq, rfl, rfl, rfl⟩
  | succ k ih =>
    intro q hq hle
    have hc : 0 < q.count := by omega
    obtain ⟨_, _, _, h4, _⟩ := take_fields q hq.read_lt hq.size_lt hc hq.count_le
    obtain ⟨q1, tr, hr, hq1, hs, hcnt, hw⟩ :=
      ih (q._read_take).1 (inv_take q hq hc) (by rw [h4]; omega)
    refine ⟨q1, ⟨q, Op.read, Ret.read (q._read_take).2⟩ :: tr, ?_, hq1, by rw [hs, size_take], ?_, ?_⟩
    · simp only [List.replicate_succ, run, call, read_eq, if_pos hc, hr]
    · rw [h4] at hcnt; omega
    · simp [written, Step.stored] at hw ⊢
      exact hw

theorem size_construct (N : Int) (h1 : 1 ≤ N) (h2 : N ≤ INT_MAX) :
    construct (α := α) N =
      Except.ok ⟨N.toNat, 0, 0, 0, List.replicate N.toNat none⟩ := by
  have e : (N % (SIZE_T_MOD : Int)).toNat = N.toNat := by
    unfold INT_MAX at h2
    unfold SIZE_T_MOD
    rw [Int.emod_eq_of_lt (by omega) (by push_cast; omega)]
  have hm : ¬ VECTOR_MAX_SIZE < N.toNat := by
    unfold INT_MAX at h2
    unfold VECTOR_MAX_SIZE
    omega
  unfold construct construct_size
  simp only [e]
  rw [if_neg (by omega), if_neg hm]

theorem run_append_none (ops1 ops2 : List (Op α)) :
    ∀ (q q1 : circular_queue α) (tr1 : List (Step α)),
      run q ops1 = some (q1, tr1) → run q1 ops2 = none → run q (ops1 ++ ops2) = none := by
  induction ops1 with
  | nil =>
    intro q q1 tr1 h1 h2
    simp only [run, Option.some.injEq, Prod.mk.injEq] at h1
    obtain ⟨rfl, rfl⟩ := h1
    simpa using h2
  | cons op ops ih =>
    intro q q1 tr1 h1 h2
    obtain ⟨qa, r, tra, hc, hr, rfl⟩ := run_cons q op ops q1 tr1 h1
    have h3 := ih qa q1 tra hr h2
    rw [List.cons_append, run_step q op (ops ++ ops2) qa r hc, h3]

theorem call_count (q q1 : circular_queue α) (op : Op α) (r : Ret α) (hq : Inv q)
    (h : q.call op = some (q1, r)) :
    (Step.stored ⟨q, op, r⟩ ≠ [] → q1.count = q.count + 1) ∧
    (Step.taken ⟨q, op, r⟩ ≠ [] → q1.count + 1 = q.count) ∧
    (Step.stored ⟨q, op, r⟩ = [] → Step.taken ⟨q, op, r⟩ = [] → q1 = q) ∧
    q1.count + (Step.taken ⟨q, op, r⟩).length = q.count + (Step.stored ⟨q, op, r⟩).length := by
  rcases call_cases q q1 op r h with ⟨hc, m, rfl, hs, ht⟩ | ⟨hc, rfl, hs, ht⟩ | ⟨rfl, hs, ht⟩
  · obtain ⟨_, _, _, h4, _⟩ := store_fields q m hq.write_lt hq.size_lt hc
    rw [hs, ht, h4]
    simp
  · obtain ⟨_, _, _, h4, _⟩ := take_fields q hq.read_lt hq.size_lt hc hq.count_le
    rw [hs, ht, h4]
    simp
    omega
  · rw [hs, ht]
    simp

/-! ## The claims -/

/-- C1: FIFO delivery.  For every capacity `N ≥ 1` (an `int`), construction
succeeds, and after every sequence of completed calls on the fresh queue
(blocking, timed and try variants in any order) the handles stored by the
completed writes are exactly the handles handed out by the completed reads
followed by the handles still queued, so the `i`-th handle read is the `i`-th
handle written.  In particular writing `v1..vk` (`k ≤ N`) and then reading `k`
times completes and returns `v1..vk` in that order, leaving the queue empty. -/
theorem C1_fifo_delivery (N : Int) (h1 : 1 ≤ N) (h2 : N ≤ INT_MAX) :
    ∃ q0 : circular_queue α, construct N = Except.ok q0 ∧
      (∀ (ops : List (Op α)) (q : circular_queue α) (tr : List (Step α)),
        run q0 ops = some (q, tr) →
          written tr = returned tr ++ contents q ∧
          ∀ i, i < (returned tr).length → (returned tr)[i]? = (written tr)[i]?) ∧
      (∀ vs : List (Option α), (vs.length : Int) ≤ N →
        ∃ q tr, run q0 (vs.map Op.write ++ List.replicate vs.length Op.read) = some (q, tr) ∧
          written tr = vs ∧ returned tr = vs ∧ contents q = []) := by
  have hc := size_construct (α := α) N h1 h2
  refine ⟨_, hc, ?_, ?_⟩
  · intro ops q tr hr
    obtain ⟨_, _, e⟩ := run_inv ops _ q tr (inv_construct N _ hc) hr
    rw [contents_construct N _ hc, List.nil_append] at e
    refine ⟨e, ?_⟩
    intro i hi
    rw [e, List.getElem?_append_left hi]
  · intro vs hvs
    have hq0 := inv_construct (α := α) N _ hc
    obtain ⟨q1, tr1, hr1, hq1, hs1, hc1, hw1, hret1⟩ :=
      run_writes vs _ hq0 (by show 0 + vs.length ≤ N.toNat; omega)
    obtain ⟨q2, tr2, hr2, hq2, hs2, hc2, hw2⟩ :=
      run_reads vs.length q1 hq1 (by rw [hc1]; show vs.length ≤ 0 + vs.length; omega)
    have hrun := run_append _ _ _ _ _ _ _ hr1 hr2
    have hcnt : q2.count = 0 := by
      rw [hc1] at hc2
      have : (0 : Nat) + vs.length = vs.length := Nat.zero_add _
      change q2.count + vs.length = 0 + vs.length at hc2
      omega
    have hcont : contents q2 = [] := by
      apply List.eq_nil_of_length_eq_zero
      rw [contents_length, hcnt]
    obtain ⟨_, _, e⟩ := run_inv _ _ q2 _ hq0 hrun
    rw [contents_construct N _ hc, List.nil_append, hcont, List.append_nil,
      written_append, hw1, hw2, List.append_nil] at e
    exact ⟨q2, tr1 ++ tr2, hrun, by rw [written_append, hw1, hw2, List.append_nil], e.symm, hcont⟩

/-- Witness for C1 at capacity 2 with `Nat` payloads. -/
theorem C1_fifo_delivery_witness :
    (1 : Int) ≤ 2 ∧ (2 : Int) ≤ INT_MAX ∧
    ∃ q0 : circular_queue Nat, construct 2 = Except.ok q0 ∧
      (∀ (ops : List (Op Nat)) (q : circular_queue Nat) (tr : List (Step Nat)),
        run q0 ops = some (q, tr) →
          written tr = returned tr ++ contents q ∧
          ∀ i, i < (returned tr).length → (returned tr)[i]? = (written tr)[i]?) ∧
      (∀ vs : List (Option Nat), (vs.length : Int) ≤ 2 →
        ∃ q tr, run q0 (vs.map Op.write ++ List.replicate vs.length Op.read) = some (q, tr) ∧
          written tr = vs ∧ returned tr = vs ∧ contents q = []) :=
  ⟨by decide, by decide, C1_fifo_delivery 2 (by decide) (by decide)⟩

/-- C2: postcondition of `write`.  On every reachable queue state with
`count < size`, `write` completes, the caller's handle is empty afterwards, the
slot at the old `write_index` holds the written handle, `write_index` becomes
`(old write_index + 1) mod size`, `count` grows by exactly one, and
`read_index`, `size`, the number of slots and every other slot are unchanged. -/
theorem C2_write_postcondition (c : Int) (q : circular_queue α) (message : Option α)
    (hq : Reachable c q) (hc : q.count < q.size) :
    ∃ q1 : circular_queue α, q.write message = some (q1, none) ∧
      q1.data[q.write_index]? = some message ∧
      q1.write_index = (q.write_index + 1) % q.size ∧
      q1.count = q.count + 1 ∧
      q1.read_index = q.read_index ∧
      q1.size = q.size ∧
      q1.data.length = q.data.length ∧
      ∀ j, j ≠ q.write_index → q1.data[j]? = q.data[j]? := by
  obtain ⟨q0, ops, tr, h0, hr⟩ := hq
  obtain ⟨hi, _, _⟩ := run_inv ops q0 q tr (inv_construct c q0 h0) hr
  obtain ⟨h1, h2, h3, h4, h5⟩ := store_fields q message hi.write_lt hi.size_lt hc
  refine ⟨q._write_store message, by rw [write_eq, if_pos hc], ?_, h3, h4, h2, h1, ?_, ?_⟩
  · rw [h5, List.getElem?_set_self (by rw [hi.data_len]; exact hi.write_lt)]
  · rw [h5, List.length_set]
  · intro j hj
    rw [h5, List.getElem?_set_ne (Ne.symm hj)]

/-- Witness for C2: the state after one write on a fresh queue of capacity 2. -/
theorem C2_write_postcondition_witness :
    Reachable 2 (⟨2, 0, 1, 1, [some 7, none]⟩ : circular_queue Nat) ∧
    (⟨2, 0, 1, 1, [some 7, none]⟩ : circular_queue Nat).count <
      (⟨2, 0, 1, 1, [some 7, none]⟩ : circular_queue Nat).size ∧
    ∃ q1 : circular_queue Nat,
      (⟨2, 0, 1, 1, [some 7, none]⟩ : circular_queue Nat).write (some 8) = some (q1, none) ∧
      q1.data[1]? = some (some 8) ∧
      q1.write_index = (1 + 1) % 2 ∧
      q1.count = 1 + 1 ∧
      q1.read_index = 0 ∧
      q1.size = 2 ∧
      q1.data.length = 2 ∧
      ∀ j, j ≠ 1 → q1.data[j]? = [some 7, none][j]? :=
  ⟨⟨⟨2, 0, 0, 0, [none, none]⟩, [Op.write (some 7)],
      [⟨⟨2, 0, 0, 0, [none, none]⟩, Op.write (some 7), Ret.write none⟩], rfl, rfl⟩,
    by decide,
    C2_write_postcondition 2 ⟨2, 0, 1, 1, [some 7, none]⟩ (some 8)
      ⟨⟨2, 0, 0, 0, [none, none]⟩, [Op.write (some 7)],
        [⟨⟨2, 0, 0, 0, [none, none]⟩, Op.write (some 7), Ret.write none⟩], rfl, rfl⟩
      (by decide)⟩

/-- C3: postcondition of `read`.  On every reachable queue state with
`count > 0`, `read` completes and returns the handle held in the slot at the old
`read_index`, `read_index` becomes `(old read_index + 1) mod size`, `count`
drops by exactly one, and `write_index`, `size`, the number of slots and every
other slot are unchanged. -/
theorem C3_read_postcondition (c : Int) (q : circular_queue α)
    (hq : Reachable c q) (hc : 0 < q.count) :
    ∃ (q1 : circular_queue α) (m : Option α), q.read = some (q1, m) ∧
      q.data[q.read_index]? = some m ∧
      q1.read_index = (q.read_index + 1) % q.size ∧
      q1.count + 1 = q.count ∧
      q1.write_index = q.write_index ∧
      q1.size = q.size ∧
      q1.data.length = q.data.length ∧
      ∀ j, j ≠ q.read_index → q1.data[j]? = q.data[j]? := by
  obtain ⟨q0, ops, tr, h0, hr⟩ := hq
  obtain ⟨hi, _, _⟩ := run_inv ops q0 q tr (inv_construct c q0 h0) hr
  obtain ⟨h1, h2, h3, h4, h5, h6⟩ := take_fields q hi.read_lt hi.size_lt hc hi.count_le
  refine ⟨(q._read_take).1, (q._read_take).2, by rw [read_eq, if_pos hc], ?_, h2, ?_, h3, h1,
    ?_, ?_⟩
  · have hlt : q.read_index < q.data.length := by rw [hi.data_len]; exact hi.read_lt
    rw [h6, List.getD_eq_getElem?_getD, List.getElem?_eq_getElem hlt]
    rfl
  · rw [h4]; omega
  · rw [h5, List.length_set]
  · intro j hj
    rw [h5, List.getElem?_set_ne (Ne.symm hj)]

/-- Witness for C3: the state after one write on a fresh queue of capacity 2. -/
theorem C3_read_postcondition_witness :
    Reachable 2 (⟨2, 0, 1, 1, [some 7, none]⟩ : circular_queue Nat) ∧
    0 < (⟨2, 0, 1, 1, [some 7, none]⟩ : circular_queue Nat).count ∧
    ∃ (q1 : circular_queue Nat) (m : Option Nat),
      (⟨2, 0, 1, 1, [some 7, none]⟩ : circular_queue Nat).read = some (q1, m) ∧
      [some 7, none][0]? = some m ∧
      q1.read_index = (0 + 1) % 2 ∧
      q1.count + 1 = 1 ∧
      q1.write_index = 1 ∧
      q1.size = 2 ∧
      q1.data.length = 2 ∧
      ∀ j, j ≠ 0 → q1.data[j]? = [some 7, none][j]? :=
  ⟨⟨⟨2, 0, 0, 0, [none, none]⟩, [Op.write (some 7)],
      [⟨⟨2, 0, 0, 0, [none, none]⟩, Op.write (some 7), Ret.write none⟩], rfl, rfl⟩,
    by decide,
    C3_read_postcondition 2 ⟨2, 0, 1, 1, [some 7, none]⟩
      ⟨⟨2, 0, 0, 0, [none, none]⟩, [Op.write (some 7)],
        [⟨⟨2, 0, 0, 0, [none, none]⟩, Op.write (some 7), Ret.write none⟩], rfl, rfl⟩
      (by decide)⟩

/-- C4: `try_writing` never suspends the caller and returns `true` if and only
if `count < size` in the state it runs on; when it returns `false` the queue
state (indices, count, every slot) and the caller's handle are exactly as
before the call. -/
theorem C4_try_writing_result (q : circular_queue α) (message : Option α) :
    ∃ (q1 : circular_queue α) (message1 : Option α) (ok : Bool),
      q.try_writing message = some (q1, message1, ok) ∧
      (ok = true ↔ q.count < q.size) ∧
      (ok = false → q1 = q ∧ message1 = message) := by
  rw [try_writing_eq]
  by_cases hc : q.count < q.size
  · exact ⟨q._write_store message, none, true, by rw [if_pos hc], by simp [hc], by simp⟩
  · exact ⟨q, message, false, by rw [if_neg hc], by simp [hc], by simp⟩

/-- Witness for C4: a full queue of capacity 1 (the call fails, nothing changes)
and the fresh queue of capacity 1 (the call succeeds). -/
theorem C4_try_writing_result_witness :
    (∃ (q1 : circular_queue Nat) (message1 : Option Nat) (ok : Bool),
      (⟨1, 0, 0, 1, [some 7]⟩ : circular_queue Nat).try_writing (some 8)
        = some (q1, message1, ok) ∧
      (ok = true ↔ (1 : Nat) < 1) ∧
      (ok = false → q1 = ⟨1, 0, 0, 1, [some 7]⟩ ∧ message1 = some 8)) ∧
    (⟨1, 0, 0, 0, [none]⟩ : circular_queue Nat).try_writing (some 7)
      = some (⟨1, 0, 0, 1, [some 7]⟩, none, true) :=
  ⟨C4_try_writing_result (α := Nat) ⟨1, 0, 0, 1, [some 7]⟩ (some 8), rfl⟩

/-- C5: `try_reading` never suspends the caller.  On an empty queue
(`count == 0`) it returns an empty handle and leaves the whole state unchanged;
on a non-empty queue it does exactly what `read` does, which completes there:
same resulting state, same returned handle; on a reachable non-empty state that
handle is the oldest queued one, which is removed from the queue. -/
theorem C5_try_reading_result (q : circular_queue α) :
    (q.count = 0 → q.try_reading = some (q, none)) ∧
    (0 < q.count → q.try_reading = q.read ∧
      q.read = some ((q._read_take).1, (q._read_take).2)) ∧
    (∀ c : Int, Reachable c q → 0 < q.count →
      ∃ (q1 : circular_queue α) (m : Option α),
        q.try_reading = some (q1, m) ∧ q.read = some (q1, m) ∧
        contents q = m :: contents q1 ∧ q1.count + 1 = q.count) := by
  rw [try_reading_eq, read_eq]
  refine ⟨?_, ?_, ?_⟩
  · intro h
    rw [if_neg (by omega)]
  · intro h
    rw [if_pos h, if_pos h]
    exact ⟨rfl, rfl⟩
  · intro c hq h
    obtain ⟨q0, ops, tr, h0, hr⟩ := hq
    obtain ⟨hi, _, _⟩ := run_inv ops q0 q tr (inv_construct c q0 h0) hr
    obtain ⟨_, _, _, h4, _⟩ := take_fields q hi.read_lt hi.size_lt h hi.count_le
    rw [if_pos h, if_pos h]
    exact ⟨(q._read_take).1, (q._read_take).2, rfl, rfl, contents_take q hi h, by rw [h4]; omega⟩

/-- Witness for C5: the fresh queue of capacity 2 (empty) and the state after
one write on it (non-empty). -/
theorem C5_try_reading_result_witness :
    (⟨2, 0, 0, 0, [none, none]⟩ : circular_queue Nat).try_reading
      = some (⟨2, 0, 0, 0, [none, none]⟩, none) ∧
    ((⟨2, 0, 1, 1, [some 7, none]⟩ : circular_queue Nat).try_reading
        = (⟨2, 0, 1, 1, [some 7, none]⟩ : circular_queue Nat).read ∧
      (⟨2, 0, 1, 1, [some 7, none]⟩ : circular_queue Nat).read
        = some (⟨2, 1, 1, 0, [none, none]⟩, some 7)) :=
  ⟨(C5_try_reading_result (α := Nat) ⟨2, 0, 0, 0, [none, none]⟩).1 rfl,
    (C5_try_reading_result (α := Nat) ⟨2, 0, 1, 1, [some 7, none]⟩).2.1 (by decide)⟩

/-- C6: a timed operation that times out mutates nothing.  If the queue has no
room when the wait ends (`count < size` is false), `timed_write` returns `false`
and leaves the queue state and the caller's handle unchanged; if the queue is
empty when the wait ends, `timed_read` returns an empty handle, sets `timed_out`
to `true` (whatever it held before) and leaves the queue state unchanged. -/
theorem C6_timed_out_no_mutation (q : circular_queue α) (message : Option α)
    (duration : Int) (timed_out : Bool) :
    (¬ q.count < q.size → q.timed_write message duration = some (q, message, false)) ∧
    (q.count = 0 → q.timed_read duration timed_out = some (q, none, true)) := by
  rw [timed_write_eq, timed_read_eq]
  constructor
  · intro h
    rw [if_neg h]
  · intro h
    rw [if_neg (by omega)]

/-- Witness for C6: a full queue of capacity 1 for `timed_write`, the fresh queue
of capacity 1 for `timed_read`. -/
theorem C6_timed_out_no_mutation_witness :
    (⟨1, 0, 0, 1, [some 7]⟩ : circular_queue Nat).timed_write (some 8) 5
      = some (⟨1, 0, 0, 1, [some 7]⟩, some 8, false) ∧
    (⟨1, 0, 0, 0, [none]⟩ : circular_queue Nat).timed_read 5 false
      = some (⟨1, 0, 0, 0, [none]⟩, none, true) :=
  ⟨(C6_timed_out_no_mutation (α := Nat) ⟨1, 0, 0, 1, [some 7]⟩ (some 8) 5 false).1 (by decide),
    (C6_timed_out_no_mutation (α := Nat) ⟨1, 0, 0, 0, [none]⟩ none 5 false).2 rfl⟩

/-- C7: capacity bound.  For every capacity `N ≥ 1`, starting from the fresh
queue, any `k ≤ N` consecutive writes all complete (none is suspended).  After
fewer than `N` of them the wait condition `count < size` of the next write holds
and that write completes; after exactly `N` of them the condition is false: a
further `write` stays suspended, `try_writing` fails without any change, and a
call completed on the full queue makes the condition true again exactly when it
is a completed read, after which the pending write completes. -/
theorem C7_capacity_bound (N : Int) (h1 : 1 ≤ N) (h2 : N ≤ INT_MAX) :
    ∃ q0 : circular_queue α, construct N = Except.ok q0 ∧
      ∀ ms : List (Option α), (ms.length : Int) ≤ N →
        ∃ (q : circular_queue α) (tr : List (Step α)),
          run q0 (ms.map Op.write) = some (q, tr) ∧
          ((ms.length : Int) < N → q.count < q.size ∧ ∀ m, (q.write m).isSome = true) ∧
          ((ms.length : Int) = N →
            ¬ q.count < q.size ∧
            ∀ m : Option α,
              q.write m = none ∧
              run q0 (ms.map Op.write ++ [Op.write m]) = none ∧
              q.try_writing m = some (q, m, false) ∧
              (∀ (op : Op α) (q1 : circular_queue α) (r : Ret α),
                q.call op = some (q1, r) →
                  (q1.count < q1.size ↔ Step.taken ⟨q, op, r⟩ ≠ [])) ∧
              ∃ (q1 : circular_queue α) (v : Option α),
                q.read = some (q1, v) ∧ q1.count < q1.size ∧ (q1.write m).isSome = true) := by
  have hc := size_construct (α := α) N h1 h2
  have hq0 := inv_construct (α := α) N _ hc
  refine ⟨_, hc, ?_⟩
  intro ms hms
  obtain ⟨q, tr, hr, hq, hs, hcnt, _, _⟩ :=
    run_writes ms _ hq0 (by show 0 + ms.length ≤ N.toNat; omega)
  have hs2 : q.size = N.toNat := hs
  have hcnt2 : q.count = ms.length := by
    rw [hcnt]; show 0 + ms.length = ms.length; omega
  refine ⟨q, tr, hr, ?_, ?_⟩
  · intro hlt
    have hlt2 : q.count < q.size := by omega
    refine ⟨hlt2, ?_⟩
    intro m
    rw [write_eq, if_pos hlt2]
    rfl
  · intro heq
    have hfull : ¬ q.count < q.size := by omega
    have hpos : 0 < q.count := by omega
    refine ⟨hfull, ?_⟩
    intro m
    have hw : q.write m = none := by rw [write_eq, if_neg hfull]
    refine ⟨hw, ?_, by rw [try_writing_eq, if_neg hfull], ?_, ?_⟩
    · apply run_append_none _ _ _ _ _ hr
      simp only [run, call, hw]
    · intro op q1 r hcall
      obtain ⟨_, ht, _, _⟩ := call_count q q1 op r hq hcall
      rcases call_cases q q1 op r hcall with ⟨hc1, _⟩ | ⟨_, rfl, _, ht1⟩ | ⟨rfl, _, ht1⟩
      · exact absurd hc1 hfull
      · have hne : Step.taken ⟨q, op, r⟩ ≠ [] := by rw [ht1]; simp
        have := ht hne
        rw [size_take]
        constructor
        · intro _; exact hne
        · intro _; omega
      · rw [ht1]
        simp [hfull]
    · obtain ⟨_, _, _, h4, _⟩ := take_fields q hq.read_lt hq.size_lt hpos hq.count_le
      have hlt : (q._read_take).1.count < (q._read_take).1.size := by
        rw [h4, size_take]; omega
      refine ⟨(q._read_take).1, (q._read_take).2, by rw [read_eq, if_pos hpos], hlt, ?_⟩
      rw [write_eq, if_pos hlt]
      rfl

/-- Witness for C7 at capacity 2 with `Nat` payloads. -/
theorem C7_capacity_bound_witness :
    (1 : Int) ≤ 2 ∧ (2 : Int) ≤ INT_MAX ∧
    ∃ q0 : circular_queue Nat, construct 2 = Except.ok q0 ∧
      ∀ ms : List (Option Nat), (ms.length : Int) ≤ 2 →
        ∃ (q : circular_queue Nat) (tr : List (Step Nat)),
          run q0 (ms.map Op.write) = some (q, tr) ∧
          ((ms.length : Int) < 2 → q.count < q.size ∧ ∀ m, (q.write m).isSome = true) ∧
          ((ms.length : Int) = 2 →
            ¬ q.count < q.size ∧
            ∀ m : Option Nat,
              q.write m = none ∧
              run q0 (ms.map Op.write ++ [Op.write m]) = none ∧
              q.try_writing m = some (q, m, false) ∧
              (∀ (op : Op Nat) (q1 : circular_queue Nat) (r : Ret Nat),
                q.call op = some (q1, r) →
                  (q1.count < q1.size ↔ Step.taken ⟨q, op, r⟩ ≠ [])) ∧
              ∃ (q1 : circular_queue Nat) (v : Option Nat),
                q.read = some (q1, v) ∧ q1.count < q1.size ∧ (q1.write m).isSome = true) :=
  ⟨by decide, by decide, C7_capacity_bound 2 (by decide) (by decide)⟩

/-- C8: construction.  A capacity of 0 aborts; every `int` capacity `N ≥ 1`
constructs a queue of size `N` with `N` empty slots, `read_index = write_index
= 0`, `count = 0` and `msg_count() = 0`; the default argument is capacity 1. -/
theorem C8_construction :
    construct (α := α) 0 = Except.error Fault.abort ∧
    (∀ N : Int, 1 ≤ N → N ≤ INT_MAX →
      ∃ q : circular_queue α, construct N = Except.ok q ∧
        (q.size : Int) = N ∧ q.data = List.replicate q.size none ∧
        (q.data.length : Int) = N ∧
        q.read_index = 0 ∧ q.write_index = 0 ∧ q.count = 0 ∧ q.msg_count = 0 ∧
        contents q = []) ∧
    (∃ q : circular_queue α, construct default_size = Except.ok q ∧ q.size = 1 ∧
      q.data = [none] ∧ q.read_index = 0 ∧ q.write_index = 0 ∧ q.count = 0) := by
  refine ⟨rfl, ?_, ?_⟩
  · intro N h1 h2
    refine ⟨_, size_construct N h1 h2, ?_, rfl, ?_, rfl, rfl, rfl, rfl, rfl⟩
    · show ((N.toNat : Nat) : Int) = N
      omega
    · show (((List.replicate N.toNat (none : Option α)).length : Nat) : Int) = N
      rw [List.length_replicate]
      omega
  · exact ⟨_, size_construct default_size (by decide) (by decide), rfl, rfl, rfl, rfl, rfl⟩

/-- Witness for C8 at capacity 3. -/
theorem C8_construction_witness :
    ∃ q : circular_queue Nat, construct 3 = Except.ok q ∧
      (q.size : Int) = 3 ∧ q.data = List.replicate q.size none ∧
      (q.data.length : Int) = 3 ∧
      q.read_index = 0 ∧ q.write_index = 0 ∧ q.count = 0 ∧ q.msg_count = 0 ∧
      contents q = [] :=
  (C8_construction (α := Nat)).2.1 3 (by decide) (by decide)

/-- C9: occupancy accounting.  After any sequence of completed calls on a
constructed queue, `msg_count()` equals the number of completed writes minus the
number of completed reads.  For one more completed call: a completed write
raises the count by exactly 1, a completed read lowers it by exactly 1, and a
call that neither writes nor reads (a failed `try_`/`timed_` call, `msg_count`)
leaves the whole state unchanged; `msg_count` returns the current count. -/
theorem C9_occupancy_accounting (c : Int) (q0 q : circular_queue α) (ops : List (Op α))
    (tr : List (Step α)) (h0 : construct c = Except.ok q0)
    (hr : run q0 ops = some (q, tr)) :
    q.msg_count + (returned tr).length = (written tr).length ∧
    q.msg_count = (written tr).length - (returned tr).length ∧
    q.call Op.msg_count = some (q, Ret.msg_count q.count) ∧
    ∀ (op : Op α) (q1 : circular_queue α) (r : Ret α), q.call op = some (q1, r) →
      (Step.stored ⟨q, op, r⟩ ≠ [] → q1.msg_count = q.msg_count + 1) ∧
      (Step.taken ⟨q, op, r⟩ ≠ [] → q1.msg_count + 1 = q.msg_count) ∧
      (Step.stored ⟨q, op, r⟩ = [] → Step.taken ⟨q, op, r⟩ = [] → q1 = q) := by
  obtain ⟨hi, _, e⟩ := run_inv ops q0 q tr (inv_construct c q0 h0) hr
  rw [contents_construct c q0 h0, List.nil_append] at e
  have hl : (written tr).length = (returned tr).length + q.count := by
    rw [e, List.length_append, contents_length]
  refine ⟨?_, ?_, rfl, ?_⟩
  · show q.count + _ = _
    omega
  · show q.count = _
    omega
  · intro op q1 r hcall
    obtain ⟨a, b, d, _⟩ := call_count q q1 op r hi hcall
    exact ⟨a, b, d⟩

/-- Witness for C9: capacity 2, indices wrapped around once. -/
theorem C9_occupancy_accounting_witness :
    construct 2 = Except.ok (⟨2, 0, 0, 0, [none, none]⟩ : circular_queue Nat) ∧
    ∃ (q : circular_queue Nat) (tr : List (Step Nat)),
      run (⟨2, 0, 0, 0, [none, none]⟩ : circular_queue Nat)
        [Op.write (some 1), Op.write (some 2), Op.try_writing (some 3), Op.read,
          Op.write (some 4), Op.msg_count] = some (q, tr) ∧
      q.msg_count + (returned tr).length = (written tr).length ∧
      q.msg_count = 2 ∧ (written tr).length = 3 ∧ (returned tr).length = 1 :=
  ⟨rfl, ⟨2, 1, 1, 2, [some 4, some 2]⟩, _, rfl,
    (C9_occupancy_accounting (α := Nat) 2 ⟨2, 0, 0, 0, [none, none]⟩ ⟨2, 1, 1, 2, [some 4, some 2]⟩
      [Op.write (some 1), Op.write (some 2), Op.try_writing (some 3), Op.read,
        Op.write (some 4), Op.msg_count] _ rfl rfl).1, rfl, rfl, rfl⟩

/-- C10: ring-buffer state invariant.  In every state reachable from construction
with an `int` capacity `N ≥ 1`, the capacity and the number of slots are `N`,
`read_index < N`, `write_index < N`, `count ≤ N`, and
`write_index = (read_index + count) mod N`; hence `data[read_index]` and
`data[write_index]` are in bounds. -/
theorem C10_ring_invariant (N : Int) (q : circular_queue α) (h1 : 1 ≤ N)
    (h2 : N ≤ INT_MAX) (hq : Reachable N q) :
    (q.size : Int) = N ∧ (q.data.length : Int) = N ∧
    (q.read_index : Int) < N ∧ (q.write_index : Int) < N ∧ (q.count : Int) ≤ N ∧
    q.write_index = (q.read_index + q.count) % q.size ∧
    q.read_index < q.data.length ∧ q.write_index < q.data.length := by
  obtain ⟨q0, ops, tr, h0, hr⟩ := hq
  obtain ⟨hi, hs, _⟩ := run_inv ops q0 q tr (inv_construct N q0 h0) hr
  have e := size_construct (α := α) N h1 h2
  rw [e] at h0
  have hs0 : q0.size = N.toNat := by
    cases h0
    rfl
  have hsz : (q.size : Int) = N := by
    rw [hs, hs0]
    omega
  have hr := hi.read_lt
  have hw := hi.write_lt
  have hc := hi.count_le
  have hd := hi.data_len
  refine ⟨hsz, by rw [hd]; exact hsz, by omega, by omega, by omega, hi.write_eq,
    by rw [hd]; exact hr, by rw [hd]; exact hw⟩

/-- Witness for C10: capacity 2 after two writes, one read and one more write. -/
theorem C10_ring_invariant_witness :
    (1 : Int) ≤ 2 ∧ (2 : Int) ≤ INT_MAX ∧
    Reachable 2 (⟨2, 1, 1, 2, [some 4, some 2]⟩ : circular_queue Nat) ∧
    (((2 : Nat) : Int) = 2 ∧ ((([some 4, some 2] : List (Option Nat)).length : Nat) : Int) = 2 ∧
      ((1 : Nat) : Int) < 2 ∧ ((1 : Nat) : Int) < 2 ∧ ((2 : Nat) : Int) ≤ 2 ∧
      (1 : Nat) = (1 + 2) % 2 ∧
      1 < ([some 4, some 2] : List (Option Nat)).length ∧
      1 < ([some 4, some 2] : List (Option Nat)).length) :=
  ⟨by decide, by decide,
    ⟨⟨2, 0, 0, 0, [none, none]⟩,
      [Op.write (some 1), Op.write (some 2), Op.read, Op.write (some 4)], _, rfl, rfl⟩,
    C10_ring_invariant (α := Nat) 2 ⟨2, 1, 1, 2, [some 4, some 2]⟩ (by decide) (by decide)
      ⟨⟨2, 0, 0, 0, [none, none]⟩,
        [Op.write (some 1), Op.write (some 2), Op.read, Op.write (some 4)], _, rfl, rfl⟩⟩

theorem shape_store (q : circular_queue α) (message : Option α) :
    shape (q._write_store message) =
      (q.size, q.read_index,
        (if (q.write_index + 1) % SIZE_T_MOD = q.size then 0
          else (q.write_index + 1) % SIZE_T_MOD),
        (q.count + 1) % SIZE_T_MOD, q.data.length) := by
  simp only [shape, _write_store, List.length_set]

theorem shape_take (q : circular_queue α) :
    shape (q._read_take).1 =
      (q.size,
        (if (q.read_index + 1) % SIZE_T_MOD = q.size then 0
          else (q.read_index + 1) % SIZE_T_MOD),
        q.write_index, (q.count + SIZE_T_MOD - 1) % SIZE_T_MOD, q.data.length) := by
  simp only [shape, _read_take, List.length_set]

theorem shape_fields (q q1 : circular_queue α) (h : shape q = shape q1) :
    q.size = q1.size ∧ q.read_index = q1.read_index ∧ q.write_index = q1.write_index ∧
      q.count = q1.count ∧ q.data.length = q1.data.length := by
  simp only [shape, Prod.mk.injEq] at h
  exact h

theorem shape_store_congr (q q1 : circular_queue α) (m m1 : Option α)
    (h : shape q = shape q1) : shape (q._write_store m) = shape (q1._write_store m1) := by
  obtain ⟨h1, h2, h3, h4, h5⟩ := shape_fields q q1 h
  rw [shape_store, shape_store, h1, h2, h3, h4, h5]

theorem shape_take_congr (q q1 : circular_queue α) (h : shape q = shape q1) :
    shape (q._read_take).1 = shape (q1._read_take).1 := by
  obtain ⟨h1, h2, h3, h4, h5⟩ := shape_fields q q1 h
  rw [shape_take, shape_take, h1, h2, h3, h4, h5]

/-- The branch a call takes, the indices and count it leaves and the flags it
returns depend on the shape of the state only, not on any handle. -/
theorem call_shape (q q1 : circular_queue α) (op op1 : Op α) (hs : shape q = shape q1)
    (ho : op.erase = op1.erase) :
    (q.call op).map (fun r => (shape r.1, r.2.erase)) =
      (q1.call op1).map (fun r => (shape r.1, r.2.erase)) := by
  obtain ⟨h1, _, _, h4, _⟩ := shape_fields q q1 hs
  cases op <;> cases op1 <;> simp only [Op.erase, reduceCtorEq, Op.write.injEq,
    Op.timed_write.injEq, Op.timed_read.injEq, Op.try_writing.injEq, true_and] at ho
  · rename_i m m1
    simp only [call, write_eq, ← h1, ← h4]
    by_cases hc : q.count < q.size
    · simp only [if_pos hc, Option.map_some', Ret.erase, shape_store_congr q q1 m m1 hs]
    · simp only [if_neg hc, Option.map_none']
  · simp only [call, read_eq, ← h4]
    by_cases hc : 0 < q.count
    · simp only [if_pos hc, Option.map_some', Ret.erase, shape_take_congr q q1 hs]
    · simp only [if_neg hc, Option.map_none']
  · rename_i m d m1 d1
    subst ho
    simp only [call, timed_write_eq, ← h1, ← h4]
    by_cases hc : q.count < q.size
    · simp only [if_pos hc, Option.map_some', Ret.erase, shape_store_congr q q1 m m1 hs]
    · simp only [if_neg hc, Option.map_some', Ret.erase, hs]
  · rename_i d b d1 b1
    obtain ⟨rfl, rfl⟩ := ho
    simp only [call, timed_read_eq, ← h4]
    by_cases hc : 0 < q.count
    · simp only [if_pos hc, Option.map_some', Ret.erase, shape_take_congr q q1 hs]
    · simp only [if_neg hc, Option.map_some', Ret.erase, hs]
  · rename_i m m1
    simp only [call, try_writing_eq, ← h1, ← h4]
    by_cases hc : q.count < q.size
    · simp only [if_pos hc, Option.map_some', Ret.erase, shape_store_congr q q1 m m1 hs]
    · simp only [if_neg hc, Option.map_some', Ret.erase, hs]
  · simp only [call, try_reading_eq, ← h4]
    by_cases hc : 0 < q.count
    · simp only [if_pos hc, Option.map_some', Ret.erase, shape_take_congr q q1 hs]
    · simp only [if_neg hc, Option.map_some', Ret.erase, hs]
  · simp only [call, msg_count, Option.map_some', Ret.erase, hs, h4]

/-- C11: sentinel transparency.  On every reachable state with `count < size`,
writing an empty (null) handle completes exactly like writing a non-empty one:
the two resulting states agree in `size`, both indices, `count` and the number
of slots, `count` has grown by one, `write_index` has advanced, and the empty
handle is queued last.  The read at that FIFO position returns the empty handle
and lowers `count` by one: after the write, `count + 1` reads complete, return
the handles queued before followed by the empty one, and leave the queue empty;
and whenever the oldest queued handle is empty, `read` returns it and `count`
drops by one.  No call's control flow depends on a handle: on states of equal
shape, calls that differ only in the handle passed take the same branch
(complete or stay suspended alike), leave states of equal shape and return the
same flags and counts. -/
theorem C11_sentinel_transparency (c : Int) (q : circular_queue α) (v : α)
    (hq : Reachable c q) (hc : q.count < q.size) :
    (∃ q1 q2 : circular_queue α,
      q.write none = some (q1, none) ∧ q.write (some v) = some (q2, none) ∧
      shape q1 = shape q2 ∧
      q1.count = q.count + 1 ∧ q1.write_index = (q.write_index + 1) % q.size ∧
      q1.read_index = q.read_index ∧
      q1.data[q.write_index]? = some none ∧
      contents q1 = contents q ++ [none]) ∧
    (∃ (q3 : circular_queue α) (tr : List (Step α)),
      run q (Op.write none :: List.replicate (q.count + 1) Op.read) = some (q3, tr) ∧
      returned tr = contents q ++ [none] ∧ q3.count = 0) ∧
    (∀ rest : List (Option α), contents q = none :: rest →
      ∃ q4 : circular_queue α, q.read = some (q4, none) ∧ q4.count + 1 = q.count ∧
        contents q4 = rest) ∧
    (∀ (p p1 : circular_queue α) (op op1 : Op α), shape p = shape p1 →
      op.erase = op1.erase →
      (p.call op).map (fun r => (shape r.1, r.2.erase)) =
        (p1.call op1).map (fun r => (shape r.1, r.2.erase))) := by
  obtain ⟨q0, ops, tr0, h0, hr0⟩ := hq
  obtain ⟨hi, _, _⟩ := run_inv ops q0 q tr0 (inv_construct c q0 h0) hr0
  obtain ⟨h1, h2, h3, h4, h5⟩ := store_fields q none hi.write_lt hi.size_lt hc
  have hi1 := inv_store q none hi hc
  have hcont := contents_store q none hi hc
  refine ⟨⟨q._write_store none, q._write_store (some v), by rw [write_eq, if_pos hc],
    by rw [write_eq, if_pos hc], shape_store_congr q q none (some v) rfl, h4, h3, h2, ?_,
    hcont⟩, ?_, ?_, call_shape⟩
  · rw [h5, List.getElem?_set_self (by rw [hi.data_len]; exact hi.write_lt)]
  · obtain ⟨q3, tr, hr, hi3, _, hcnt, hw⟩ :=
      run_reads (q.count + 1) (q._write_store none) hi1 (by rw [h4])
    have hcnt3 : q3.count = 0 := by rw [h4] at hcnt; omega
    have hc3 : contents q3 = [] := by
      apply List.eq_nil_of_length_eq_zero
      rw [contents_length, hcnt3]
    obtain ⟨_, _, e⟩ := run_inv _ _ q3 tr hi1 hr
    rw [hw, List.append_nil, hc3, List.append_nil, hcont] at e
    refine ⟨q3, ⟨q, Op.write none, Ret.write none⟩ :: tr, ?_, ?_, hcnt3⟩
    · have hcall : q.call (Op.write none) = some (q._write_store none, Ret.write none) := by
        simp only [call, write_eq, if_pos hc]
      rw [run_step q (Op.write none) _ _ _ hcall, hr]
    · have : returned (⟨q, Op.write none, Ret.write none⟩ :: tr) = returned tr := by
        simp [returned, Step.taken]
      rw [this, ← e]
  · intro rest hrest
    have hpos : 0 < q.count := by
      have := contents_length q
      rw [hrest, List.length_cons] at this
      omega
    obtain ⟨_, _, _, t4, _⟩ := take_fields q hi.read_lt hi.size_lt hpos hi.count_le
    have e := contents_take q hi hpos
    rw [hrest, List.cons.injEq] at e
    refine ⟨(q._read_take).1, ?_, by rw [t4]; omega, e.2.symm⟩
    rw [read_eq, if_pos hpos, e.1]

/-- Witness for C11: capacity 3 holding one message, `some 7`. -/
theorem C11_sentinel_transparency_witness :
    Reachable 3 (⟨3, 0, 1, 1, [some 7, none, none]⟩ : circular_queue Nat) ∧
    (∃ q1 q2 : circular_queue Nat,
      (⟨3, 0, 1, 1, [some 7, none, none]⟩ : circular_queue Nat).write none
        = some (q1, none) ∧
      (⟨3, 0, 1, 1, [some 7, none, none]⟩ : circular_queue Nat).write (some 9)
        = some (q2, none) ∧
      shape q1 = shape q2 ∧
      q1.count = 1 + 1 ∧ q1.write_index = (1 + 1) % 3 ∧
      q1.read_index = 0 ∧
      q1.data[1]? = some none ∧
      contents q1 = [some 7] ++ [none]) ∧
    (∃ (q3 : circular_queue Nat) (tr : List (Step Nat)),
      run (⟨3, 0, 1, 1, [some 7, none, none]⟩ : circular_queue Nat)
        (Op.write none :: List.replicate (1 + 1) Op.read) = some (q3, tr) ∧
      returned tr = [some 7] ++ [none] ∧ q3.count = 0) :=
  have hreach : Reachable 3 (⟨3, 0, 1, 1, [some 7, none, none]⟩ : circular_queue Nat) :=
    ⟨⟨3, 0, 0, 0, [none, none, none]⟩, [Op.write (some 7)],
      [⟨⟨3, 0, 0, 0, [none, none, none]⟩, Op.write (some 7), Ret.write none⟩], rfl, rfl⟩
  have h := C11_sentinel_transparency (α := Nat) 3 ⟨3, 0, 1, 1, [some 7, none, none]⟩ 9
    hreach (by decide)
  ⟨hreach, h.1, h.2.1⟩

end circular_queue

namespace channel

variable {α : Type}

/-! ## Lemmas on the channel -/

theorem present_iff (s : thr_safe_set) (i : thread_id) :
    s.present i = true ↔ i ∈ s.owner_ids := by
  simp [thr_safe_set.present]

theorem present_false_iff (s : thr_safe_set) (i : thread_id) :
    s.present i = false ↔ i ∉ s.owner_ids := by
  simp [thr_safe_set.present]

theorem assert_read_ok (c : channel α) (t : thread_id)
    (h : c.non_readers.present t = false) : c.assert_read_allowance t = Except.ok () := by
  simp [assert_read_allowance, h]

theorem assert_read_abort (c : channel α) (t : thread_id)
    (h : c.non_readers.present t = true) :
    c.assert_read_allowance t = Except.error Fault.abort := by
  simp [assert_read_allowance, h]

theorem assert_write_ok (c : channel α) (t : thread_id)
    (h : c.non_writers.present t = false) : c.assert_write_allowance t = Except.ok () := by
  simp [assert_write_allowance, h]

theorem assert_write_abort (c : channel α) (t : thread_id)
    (h : c.non_writers.present t = true) :
    c.assert_write_allowance t = Except.error Fault.abort := by
  simp [assert_write_allowance, h]

theorem read_up (c : channel α) (t : thread_id) (h : c.non_readers.present t = false)
    (ho : c.read_owners.present t = true) :
    c.read t = Except.ok (c.worker_to_read_owner_queue.read.map
      fun r => ({ c with worker_to_read_owner_queue := r.1 }, r.2)) := by
  unfold read
  rw [assert_read_ok c t h]
  simp only [ho, if_true]
  cases c.worker_to_read_owner_queue.read <;> rfl

theorem read_down (c : channel α) (t : thread_id) (h : c.non_readers.present t = false)
    (ho : c.read_owners.present t = false) :
    c.read t = Except.ok (c.write_owner_to_worker_queue.read.map
      fun r => ({ c with write_owner_to_worker_queue := r.1 }, r.2)) := by
  unfold read
  rw [assert_read_ok c t h]
  simp only [ho]
  cases c.write_owner_to_worker_queue.read <;> rfl

theorem try_reading_up (c : channel α) (t : thread_id)
    (h : c.non_readers.present t = false) (ho : c.read_owners.present t = true) :
    c.try_reading t = Except.ok (c.worker_to_read_owner_queue.try_reading.map
      fun r => ({ c with worker_to_read_owner_queue := r.1 }, r.2)) := by
  unfold try_reading
  rw [assert_read_ok c t h]
  simp only [ho, if_true]
  cases c.worker_to_read_owner_queue.try_reading <;> rfl

theorem try_reading_down (c : channel α) (t : thread_id)
    (h : c.non_readers.present t = false) (ho : c.read_owners.present t = false) :
    c.try_reading t = Except.ok (c.write_owner_to_worker_queue.try_reading.map
      fun r => ({ c with write_owner_to_worker_queue := r.1 }, r.2)) := by
  unfold try_reading
  rw [assert_read_ok c t h]
  simp only [ho]
  cases c.write_owner_to_worker_queue.try_reading <;> rfl

theorem timed_read_up (c : channel α) (t : thread_id) (duration : Int) (timed_out : Bool)
    (h : c.non_readers.present t = false) (ho : c.read_owners.present t = true) :
    c.timed_read t duration timed_out =
      Except.ok ((c.worker_to_read_owner_queue.timed_read duration timed_out).map
        fun r => ({ c with worker_to_read_owner_queue := r.1 }, r.2)) := by
  unfold timed_read
  rw [assert_read_ok c t h]
  simp only [ho, if_true]
  cases c.worker_to_read_owner_queue.timed_read duration timed_out <;> rfl

theorem timed_read_down (c : channel α) (t : thread_id) (duration : Int)
    (timed_out : Bool) (h : c.non_readers.present t = false)
    (ho : c.read_owners.present t = false) :
    c.timed_read t duration timed_out =
      Except.ok ((c.write_owner_to_worker_queue.timed_read duration timed_out).map
        fun r => ({ c with write_owner_to_worker_queue := r.1 }, r.2)) := by
  unfold timed_read
  rw [assert_read_ok c t h]
  simp only [ho]
  cases c.write_owner_to_worker_queue.timed_read duration timed_out <;> rfl

theorem write_down (c : channel α) (t : thread_id) (message : Option α)
    (h : c.non_writers.present t = false) (ho : c.write_owners.present t = true) :
    c.write t message = Except.ok ((c.write_owner_to_worker_queue.write message).map
      fun r => ({ c with write_owner_to_worker_queue := r.1 }, r.2)) := by
  unfold write
  rw [assert_write_ok c t h]
  simp only [ho, if_true]
  cases c.write_owner_to_worker_queue.write message <;> rfl

theorem write_up (c : channel α) (t : thread_id) (message : Option α)
    (h : c.non_writers.present t = false) (ho : c.write_owners.present t = false) :
    c.write t message = Except.ok ((c.worker_to_read_owner_queue.write message).map
      fun r => ({ c with worker_to_read_owner_queue := r.1 }, r.2)) := by
  unfold write
  rw [assert_write_ok c t h]
  simp only [ho]
  cases c.worker_to_read_owner_queue.write message <;> rfl

theorem try_writing_down (c : channel α) (t : thread_id) (message : Option α)
    (h : c.non_writers.present t = false) (ho : c.write_owners.present t = true) :
    c.try_writing t message =
      Except.ok ((c.write_owner_to_worker_queue.try_writing message).map
        fun r => ({ c with write_owner_to_worker_queue := r.1 }, r.2)) := by
  unfold try_writing
  rw [assert_write_ok c t h]
  simp only [ho, if_true]
  cases c.write_owner_to_worker_queue.try_writing message <;> rfl

theorem try_writing_up (c : channel α) (t : thread_id) (message : Option α)
    (h : c.non_writers.present t = false) (ho : c.write_owners.present t = false) :
    c.try_writing t message =
      Except.ok ((c.worker_to_read_owner_queue.try_writing message).map
        fun r => ({ c with worker_to_read_owner_queue := r.1 }, r.2)) := by
  unfold try_writing
  rw [assert_write_ok c t h]
  simp only [ho]
  cases c.worker_to_read_owner_queue.try_writing message <;> rfl

theorem timed_write_down (c : channel α) (t : thread_id) (message : Option α)
    (duration : Int) (h : c.non_writers.present t = false)
    (ho : c.write_owners.present t = true) :
    c.timed_write t message duration =
      Except.ok ((c.write_owner_to_worker_queue.timed_write message duration).map
        fun r => ({ c with write_owner_to_worker_queue := r.1 }, r.2)) := by
  unfold timed_write
  rw [assert_write_ok c t h]
  simp only [ho, if_true]
  cases c.write_owner_to_worker_queue.timed_write message duration <;> rfl

theorem timed_write_up (c : channel α) (t : thread_id) (message : Option α)
    (duration : Int) (h : c.non_writers.present t = false)
    (ho : c.write_owners.present t = false) :
    c.timed_write t message duration =
      Except.ok ((c.worker_to_read_owner_queue.timed_write message duration).map
        fun r => ({ c with worker_to_read_owner_queue := r.1 }, r.2)) := by
  unfold timed_write
  rw [assert_write_ok c t h]
  simp only [ho]
  cases c.worker_to_read_owner_queue.timed_write message duration <;> rfl

theorem read_abort (c : channel α) (t : thread_id) (h : c.non_readers.present t = true) :
    c.read t = Except.error Fault.abort := by
  unfold read
  rw [assert_read_abort c t h]

theorem try_reading_abort (c : channel α) (t : thread_id)
    (h : c.non_readers.present t = true) : c.try_reading t = Except.error Fault.abort := by
  unfold try_reading
  rw [assert_read_abort c t h]

theorem timed_read_abort (c : channel α) (t : thread_id) (duration : Int)
    (timed_out : Bool) (h : c.non_readers.present t = true) :
    c.timed_read t duration timed_out = Except.error Fault.abort := by
  unfold timed_read
  rw [assert_read_abort c t h]

theorem write_abort (c : channel α) (t : thread_id) (message : Option α)
    (h : c.non_writers.present t = true) : c.write t message = Except.error Fault.abort := by
  unfold write
  rw [assert_write_abort c t h]

theorem try_writing_abort (c : channel α) (t : thread_id) (message : Option α)
    (h : c.non_writers.present t = true) :
    c.try_writing t message = Except.error Fault.abort := by
  unfold try_writing
  rw [assert_write_abort c t h]

theorem timed_write_abort (c : channel α) (t : thread_id) (message : Option α)
    (duration : Int) (h : c.non_writers.present t = true) :
    c.timed_write t message duration = Except.error Fault.abort := by
  unfold timed_write
  rw [assert_write_abort c t h]

theorem ok_map_some {β γ : Type} (f : β → channel α × γ) (o : Option β)
    (c1 : channel α) (x : γ)
    (h : (Except.ok (o.map f) : Outcome (channel α × γ)) = Except.ok (some (c1, x))) :
    ∃ b, o = some b ∧ f b = (c1, x) := by
  cases o with
  | none => cases h
  | some b =>
    simp only [Option.map_some', Except.ok.injEq, Option.some.injEq] at h
    exact ⟨b, rfl, h⟩

theorem read_roles (c c1 : channel α) (t : thread_id) (m : Option α)
    (h : c.read t = Except.ok (some (c1, m))) : same_roles c c1 := by
  cases hn : c.non_readers.present t
  · cases ho : c.read_owners.present t
    · rw [read_down c t hn ho] at h
      obtain ⟨b, _, hb⟩ := ok_map_some _ _ _ _ h
      cases hb
      exact ⟨rfl, rfl, rfl, rfl⟩
    · rw [read_up c t hn ho] at h
      obtain ⟨b, _, hb⟩ := ok_map_some _ _ _ _ h
      cases hb
      exact ⟨rfl, rfl, rfl, rfl⟩
  · rw [read_abort c t hn] at h
    cases h

theorem try_reading_roles (c c1 : channel α) (t : thread_id) (m : Option α)
    (h : c.try_reading t = Except.ok (some (c1, m))) : same_roles c c1 := by
  cases hn : c.non_readers.present t
  · cases ho : c.read_owners.present t
    · rw [try_reading_down c t hn ho] at h
      obtain ⟨b, _, hb⟩ := ok_map_some _ _ _ _ h
      cases hb
      exact ⟨rfl, rfl, rfl, rfl⟩
    · rw [try_reading_up c t hn ho] at h
      obtain ⟨b, _, hb⟩ := ok_map_some _ _ _ _ h
      cases hb
      exact ⟨rfl, rfl, rfl, rfl⟩
  · rw [try_reading_abort c t hn] at h
    cases h

theorem timed_read_roles (c c1 : channel α) (t : thread_id) (duration : Int)
    (timed_out : Bool) (x : Option α × Bool)
    (h : c.timed_read t duration timed_out = Except.ok (some (c1, x))) :
    same_roles c c1 := by
  cases hn : c.non_readers.present t
  · cases ho : c.read_owners.present t
    · rw [timed_read_down c t duration timed_out hn ho] at h
      obtain ⟨b, _, hb⟩ := ok_map_some _ _ _ _ h
      cases hb
      exact ⟨rfl, rfl, rfl, rfl⟩
    · rw [timed_read_up c t duration timed_out hn ho] at h
      obtain ⟨b, _, hb⟩ := ok_map_some _ _ _ _ h
      cases hb
      exact ⟨rfl, rfl, rfl, rfl⟩
  · rw [timed_read_abort c t duration timed_out hn] at h
    cases h

theorem write_roles (c c1 : channel α) (t : thread_id) (message m : Option α)
    (h : c.write t message = Except.ok (some (c1, m))) : same_roles c c1 := by
  cases hn : c.non_writers.present t
  · cases ho : c.write_owners.present t
    · rw [write_up c t message hn ho] at h
      obtain ⟨b, _, hb⟩ := ok_map_some _ _ _ _ h
      cases hb
      exact ⟨rfl, rfl, rfl, rfl⟩
    · rw [write_down c t message hn ho] at h
      obtain ⟨b, _, hb⟩ := ok_map_some _ _ _ _ h
      cases hb
      exact ⟨rfl, rfl, rfl, rfl⟩
  · rw [write_abort c t message hn] at h
    cases h

theorem try_writing_roles (c c1 : channel α) (t : thread_id) (message : Option α)
    (x : Option α × Bool)
    (h : c.try_writing t message = Except.ok (some (c1, x))) : same_roles c c1 := by
  cases hn : c.non_writers.present t
  · cases ho : c.write_owners.present t
    · rw [try_writing_up c t message hn ho] at h
      obtain ⟨b, _, hb⟩ := ok_map_some _ _ _ _ h
      cases hb
      exact ⟨rfl, rfl, rfl, rfl⟩
    · rw [try_writing_down c t message hn ho] at h
      obtain ⟨b, _, hb⟩ := ok_map_some _ _ _ _ h
      cases hb
      exact ⟨rfl, rfl, rfl, rfl⟩
  · rw [try_writing_abort c t message hn] at h
    cases h

theorem timed_write_roles (c c1 : channel α) (t : thread_id) (message : Option α)
    (duration : Int) (x : Option α × Bool)
    (h : c.timed_write t message duration = Except.ok (some (c1, x))) :
    same_roles c c1 := by
  cases hn : c.non_writers.present t
  · cases ho : c.write_owners.present t
    · rw [timed_write_up c t message duration hn ho] at h
      obtain ⟨b, _, hb⟩ := ok_map_some _ _ _ _ h
      cases hb
      exact ⟨rfl, rfl, rfl, rfl⟩
    · rw [timed_write_down c t message duration hn ho] at h
      obtain ⟨b, _, hb⟩ := ok_map_some _ _ _ _ h
      cases hb
      exact ⟨rfl, rfl, rfl, rfl⟩
  · rw [timed_write_abort c t message duration hn] at h
    cases h

theorem become_a_read_owner_eq (c : channel α) (t : thread_id) :
    c.become_a_read_owner t =
      if c.non_readers.present t then Except.error Fault.abort
      else Except.ok { c with read_owners := c.read_owners.add t } := by
  unfold become_a_read_owner assert_read_allowance
  cases c.non_readers.present t <;> rfl

theorem become_a_write_owner_eq (c : channel α) (t : thread_id) :
    c.become_a_write_owner t =
      if c.non_writers.present t then Except.error Fault.abort
      else Except.ok { c with write_owners := c.write_owners.add t } := by
  unfold become_a_write_owner assert_write_allowance
  cases c.non_writers.present t <;> rfl

/-- What a completed call does to the four role sets. -/
theorem call_roles (c c1 : channel α) (t : thread_id) (op : Call α) (r : Reply α)
    (h : c.call t op = Except.ok (some (c1, r))) :
    same_roles c c1 ∨
    c1 = c.become_a_non_reader t ∨
    c1 = c.become_a_non_writer t ∨
    (c.non_readers.present t = false ∧ c1 = { c with read_owners := c.read_owners.add t }) ∨
    (c.non_writers.present t = false ∧
      c1 = { c with write_owners := c.write_owners.add t }) := by
  cases op with
  | read =>
    simp only [call] at h
    cases hx : c.read t with
    | error e => rw [hx] at h; cases h
    | ok o =>
      cases o with
      | none => rw [hx] at h; cases h
      | some p =>
        obtain ⟨c2, m⟩ := p
        rw [hx] at h
        cases h
        exact Or.inl (read_roles c c1 t m hx)
  | write message =>
    simp only [call] at h
    cases hx : c.write t message with
    | error e => rw [hx] at h; cases h
    | ok o =>
      cases o with
      | none => rw [hx] at h; cases h
      | some p =>
        obtain ⟨c2, m⟩ := p
        rw [hx] at h
        cases h
        exact Or.inl (write_roles c c1 t message m hx)
  | try_reading =>
    simp only [call] at h
    cases hx : c.try_reading t with
    | error e => rw [hx] at h; cases h
    | ok o =>
      cases o with
      | none => rw [hx] at h; cases h
      | some p =>
        obtain ⟨c2, m⟩ := p
        rw [hx] at h
        cases h
        exact Or.inl (try_reading_roles c c1 t m hx)
  | timed_read duration timed_out =>
    simp only [call] at h
    cases hx : c.timed_read t duration timed_out with
    | error e => rw [hx] at h; cases h
    | ok o =>
      cases o with
      | none => rw [hx] at h; cases h
      | some p =>
        obtain ⟨c2, m, b⟩ := p
        rw [hx] at h
        cases h
        exact Or.inl (timed_read_roles c c1 t duration timed_out (m, b) hx)
  | read_msg_count =>
    simp only [call, Except.ok.injEq, Option.some.injEq, Prod.mk.injEq] at h
    obtain ⟨rfl, _⟩ := h
    exact Or.inl ⟨rfl, rfl, rfl, rfl⟩
  | try_writing message =>
    simp only [call] at h
    cases hx : c.try_writing t message with
    | error e => rw [hx] at h; cases h
    | ok o =>
      cases o with
      | none => rw [hx] at h; cases h
      | some p =>
        obtain ⟨c2, m, b⟩ := p
        rw [hx] at h
        cases h
        exact Or.inl (try_writing_roles c c1 t message (m, b) hx)
  | timed_write message duration =>
    simp only [call] at h
    cases hx : c.timed_write t message duration with
    | error e => rw [hx] at h; cases h
    | ok o =>
      cases o with
      | none => rw [hx] at h; cases h
      | some p =>
        obtain ⟨c2, m, b⟩ := p
        rw [hx] at h
        cases h
        exact Or.inl (timed_write_roles c c1 t message duration (m, b) hx)
  | write_msg_count =>
    simp only [call, Except.ok.injEq, Option.some.injEq, Prod.mk.injEq] at h
    obtain ⟨rfl, _⟩ := h
    exact Or.inl ⟨rfl, rfl, rfl, rfl⟩
  | become_a_non_reader =>
    simp only [call, Except.ok.injEq, Option.some.injEq, Prod.mk.injEq] at h
    exact Or.inr (Or.inl h.1.symm)
  | become_a_non_writer =>
    simp only [call, Except.ok.injEq, Option.some.injEq, Prod.mk.injEq] at h
    exact Or.inr (Or.inr (Or.inl h.1.symm))
  | become_a_read_owner =>
    simp only [call, become_a_read_owner_eq] at h
    cases hn : c.non_readers.present t
    · simp only [hn, Bool.false_eq_true, if_false, Except.ok.injEq, Option.some.injEq,
        Prod.mk.injEq] at h
      exact Or.inr (Or.inr (Or.inr (Or.inl ⟨rfl, h.1.symm⟩)))
    · simp only [hn, if_true] at h
      cases h
  | become_a_write_owner =>
    simp only [call, become_a_write_owner_eq] at h
    cases hn : c.non_writers.present t
    · simp only [hn, Bool.false_eq_true, if_false, Except.ok.injEq, Option.some.injEq,
        Prod.mk.injEq] at h
      exact Or.inr (Or.inr (Or.inr (Or.inr ⟨rfl, h.1.symm⟩)))
    · simp only [hn, if_true] at h
      cases h

theorem present_add (s : thr_safe_set) (i j : thread_id) :
    (s.add i).present j = (decide (j = i) || s.present j) := by
  simp [thr_safe_set.add, thr_safe_set.present]

theorem present_remove (s : thr_safe_set) (i j : thread_id) :
    (s.remove i).present j = (!decide (j = i) && s.present j) := by
  simp [thr_safe_set.remove, thr_safe_set.present]

/-- A completed call never takes a thread out of `non_readers` or
`non_writers`. -/
theorem call_non_mono (c c1 : channel α) (t : thread_id) (op : Call α) (r : Reply α)
    (h : c.call t op = Except.ok (some (c1, r))) (u : thread_id) :
    (c.non_readers.present u = true → c1.non_readers.present u = true) ∧
    (c.non_writers.present u = true → c1.non_writers.present u = true) := by
  rcases call_roles c c1 t op r h with ⟨_, _, h3, h4⟩ | rfl | rfl | ⟨_, rfl⟩ | ⟨_, rfl⟩
  · rw [h3, h4]; exact ⟨id, id⟩
  · refine ⟨?_, id⟩
    intro hu
    show (c.non_readers.add t).present u = true
    rw [present_add, hu, Bool.or_true]
  · refine ⟨id, ?_⟩
    intro hu
    show (c.non_writers.add t).present u = true
    rw [present_add, hu, Bool.or_true]
  · exact ⟨id, id⟩
  · exact ⟨id, id⟩

theorem run_cons_ok (c : channel α) (t : thread_id) (op : Call α)
    (rest : List (thread_id × Call α)) (c2 : channel α) (rs : List (Reply α))
    (h : c.run ((t, op) :: rest) = Except.ok (some (c2, rs))) :
    ∃ c1 r rs1, c.call t op = Except.ok (some (c1, r)) ∧
      c1.run rest = Except.ok (some (c2, rs1)) ∧ rs = r :: rs1 := by
  simp only [run] at h
  cases hx : c.call t op with
  | error e => rw [hx] at h; cases h
  | ok o =>
    cases o with
    | none => rw [hx] at h; cases h
    | some p =>
      obtain ⟨c1, r⟩ := p
      rw [hx] at h
      simp only at h
      cases hy : c1.run rest with
      | error e => rw [hy] at h; cases h
      | ok o2 =>
        cases o2 with
        | none => rw [hy] at h; cases h
        | some p2 =>
          obtain ⟨c3, rs1⟩ := p2
          rw [hy] at h
          cases h
          exact ⟨c1, r, rs1, rfl, hy, rfl⟩

theorem run_non_mono (calls : List (thread_id × Call α)) :
    ∀ (c c2 : channel α) (rs : List (Reply α)),
      c.run calls = Except.ok (some (c2, rs)) → ∀ u : thread_id,
      (c.non_readers.present u = true → c2.non_readers.present u = true) ∧
      (c.non_writers.present u = true → c2.non_writers.present u = true) := by
  induction calls with
  | nil =>
    intro c c2 rs h u
    simp only [run, Except.ok.injEq, Option.some.injEq, Prod.mk.injEq] at h
    obtain ⟨rfl, _⟩ := h
    exact ⟨id, id⟩
  | cons x rest ih =>
    intro c c2 rs h u
    obtain ⟨t, op⟩ := x
    obtain ⟨c1, r, rs1, hc, hr, _⟩ := run_cons_ok c t op rest c2 rs h
    obtain ⟨a1, a2⟩ := call_non_mono c c1 t op r hc u
    obtain ⟨b1, b2⟩ := ih c1 c2 rs1 hr u
    exact ⟨fun hu => b1 (a1 hu), fun hu => b2 (a2 hu)⟩

/-! ## The claims on the channel -/

/-- C12: postcondition of `channel(up, down)` for `int` arguments `up ≥ 1` and
`down ≥ 0`: construction succeeds; queueUp is empty with capacity `up`;
queueDown is empty with capacity `down`, or `up` when `down == 0`; the creating
thread is the only member of `read_owners` and of `write_owners`; `non_readers`
and `non_writers` are empty.  Hence on `channel(1, 2)` the creator's first two
writes complete, the third stays suspended (and `try_writing` fails) until a
worker has read, after which it completes. -/
theorem C12_channel_construction (creator : thread_id) (up down : Int)
    (hu1 : 1 ≤ up) (hu2 : up ≤ INT_MAX) (hd1 : 0 ≤ down) (hd2 : down ≤ INT_MAX) :
    (∃ c : channel α, construct creator up down = Except.ok c ∧
      (c.worker_to_read_owner_queue.size : Int) = up ∧
      c.worker_to_read_owner_queue.msg_count = 0 ∧
      c.worker_to_read_owner_queue.contents = [] ∧
      c.worker_to_read_owner_queue.data =
        List.replicate c.worker_to_read_owner_queue.size none ∧
      (c.write_owner_to_worker_queue.size : Int) = (if down = 0 then up else down) ∧
      c.write_owner_to_worker_queue.msg_count = 0 ∧
      c.write_owner_to_worker_queue.contents = [] ∧
      c.write_owner_to_worker_queue.data =
        List.replicate c.write_owner_to_worker_queue.size none ∧
      (∀ t, c.read_owners.present t = true ↔ t = creator) ∧
      (∀ t, c.write_owners.present t = true ↔ t = creator) ∧
      (∀ t, c.non_readers.present t = false) ∧
      (∀ t, c.non_writers.present t = false)) ∧
    (∀ (worker : thread_id) (v1 v2 v3 : Option α), worker ≠ creator →
      ∃ c0 c1 c2 c3 c4 : channel α,
        construct creator 1 2 = Except.ok c0 ∧
        c0.write creator v1 = Except.ok (some (c1, none)) ∧
        c1.write creator v2 = Except.ok (some (c2, none)) ∧
        c2.write creator v3 = Except.ok none ∧
        c2.try_writing creator v3 = Except.ok (some (c2, v3, false)) ∧
        c2.read worker = Except.ok (some (c3, v1)) ∧
        c3.write creator v3 = Except.ok (some (c4, none))) := by
  constructor
  · have hdn : (1 : Int) ≤ (if down = 0 then up else down) ∧
        (if down = 0 then up else down) ≤ INT_MAX := by
      split
      · exact ⟨hu1, hu2⟩
      · exact ⟨by omega, hd2⟩
    have e1 := circular_queue.size_construct (α := α) up hu1 hu2
    have e2 := circular_queue.size_construct (α := α) _ hdn.1 hdn.2
    have hc : construct (α := α) creator up down = Except.ok
        ⟨thr_safe_set.single creator, thr_safe_set.single creator, thr_safe_set.empty,
          thr_safe_set.empty, ⟨up.toNat, 0, 0, 0, List.replicate up.toNat none⟩,
          ⟨(if down = 0 then up else down).toNat, 0, 0, 0,
            List.replicate (if down = 0 then up else down).toNat none⟩⟩ := by
      unfold construct
      rw [e1, e2]
    refine ⟨_, hc, ?_, rfl, rfl, rfl, ?_, rfl, rfl, rfl, ?_, ?_, ?_, ?_⟩
    · show ((up.toNat : Nat) : Int) = up
      omega
    · show (((if down = 0 then up else down).toNat : Nat) : Int) = _
      omega
    · intro t; simp [thr_safe_set.single, thr_safe_set.present]
    · intro t; simp [thr_safe_set.single, thr_safe_set.present]
    · intro t; simp [thr_safe_set.empty, thr_safe_set.present]
    · intro t; simp [thr_safe_set.empty, thr_safe_set.present]
  · intro worker v1 v2 v3 hne
    have hc : (thr_safe_set.single creator).present creator = true := by
      simp [thr_safe_set.single, thr_safe_set.present]
    have hw : (thr_safe_set.single creator).present worker = false := by
      simp [thr_safe_set.single, thr_safe_set.present, hne]
    have he : ∀ t, thr_safe_set.empty.present t = false := by
      intro t; simp [thr_safe_set.empty, thr_safe_set.present]
    refine ⟨
      ⟨thr_safe_set.single creator, thr_safe_set.single creator, thr_safe_set.empty,
        thr_safe_set.empty, ⟨1, 0, 0, 0, [none]⟩, ⟨2, 0, 0, 0, [none, none]⟩⟩,
      ⟨thr_safe_set.single creator, thr_safe_set.single creator, thr_safe_set.empty,
        thr_safe_set.empty, ⟨1, 0, 0, 0, [none]⟩, ⟨2, 0, 1, 1, [v1, none]⟩⟩,
      ⟨thr_safe_set.single creator, thr_safe_set.single creator, thr_safe_set.empty,
        thr_safe_set.empty, ⟨1, 0, 0, 0, [none]⟩, ⟨2, 0, 0, 2, [v1, v2]⟩⟩,
      ⟨thr_safe_set.single creator, thr_safe_set.single creator, thr_safe_set.empty,
        thr_safe_set.empty, ⟨1, 0, 0, 0, [none]⟩, ⟨2, 1, 0, 1, [none, v2]⟩⟩,
      ⟨thr_safe_set.single creator, thr_safe_set.single creator, thr_safe_set.empty,
        thr_safe_set.empty, ⟨1, 0, 0, 0, [none]⟩, ⟨2, 1, 1, 2, [v3, v2]⟩⟩,
      rfl, ?_, ?_, ?_, ?_, ?_, ?_⟩
    · rw [write_down _ _ _ (he _) hc, circular_queue.write_eq]
      simp only [circular_queue._write_store, SIZE_T_MOD]
      norm_num
    · rw [write_down _ _ _ (he _) hc, circular_queue.write_eq]
      simp only [circular_queue._write_store, SIZE_T_MOD]
      norm_num
    · rw [write_down _ _ _ (he _) hc, circular_queue.write_eq]
      norm_num
    · rw [try_writing_down _ _ _ (he _) hc, circular_queue.try_writing_eq]
      norm_num
    · rw [read_down _ _ (he _) hw, circular_queue.read_eq]
      simp only [circular_queue._read_take, SIZE_T_MOD]
      norm_num
    · rw [write_down _ _ _ (he _) hc, circular_queue.write_eq]
      simp only [circular_queue._write_store, SIZE_T_MOD]
      norm_num

/-- Witness for C12: `channel(1, 2)` and `channel(3)` created by thread 0. -/
theorem C12_channel_construction_witness :
    construct (α := Nat) 0 1 2 = Except.ok
      ⟨⟨{0}⟩, ⟨{0}⟩, ⟨∅⟩, ⟨∅⟩, ⟨1, 0, 0, 0, [none]⟩, ⟨2, 0, 0, 0, [none, none]⟩⟩ ∧
    (∃ c : channel Nat, construct 0 3 0 = Except.ok c ∧
      (c.worker_to_read_owner_queue.size : Int) = 3 ∧
      c.worker_to_read_owner_queue.msg_count = 0 ∧
      c.worker_to_read_owner_queue.contents = [] ∧
      c.worker_to_read_owner_queue.data =
        List.replicate c.worker_to_read_owner_queue.size none ∧
      (c.write_owner_to_worker_queue.size : Int) = (if (0 : Int) = 0 then 3 else 0) ∧
      c.write_owner_to_worker_queue.msg_count = 0 ∧
      c.write_owner_to_worker_queue.contents = [] ∧
      c.write_owner_to_worker_queue.data =
        List.replicate c.write_owner_to_worker_queue.size none ∧
      (∀ t, c.read_owners.present t = true ↔ t = 0) ∧
      (∀ t, c.write_owners.present t = true ↔ t = 0) ∧
      (∀ t, c.non_readers.present t = false) ∧
      (∀ t, c.non_writers.present t = false)) :=
  ⟨rfl, (C12_channel_construction (α := Nat) 0 3 0 (by decide) (by decide) (by decide)
    (by decide)).1⟩

/-- C13: read routing.  For every channel state and every calling thread `t`
that is not in `non_readers`, `read`, `try_reading` and `timed_read` act on
`worker_to_read_owner_queue` (queueUp) if `t` is in `read_owners` and on
`write_owner_to_worker_queue` (queueDown) otherwise: the call suspends exactly
when the queue call does, and otherwise hands back exactly the queue call's
result, the new channel state being the old one with that queue replaced by the
queue call's new state (the other queue and the four role sets unchanged). -/
theorem C13_read_routing (c : channel α) (t : thread_id) (duration : Int)
    (timed_out : Bool) (h : c.non_readers.present t = false) :
    (c.read_owners.present t = true →
      c.read t = Except.ok (c.worker_to_read_owner_queue.read.map
        fun r => ({ c with worker_to_read_owner_queue := r.1 }, r.2)) ∧
      c.try_reading t = Except.ok (c.worker_to_read_owner_queue.try_reading.map
        fun r => ({ c with worker_to_read_owner_queue := r.1 }, r.2)) ∧
      c.timed_read t duration timed_out =
        Except.ok ((c.worker_to_read_owner_queue.timed_read duration timed_out).map
          fun r => ({ c with worker_to_read_owner_queue := r.1 }, r.2))) ∧
    (c.read_owners.present t = false →
      c.read t = Except.ok (c.write_owner_to_worker_queue.read.map
        fun r => ({ c with write_owner_to_worker_queue := r.1 }, r.2)) ∧
      c.try_reading t = Except.ok (c.write_owner_to_worker_queue.try_reading.map
        fun r => ({ c with write_owner_to_worker_queue := r.1 }, r.2)) ∧
      c.timed_read t duration timed_out =
        Except.ok ((c.write_owner_to_worker_queue.timed_read duration timed_out).map
          fun r => ({ c with write_owner_to_worker_queue := r.1 }, r.2))) :=
  ⟨fun ho => ⟨read_up c t h ho, try_reading_up c t h ho,
      timed_read_up c t duration timed_out h ho⟩,
    fun ho => ⟨read_down c t h ho, try_reading_down c t h ho,
      timed_read_down c t duration timed_out h ho⟩⟩

/-- Witness for C13: thread 0 is a read-owner and reads from queueUp, thread 1
has no role and reads from queueDown. -/
theorem C13_read_routing_witness :
    (⟨⟨{0}⟩, ⟨{0}⟩, ⟨∅⟩, ⟨∅⟩, ⟨1, 0, 0, 1, [some 5]⟩, ⟨2, 0, 1, 1, [some 7, none]⟩⟩ :
      channel Nat).read 0 =
      Except.ok (some
        (⟨⟨{0}⟩, ⟨{0}⟩, ⟨∅⟩, ⟨∅⟩, ⟨1, 0, 0, 0, [none]⟩, ⟨2, 0, 1, 1, [some 7, none]⟩⟩,
          some 5)) ∧
    (⟨⟨{0}⟩, ⟨{0}⟩, ⟨∅⟩, ⟨∅⟩, ⟨1, 0, 0, 1, [some 5]⟩, ⟨2, 0, 1, 1, [some 7, none]⟩⟩ :
      channel Nat).read 1 =
      Except.ok (some
        (⟨⟨{0}⟩, ⟨{0}⟩, ⟨∅⟩, ⟨∅⟩, ⟨1, 0, 0, 1, [some 5]⟩, ⟨2, 1, 1, 0, [none, none]⟩⟩,
          some 7)) :=
  ⟨((C13_read_routing (α := Nat)
      ⟨⟨{0}⟩, ⟨{0}⟩, ⟨∅⟩, ⟨∅⟩, ⟨1, 0, 0, 1, [some 5]⟩, ⟨2, 0, 1, 1, [some 7, none]⟩⟩
      0 0 false (by decide)).1 (by decide)).1,
    ((C13_read_routing (α := Nat)
      ⟨⟨{0}⟩, ⟨{0}⟩, ⟨∅⟩, ⟨∅⟩, ⟨1, 0, 0, 1, [some 5]⟩, ⟨2, 0, 1, 1, [some 7, none]⟩⟩
      1 0 false (by decide)).2 (by decide)).1⟩

/-- C14: write routing.  For every channel state and every calling thread `t`
that is not in `non_writers`, `write`, `try_writing` and `timed_write` act on
`write_owner_to_worker_queue` (queueDown) if `t` is in `write_owners` and on
`worker_to_read_owner_queue` (queueUp) otherwise: the call suspends exactly
when the queue call does, and otherwise hands back exactly the queue call's
result, the new channel state being the old one with that queue replaced by the
queue call's new state (the other queue and the four role sets unchanged). -/
theorem C14_write_routing (c : channel α) (t : thread_id) (message : Option α)
    (duration : Int) (h : c.non_writers.present t = false) :
    (c.write_owners.present t = true →
      c.write t message = Except.ok ((c.write_owner_to_worker_queue.write message).map
        fun r => ({ c with write_owner_to_worker_queue := r.1 }, r.2)) ∧
      c.try_writing t message =
        Except.ok ((c.write_owner_to_worker_queue.try_writing message).map
          fun r => ({ c with write_owner_to_worker_queue := r.1 }, r.2)) ∧
      c.timed_write t message duration =
        Except.ok ((c.write_owner_to_worker_queue.timed_write message duration).map
          fun r => ({ c with write_owner_to_worker_queue := r.1 }, r.2))) ∧
    (c.write_owners.present t = false →
      c.write t message = Except.ok ((c.worker_to_read_owner_queue.write message).map
        fun r => ({ c with worker_to_read_owner_queue := r.1 }, r.2)) ∧
      c.try_writing t message =
        Except.ok ((c.worker_to_read_owner_queue.try_writing message).map
          fun r => ({ c with worker_to_read_owner_queue := r.1 }, r.2)) ∧
      c.timed_write t message duration =
        Except.ok ((c.worker_to_read_owner_queue.timed_write message duration).map
          fun r => ({ c with worker_to_read_owner_queue := r.1 }, r.2))) :=
  ⟨fun ho => ⟨write_down c t message h ho, try_writing_down c t message h ho,
      timed_write_down c t message duration h ho⟩,
    fun ho => ⟨write_up c t message h ho, try_writing_up c t message h ho,
      timed_write_up c t message duration h ho⟩⟩

/-- Witness for C14: thread 0 is a write-owner and writes to queueDown, thread 1
has no role and writes to queueUp. -/
theorem C14_write_routing_witness :
    (⟨⟨{0}⟩, ⟨{0}⟩, ⟨∅⟩, ⟨∅⟩, ⟨1, 0, 0, 0, [none]⟩, ⟨2, 0, 1, 1, [some 7, none]⟩⟩ :
      channel Nat).write 0 (some 8) =
      Except.ok (some
        (⟨⟨{0}⟩, ⟨{0}⟩, ⟨∅⟩, ⟨∅⟩, ⟨1, 0, 0, 0, [none]⟩, ⟨2, 0, 0, 2, [some 7, some 8]⟩⟩,
          none)) ∧
    (⟨⟨{0}⟩, ⟨{0}⟩, ⟨∅⟩, ⟨∅⟩, ⟨1, 0, 0, 0, [none]⟩, ⟨2, 0, 1, 1, [some 7, none]⟩⟩ :
      channel Nat).write 1 (some 9) =
      Except.ok (some
        (⟨⟨{0}⟩, ⟨{0}⟩, ⟨∅⟩, ⟨∅⟩, ⟨1, 0, 0, 1, [some 9]⟩, ⟨2, 0, 1, 1, [some 7, none]⟩⟩,
          none)) :=
  ⟨((C14_write_routing (α := Nat)
      ⟨⟨{0}⟩, ⟨{0}⟩, ⟨∅⟩, ⟨∅⟩, ⟨1, 0, 0, 0, [none]⟩, ⟨2, 0, 1, 1, [some 7, none]⟩⟩
      0 (some 8) 0 (by decide)).1 (by decide)).1,
    ((C14_write_routing (α := Nat)
      ⟨⟨{0}⟩, ⟨{0}⟩, ⟨∅⟩, ⟨∅⟩, ⟨1, 0, 0, 0, [none]⟩, ⟨2, 0, 1, 1, [some 7, none]⟩⟩
      1 (some 9) 0 (by decide)).2 (by decide)).1⟩

/-- C15: misuse check.  `read`, `try_reading` and `timed_read` abort if and only
if the calling thread is in `non_readers`; `write`, `try_writing` and
`timed_write` abort if and only if it is in `non_writers`.  The outcome "abort"
is thus decided by the role set alone, before and independently of either
queue: a channel with the same `non_readers` (`non_writers`) and any other
queue states aborts on the same calls. -/
theorem C15_misuse_check (c : channel α) (t : thread_id) (message : Option α)
    (duration : Int) (timed_out : Bool) :
    (c.read t = Except.error Fault.abort ↔ c.non_readers.present t = true) ∧
    (c.try_reading t = Except.error Fault.abort ↔ c.non_readers.present t = true) ∧
    (c.timed_read t duration timed_out = Except.error Fault.abort ↔
      c.non_readers.present t = true) ∧
    (c.write t message = Except.error Fault.abort ↔ c.non_writers.present t = true) ∧
    (c.try_writing t message = Except.error Fault.abort ↔
      c.non_writers.present t = true) ∧
    (c.timed_write t message duration = Except.error Fault.abort ↔
      c.non_writers.present t = true) ∧
    (∀ c1 : channel α, c1.non_readers = c.non_readers →
      c.read t = Except.error Fault.abort → c1.read t = Except.error Fault.abort) ∧
    (∀ c1 : channel α, c1.non_writers = c.non_writers →
      c.write t message = Except.error Fault.abort →
        c1.write t message = Except.error Fault.abort) := by
  have hr : ∀ c : channel α,
      (c.read t = Except.error Fault.abort ↔ c.non_readers.present t = true) := by
    intro c
    constructor
    · intro h
      by_contra hn
      have hn : c.non_readers.present t = false := by simpa using hn
      cases ho : c.read_owners.present t
      · rw [read_down c t hn ho] at h; cases h
      · rw [read_up c t hn ho] at h; cases h
    · exact read_abort c t
  have hw : ∀ c : channel α,
      (c.write t message = Except.error Fault.abort ↔ c.non_writers.present t = true) := by
    intro c
    constructor
    · intro h
      by_contra hn
      have hn : c.non_writers.present t = false := by simpa using hn
      cases ho : c.write_owners.present t
      · rw [write_up c t message hn ho] at h; cases h
      · rw [write_down c t message hn ho] at h; cases h
    · exact write_abort c t message
  refine ⟨hr c, ?_, ?_, hw c, ?_, ?_, ?_, ?_⟩
  · constructor
    · intro h
      by_contra hn
      have hn : c.non_readers.present t = false := by simpa using hn
      cases ho : c.read_owners.present t
      · rw [try_reading_down c t hn ho] at h; cases h
      · rw [try_reading_up c t hn ho] at h; cases h
    · exact try_reading_abort c t
  · constructor
    · intro h
      by_contra hn
      have hn : c.non_readers.present t = false := by simpa using hn
      cases ho : c.read_owners.present t
      · rw [timed_read_down c t duration timed_out hn ho] at h; cases h
      · rw [timed_read_up c t duration timed_out hn ho] at h; cases h
    · exact timed_read_abort c t duration timed_out
  · constructor
    · intro h
      by_contra hn
      have hn : c.non_writers.present t = false := by simpa using hn
      cases ho : c.write_owners.present t
      · rw [try_writing_up c t message hn ho] at h; cases h
      · rw [try_writing_down c t message hn ho] at h; cases h
    · exact try_writing_abort c t message
  · constructor
    · intro h
      by_contra hn
      have hn : c.non_writers.present t = false := by simpa using hn
      cases ho : c.write_owners.present t
      · rw [timed_write_up c t message duration hn ho] at h; cases h
      · rw [timed_write_down c t message duration hn ho] at h; cases h
    · exact timed_write_abort c t message duration
  · intro c1 he h
    rw [hr c1, he]
    exact (hr c).1 h
  · intro c1 he h
    rw [hw c1, he]
    exact (hw c).1 h

/-- Witness for C15: thread 0 has renounced reading (it aborts although the
queue it would read holds a message), thread 1 has not (it reads that
message). -/
theorem C15_misuse_check_witness :
    (⟨⟨∅⟩, ⟨{0}⟩, ⟨{0}⟩, ⟨∅⟩, ⟨1, 0, 0, 0, [none]⟩, ⟨1, 0, 0, 1, [some 7]⟩⟩ :
      channel Nat).read 0 = Except.error Fault.abort ∧
    (⟨⟨∅⟩, ⟨{0}⟩, ⟨{0}⟩, ⟨∅⟩, ⟨1, 0, 0, 0, [none]⟩, ⟨1, 0, 0, 1, [some 7]⟩⟩ :
      channel Nat).read 1 ≠ Except.error Fault.abort :=
  ⟨(C15_misuse_check (α := Nat)
      ⟨⟨∅⟩, ⟨{0}⟩, ⟨{0}⟩, ⟨∅⟩, ⟨1, 0, 0, 0, [none]⟩, ⟨1, 0, 0, 1, [some 7]⟩⟩
      0 none 0 false).1.2 (by decide),
    fun h => absurd ((C15_misuse_check (α := Nat)
      ⟨⟨∅⟩, ⟨{0}⟩, ⟨{0}⟩, ⟨∅⟩, ⟨1, 0, 0, 0, [none]⟩, ⟨1, 0, 0, 1, [some 7]⟩⟩
      1 none 0 false).1.1 h) (by decide)⟩

/-- C16: role monotonicity.  Once thread `t` has called `become_a_non_reader()`,
after every subsequent sequence of completed channel calls by any threads `t` is
still in `non_readers`, so a later `read`, `try_reading`, `timed_read` or
`become_a_read_owner` by `t` aborts; symmetrically, after
`become_a_non_writer()` every later `write`, `try_writing`, `timed_write` or
`become_a_write_owner` by `t` aborts. -/
theorem C16_role_monotonicity (c : channel α) (t : thread_id)
    (calls : List (thread_id × Call α)) (c2 : channel α) (rs : List (Reply α))
    (message : Option α) (duration : Int) (timed_out : Bool) :
    ((c.become_a_non_reader t).run calls = Except.ok (some (c2, rs)) →
      c2.non_readers.present t = true ∧
      c2.read t = Except.error Fault.abort ∧
      c2.try_reading t = Except.error Fault.abort ∧
      c2.timed_read t duration timed_out = Except.error Fault.abort ∧
      c2.become_a_read_owner t = Except.error Fault.abort ∧
      c2.call t Call.read = Except.error Fault.abort ∧
      c2.call t Call.try_reading = Except.error Fault.abort ∧
      c2.call t (Call.timed_read duration timed_out) = Except.error Fault.abort ∧
      c2.call t Call.become_a_read_owner = Except.error Fault.abort) ∧
    ((c.become_a_non_writer t).run calls = Except.ok (some (c2, rs)) →
      c2.non_writers.present t = true ∧
      c2.write t message = Except.error Fault.abort ∧
      c2.try_writing t message = Except.error Fault.abort ∧
      c2.timed_write t message duration = Except.error Fault.abort ∧
      c2.become_a_write_owner t = Except.error Fault.abort ∧
      c2.call t (Call.write message) = Except.error Fault.abort ∧
      c2.call t (Call.try_writing message) = Except.error Fault.abort ∧
      c2.call t (Call.timed_write message duration) = Except.error Fault.abort ∧
      c2.call t Call.become_a_write_owner = Except.error Fault.abort) := by
  constructor
  · intro h
    have h0 : (c.become_a_non_reader t).non_readers.present t = true := by
      show (c.non_readers.add t).present t = true
      rw [present_add]; simp
    have hp := (run_non_mono calls _ c2 rs h t).1 h0
    have e1 := read_abort c2 t hp
    have e2 := try_reading_abort c2 t hp
    have e3 := timed_read_abort c2 t duration timed_out hp
    have e4 : c2.become_a_read_owner t = Except.error Fault.abort := by
      rw [become_a_read_owner_eq, hp, if_pos rfl]
    refine ⟨hp, e1, e2, e3, e4, ?_, ?_, ?_, ?_⟩
    · simp only [call, e1]
    · simp only [call, e2]
    · simp only [call, e3]
    · simp only [call, e4]
  · intro h
    have h0 : (c.become_a_non_writer t).non_writers.present t = true := by
      show (c.non_writers.add t).present t = true
      rw [present_add]; simp
    have hp := (run_non_mono calls _ c2 rs h t).2 h0
    have e1 := write_abort c2 t message hp
    have e2 := try_writing_abort c2 t message hp
    have e3 := timed_write_abort c2 t message duration hp
    have e4 : c2.become_a_write_owner t = Except.error Fault.abort := by
      rw [become_a_write_owner_eq, hp, if_pos rfl]
    refine ⟨hp, e1, e2, e3, e4, ?_, ?_, ?_, ?_⟩
    · simp only [call, e1]
    · simp only [call, e2]
    · simp only [call, e3]
    · simp only [call, e4]

/-- Witness for C16: on `channel(1)` created by thread 0, thread 0 renounces
reading; then thread 1 claims read-ownership, thread 0 writes 7, thread 2 reads
it and thread 0 asks for the occupancy.  Afterwards thread 0 is still a
non-reader and its `read` and `become_a_read_owner` abort. -/
theorem C16_role_monotonicity_witness :
    ((⟨⟨{0}⟩, ⟨{0}⟩, ⟨∅⟩, ⟨∅⟩, ⟨1, 0, 0, 0, [none]⟩, ⟨1, 0, 0, 0, [none]⟩⟩ :
        channel Nat).become_a_non_reader 0).run
      [(1, Call.become_a_read_owner), (0, Call.write (some 7)), (2, Call.read),
        (0, Call.read_msg_count)] =
      Except.ok (some
        (⟨⟨{1}⟩, ⟨{0}⟩, ⟨{0}⟩, ⟨∅⟩, ⟨1, 0, 0, 0, [none]⟩, ⟨1, 0, 0, 0, [none]⟩⟩,
          [Reply.void, Reply.write none, Reply.read (some 7), Reply.msg_count 0])) ∧
    (⟨⟨{1}⟩, ⟨{0}⟩, ⟨{0}⟩, ⟨∅⟩, ⟨1, 0, 0, 0, [none]⟩, ⟨1, 0, 0, 0, [none]⟩⟩ :
      channel Nat).non_readers.present 0 = true ∧
    (⟨⟨{1}⟩, ⟨{0}⟩, ⟨{0}⟩, ⟨∅⟩, ⟨1, 0, 0, 0, [none]⟩, ⟨1, 0, 0, 0, [none]⟩⟩ :
      channel Nat).read 0 = Except.error Fault.abort ∧
    (⟨⟨{1}⟩, ⟨{0}⟩, ⟨{0}⟩, ⟨∅⟩, ⟨1, 0, 0, 0, [none]⟩, ⟨1, 0, 0, 0, [none]⟩⟩ :
      channel Nat).become_a_read_owner 0 = Except.error Fault.abort :=
  have hrun : ((⟨⟨{0}⟩, ⟨{0}⟩, ⟨∅⟩, ⟨∅⟩, ⟨1, 0, 0, 0, [none]⟩, ⟨1, 0, 0, 0, [none]⟩⟩ :
        channel Nat).become_a_non_reader 0).run
      [(1, Call.become_a_read_owner), (0, Call.write (some 7)), (2, Call.read),
        (0, Call.read_msg_count)] =
      Except.ok (some
        (⟨⟨{1}⟩, ⟨{0}⟩, ⟨{0}⟩, ⟨∅⟩, ⟨1, 0, 0, 0, [none]⟩, ⟨1, 0, 0, 0, [none]⟩⟩,
          [Reply.void, Reply.write none, Reply.read (some 7), Reply.msg_count 0])) := rfl
  have h := (C16_role_monotonicity (α := Nat)
    ⟨⟨{0}⟩, ⟨{0}⟩, ⟨∅⟩, ⟨∅⟩, ⟨1, 0, 0, 0, [none]⟩, ⟨1, 0, 0, 0, [none]⟩⟩ 0
    [(1, Call.become_a_read_owner), (0, Call.write (some 7)), (2, Call.read),
      (0, Call.read_msg_count)]
    ⟨⟨{1}⟩, ⟨{0}⟩, ⟨{0}⟩, ⟨∅⟩, ⟨1, 0, 0, 0, [none]⟩, ⟨1, 0, 0, 0, [none]⟩⟩
    [Reply.void, Reply.write none, Reply.read (some 7), Reply.msg_count 0]
    none 0 false).1 hrun
  ⟨hrun, h.1, h.2.1, h.2.2.2.2.1⟩

/-- C17 (as the code has it): the occupancy queries are not subject to the
misuse check.  `read_msg_count` and `write_msg_count` complete for every caller,
also one in `non_readers` or `non_writers`: they never abort and never suspend,
they return the occupancy of the queue selected by the caller's ownership and
leave the channel state unchanged. -/
theorem C17_msg_count_never_fatal (c : channel α) (t : thread_id) :
    c.call t Call.read_msg_count =
      Except.ok (some (c, Reply.msg_count (c.read_msg_count t))) ∧
    c.call t Call.write_msg_count =
      Except.ok (some (c, Reply.msg_count (c.write_msg_count t))) ∧
    c.call t Call.read_msg_count ≠ Except.error Fault.abort ∧
    c.call t Call.write_msg_count ≠ Except.error Fault.abort ∧
    c.read_msg_count t =
      (if c.read_owners.present t then c.worker_to_read_owner_queue.count
       else c.write_owner_to_worker_queue.count) ∧
    c.write_msg_count t =
      (if c.write_owners.present t then c.write_owner_to_worker_queue.count
       else c.worker_to_read_owner_queue.count) := by
  refine ⟨rfl, rfl, ?_, ?_, rfl, rfl⟩ <;> intro h <;> cases h

/-- C17, counterexample to the claim as stated: on the channel `channel(1)`
created by thread 0, after thread 0 has called `become_a_non_reader()` and
`become_a_non_writer()` it is in `non_readers` and `non_writers` (its `read`
and `write` abort), yet its `read_msg_count()` and `write_msg_count()` complete
and return 0. -/
theorem C17_counterexample :
    ∃ c0 c1 : channel Nat,
      construct 0 1 0 = Except.ok c0 ∧
      c1 = (c0.become_a_non_reader 0).become_a_non_writer 0 ∧
      c1.non_readers.present 0 = true ∧ c1.non_writers.present 0 = true ∧
      c1.call 0 Call.read = Except.error Fault.abort ∧
      c1.call 0 (Call.write (some 7)) = Except.error Fault.abort ∧
      c1.call 0 Call.read_msg_count = Except.ok (some (c1, Reply.msg_count 0)) ∧
      c1.call 0 Call.write_msg_count = Except.ok (some (c1, Reply.msg_count 0)) :=
  ⟨_, _, rfl, rfl, by decide, by decide, rfl, rfl, rfl, rfl⟩

/-- C18: occupancy-query routing.  `read_msg_count` returns the occupancy of
queueUp for a read-owner and of queueDown otherwise, `write_msg_count` that of
queueDown for a write-owner and of queueUp otherwise; neither changes the
state.  Hence a write-owner's `write_msg_count` equals a non-read-owner's
`read_msg_count`, and a non-write-owner's `write_msg_count` equals a
read-owner's `read_msg_count`. -/
theorem C18_msg_count_routing (c : channel α) (t u : thread_id) :
    (c.read_owners.present t = true →
      c.read_msg_count t = c.worker_to_read_owner_queue.msg_count) ∧
    (c.read_owners.present t = false →
      c.read_msg_count t = c.write_owner_to_worker_queue.msg_count) ∧
    (c.write_owners.present t = true →
      c.write_msg_count t = c.write_owner_to_worker_queue.msg_count) ∧
    (c.write_owners.present t = false →
      c.write_msg_count t = c.worker_to_read_owner_queue.msg_count) ∧
    (∃ n, c.call t Call.read_msg_count = Except.ok (some (c, Reply.msg_count n)) ∧
      n = c.read_msg_count t) ∧
    (∃ n, c.call t Call.write_msg_count = Except.ok (some (c, Reply.msg_count n)) ∧
      n = c.write_msg_count t) ∧
    (c.write_owners.present t = true → c.read_owners.present u = false →
      c.write_msg_count t = c.read_msg_count u) ∧
    (c.write_owners.present t = false → c.read_owners.present u = true →
      c.write_msg_count t = c.read_msg_count u) := by
  refine ⟨?_, ?_, ?_, ?_, ⟨_, rfl, rfl⟩, ⟨_, rfl, rfl⟩, ?_, ?_⟩
  · intro h; simp [read_msg_count, h]
  · intro h; simp [read_msg_count, h]
  · intro h; simp [write_msg_count, h]
  · intro h; simp [write_msg_count, h]
  · intro h1 h2; simp [write_msg_count, read_msg_count, h1, h2]
  · intro h1 h2; simp [write_msg_count, read_msg_count, h1, h2]

/-- Witness for C18: on the channel below thread 0 holds both ownerships and
thread 1 none; queueUp holds one message, queueDown two. -/
theorem C18_msg_count_routing_witness :
    (⟨⟨{0}⟩, ⟨{0}⟩, ⟨∅⟩, ⟨∅⟩, ⟨1, 0, 0, 1, [some 5]⟩, ⟨2, 0, 0, 2, [some 7, some 8]⟩⟩ :
      channel Nat).write_msg_count 0 =
    (⟨⟨{0}⟩, ⟨{0}⟩, ⟨∅⟩, ⟨∅⟩, ⟨1, 0, 0, 1, [some 5]⟩, ⟨2, 0, 0, 2, [some 7, some 8]⟩⟩ :
      channel Nat).read_msg_count 1 ∧
    (⟨⟨{0}⟩, ⟨{0}⟩, ⟨∅⟩, ⟨∅⟩, ⟨1, 0, 0, 1, [some 5]⟩, ⟨2, 0, 0, 2, [some 7, some 8]⟩⟩ :
      channel Nat).write_msg_count 1 =
    (⟨⟨{0}⟩, ⟨{0}⟩, ⟨∅⟩, ⟨∅⟩, ⟨1, 0, 0, 1, [some 5]⟩, ⟨2, 0, 0, 2, [some 7, some 8]⟩⟩ :
      channel Nat).read_msg_count 0 ∧
    (⟨⟨{0}⟩, ⟨{0}⟩, ⟨∅⟩, ⟨∅⟩, ⟨1, 0, 0, 1, [some 5]⟩, ⟨2, 0, 0, 2, [some 7, some 8]⟩⟩ :
      channel Nat).read_msg_count 1 = 2 ∧
    (⟨⟨{0}⟩, ⟨{0}⟩, ⟨∅⟩, ⟨∅⟩, ⟨1, 0, 0, 1, [some 5]⟩, ⟨2, 0, 0, 2, [some 7, some 8]⟩⟩ :
      channel Nat).read_msg_count 0 = 1 :=
  ⟨(C18_msg_count_routing (α := Nat)
      ⟨⟨{0}⟩, ⟨{0}⟩, ⟨∅⟩, ⟨∅⟩, ⟨1, 0, 0, 1, [some 5]⟩, ⟨2, 0, 0, 2, [some 7, some 8]⟩⟩
      0 1).2.2.2.2.2.2.1 (by decide) (by decide),
    (C18_msg_count_routing (α := Nat)
      ⟨⟨{0}⟩, ⟨{0}⟩, ⟨∅⟩, ⟨∅⟩, ⟨1, 0, 0, 1, [some 5]⟩, ⟨2, 0, 0, 2, [some 7, some 8]⟩⟩
      1 0).2.2.2.2.2.2.2 (by decide) (by decide),
    (C18_msg_count_routing (α := Nat)
      ⟨⟨{0}⟩, ⟨{0}⟩, ⟨∅⟩, ⟨∅⟩, ⟨1, 0, 0, 1, [some 5]⟩, ⟨2, 0, 0, 2, [some 7, some 8]⟩⟩
      1 0).2.1 (by decide),
    (C18_msg_count_routing (α := Nat)
      ⟨⟨{0}⟩, ⟨{0}⟩, ⟨∅⟩, ⟨∅⟩, ⟨1, 0, 0, 1, [some 5]⟩, ⟨2, 0, 0, 2, [some 7, some 8]⟩⟩
      0 1).1 (by decide)⟩

/-- C20: semantics of the role set `thr_safe_set`.  After `add(i)`,
`present(i)` is true; after `remove(i)`, `present(i)` is false; adding an
already-present id or removing an absent id leaves the set unchanged, so
`add; add = add` and `remove; remove = remove`; neither operation changes the
membership of any other id. -/
theorem C20_role_set_semantics (s : thr_safe_set) (i j : thread_id) :
    (s.add i).present i = true ∧
    (s.remove i).present i = false ∧
    (s.present i = true → s.add i = s) ∧
    (s.present i = false → s.remove i = s) ∧
    (s.add i).add i = s.add i ∧
    (s.remove i).remove i = s.remove i ∧
    (j ≠ i → (s.add i).present j = s.present j ∧ (s.remove i).present j = s.present j) := by
  obtain ⟨ids⟩ := s
  refine ⟨?_, ?_, ?_, ?_, ?_, ?_, ?_⟩
  · simp [thr_safe_set.add, thr_safe_set.present]
  · simp [thr_safe_set.remove, thr_safe_set.present]
  · intro h
    simp only [thr_safe_set.present, decide_eq_true_eq] at h
    simp [thr_safe_set.add, Finset.insert_eq_of_mem h]
  · intro h
    simp only [thr_safe_set.present, decide_eq_false_iff_not] at h
    simp [thr_safe_set.remove, Finset.erase_eq_of_not_mem h]
  · simp [thr_safe_set.add]
  · simp [thr_safe_set.remove]
  · intro h
    simp [thr_safe_set.add, thr_safe_set.remove, thr_safe_set.present, h]

/-- Witness for C20: the set `{1, 2}` with ids 2 (present), 3 (absent) and 1. -/
theorem C20_role_set_semantics_witness :
    ((⟨{1, 2}⟩ : thr_safe_set).add 3).present 3 = true ∧
    ((⟨{1, 2}⟩ : thr_safe_set).remove 2).present 2 = false ∧
    (⟨{1, 2}⟩ : thr_safe_set).add 2 = ⟨{1, 2}⟩ ∧
    (⟨{1, 2}⟩ : thr_safe_set).remove 3 = ⟨{1, 2}⟩ ∧
    ((⟨{1, 2}⟩ : thr_safe_set).add 3).present 1 = (⟨{1, 2}⟩ : thr_safe_set).present 1 ∧
    ((⟨{1, 2}⟩ : thr_safe_set).remove 2).present 1 = (⟨{1, 2}⟩ : thr_safe_set).present 1 :=
  ⟨(C20_role_set_semantics ⟨{1, 2}⟩ 3 1).1,
    (C20_role_set_semantics ⟨{1, 2}⟩ 2 1).2.1,
    (C20_role_set_semantics ⟨{1, 2}⟩ 2 1).2.2.1 (by decide),
    (C20_role_set_semantics ⟨{1, 2}⟩ 3 1).2.2.2.1 (by decide),
    ((C20_role_set_semantics ⟨{1, 2}⟩ 3 1).2.2.2.2.2.2 (by decide)).1,
    ((C20_role_set_semantics ⟨{1, 2}⟩ 2 1).2.2.2.2.2.2 (by decide)).2⟩

theorem write_down_eq (c : channel α) (t : thread_id) (message : Option α)
    (h : c.non_writers.present t = false) (ho : c.write_owners.present t = true) :
    c.write t message =
      if c.write_owner_to_worker_queue.count < c.write_owner_to_worker_queue.size then
        Except.ok (some ({ c with write_owner_to_worker_queue :=
          c.write_owner_to_worker_queue._write_store message }, none))
      else Except.ok none := by
  rw [write_down c t message h ho, circular_queue.write_eq]
  split <;> rfl

theorem write_up_eq (c : channel α) (t : thread_id) (message : Option α)
    (h : c.non_writers.present t = false) (ho : c.write_owners.present t = false) :
    c.write t message =
      if c.worker_to_read_owner_queue.count < c.worker_to_read_owner_queue.size then
        Except.ok (some ({ c with worker_to_read_owner_queue :=
          c.worker_to_read_owner_queue._write_store message }, none))
      else Except.ok none := by
  rw [write_up c t message h ho, circular_queue.write_eq]
  split <;> rfl

theorem read_up_eq (c : channel α) (t : thread_id)
    (h : c.non_readers.present t = false) (ho : c.read_owners.present t = true) :
    c.read t =
      if 0 < c.worker_to_read_owner_queue.count then
        Except.ok (some ({ c with worker_to_read_owner_queue :=
          (c.worker_to_read_owner_queue._read_take).1 },
          (c.worker_to_read_owner_queue._read_take).2))
      else Except.ok none := by
  rw [read_up c t h ho, circular_queue.read_eq]
  split <;> rfl

theorem read_down_eq (c : channel α) (t : thread_id)
    (h : c.non_readers.present t = false) (ho : c.read_owners.present t = false) :
    c.read t =
      if 0 < c.write_owner_to_worker_queue.count then
        Except.ok (some ({ c with write_owner_to_worker_queue :=
          (c.write_owner_to_worker_queue._read_take).1 },
          (c.write_owner_to_worker_queue._read_take).2))
      else Except.ok none := by
  rw [read_down c t h ho, circular_queue.read_eq]
  split <;> rfl

end channel

namespace scenario

variable {α : Type}

/-! ## Lemmas on the scenario -/

theorem not_present (s : thr_safe_set) (t : thread_id) (h : s.present t = true → False) :
    s.present t = false := by
  cases hp : s.present t
  · rfl
  · exact absurd hp h

theorem producer_may_write (ids : Ids) (f : Nat → Option α → Option α)
    (vs : List (Option α)) (s : Sys α) (hd : ids.distinct vs.length)
    (hi : SInv ids f vs s) : s.ch.non_writers.present ids.producer = false :=
  not_present _ _ fun h => hd.1 (hi.non_writers _ h).symm

theorem collector_may_read (ids : Ids) (f : Nat → Option α → Option α)
    (vs : List (Option α)) (s : Sys α) (hd : ids.distinct vs.length)
    (hi : SInv ids f vs s) : s.ch.non_readers.present ids.collector = false :=
  not_present _ _ fun h => hd.2.1 (hi.non_readers _ h).symm

theorem worker_roles (ids : Ids) (f : Nat → Option α → Option α)
    (vs : List (Option α)) (s : Sys α) (hd : ids.distinct vs.length)
    (hi : SInv ids f vs s) (j : Nat) (hj : j < vs.length) :
    s.ch.non_readers.present (ids.worker j) = false ∧
    s.ch.non_writers.present (ids.worker j) = false ∧
    s.ch.read_owners.present (ids.worker j) = false ∧
    s.ch.write_owners.present (ids.worker j) = false := by
  obtain ⟨h1, h2, h3⟩ := hd.2.2 j hj
  refine ⟨not_present _ _ fun h => h1 (hi.non_readers _ h),
    not_present _ _ fun h => h1 (hi.non_writers _ h),
    not_present _ _ fun h => ?_, not_present _ _ fun h => ?_⟩
  · rcases hi.read_owners _ h with e | e
    · exact h1 e
    · exact h3 e
  · rcases hi.write_owners _ h with e | e
    · exact h1 e
    · exact h2 e

theorem step_creator (ids : Ids) (f : Nat → Option α → Option α) (s : Sys α) :
    step ids f s Actor.creator =
      if s.creator_pc = 0 then
        Except.ok (some { s with ch := s.ch.become_a_non_writer ids.creator,
                                 creator_pc := 1 })
      else if s.creator_pc = 1 then
        Except.ok (some { s with ch := s.ch.become_a_non_reader ids.creator,
                                 creator_pc := 2 })
      else Except.ok none := by
  unfold step
  rcases hpc : s.creator_pc with _ | _ | n
  · rfl
  · rfl
  · simp

theorem step_producer (ids : Ids) (f : Nat → Option α → Option α)
    (vs : List (Option α)) (s : Sys α) (hd : ids.distinct vs.length)
    (hi : SInv ids f vs s) :
    step ids f s Actor.producer =
      if s.producer_ready = true then
        match s.to_send with
        | [] => Except.ok none
        | v :: rest =>
          if s.ch.write_owner_to_worker_queue.count <
              s.ch.write_owner_to_worker_queue.size then
            Except.ok (some { s with
              ch := { s.ch with write_owner_to_worker_queue :=
                s.ch.write_owner_to_worker_queue._write_store v },
              to_send := rest })
          else Except.ok none
      else
        Except.ok (some { s with
          ch := { s.ch with write_owners := s.ch.write_owners.add ids.producer },
          producer_ready := true }) := by
  have hn := producer_may_write ids f vs s hd hi
  unfold step
  cases hr : s.producer_ready
  · simp only [Bool.false_eq_true, if_false, channel.become_a_write_owner_eq, hn]
  · simp only [if_true]
    cases hs : s.to_send with
    | nil => rfl
    | cons v rest =>
      simp only [channel.write_down_eq _ _ _ hn (hi.producer_owner hr)]
      by_cases hc : s.ch.write_owner_to_worker_queue.count <
          s.ch.write_owner_to_worker_queue.size
      · simp only [hc, if_true]
      · simp only [hc, if_false]

theorem step_collector (ids : Ids) (f : Nat → Option α → Option α)
    (vs : List (Option α)) (s : Sys α) (hd : ids.distinct vs.length)
    (hi : SInv ids f vs s) :
    step ids f s Actor.collector =
      if s.collector_ready = true then
        match s.to_collect with
        | 0 => Except.ok none
        | n + 1 =>
          if 0 < s.ch.worker_to_read_owner_queue.count then
            Except.ok (some { s with
              ch := { s.ch with worker_to_read_owner_queue :=
                (s.ch.worker_to_read_owner_queue._read_take).1 },
              to_collect := n,
              collected := s.collected ++ [(s.ch.worker_to_read_owner_queue._read_take).2] })
          else Except.ok none
      else
        Except.ok (some { s with
          ch := { s.ch with read_owners := s.ch.read_owners.add ids.collector },
          collector_ready := true }) := by
  have hn := collector_may_read ids f vs s hd hi
  unfold step
  cases hr : s.collector_ready
  · simp only [Bool.false_eq_true, if_false, channel.become_a_read_owner_eq, hn]
  · simp only [if_true]
    cases hs : s.to_collect with
    | zero => rfl
    | succ n =>
      simp only [channel.read_up_eq _ _ hn (hi.collector_owner hr)]
      by_cases hc : 0 < s.ch.worker_to_read_owner_queue.count
      · simp only [hc, if_true]
      · simp only [hc, if_false]

theorem step_worker (ids : Ids) (f : Nat → Option α → Option α)
    (vs : List (Option α)) (s : Sys α) (hd : ids.distinct vs.length)
    (hi : SInv ids f vs s) (j : Nat) :
    step ids f s (Actor.worker j) =
      match s.workers[j]? with
      | none => Except.ok none
      | some Worker.idle =>
        if 0 < s.ch.write_owner_to_worker_queue.count then
          Except.ok (some { s with
            ch := { s.ch with write_owner_to_worker_queue :=
              (s.ch.write_owner_to_worker_queue._read_take).1 },
            workers := s.workers.set j
              (Worker.holding (s.ch.write_owner_to_worker_queue._read_take).2) })
        else Except.ok none
      | some (Worker.holding m) =>
        if s.ch.worker_to_read_owner_queue.count <
            s.ch.worker_to_read_owner_queue.size then
          Except.ok (some { s with
            ch := { s.ch with worker_to_read_owner_queue :=
              s.ch.worker_to_read_owner_queue._write_store (f j m) },
            workers := s.workers.set j (Worker.finished m) })
        else Except.ok none
      | some (Worker.finished _) => Except.ok none := by
  cases hw : s.workers[j]? with
  | none => simp only [step, hw]
  | some w =>
    have hj : j < vs.length := by
      rw [← hi.n_workers]
      by_contra hge
      rw [List.getElem?_eq_none (by omega)] at hw
      cases hw
    obtain ⟨h1, h2, h3, h4⟩ := worker_roles ids f vs s hd hi j hj
    cases w with
    | idle =>
      simp only [step, hw, channel.read_down_eq _ _ h1 h3]
      by_cases hc : 0 < s.ch.write_owner_to_worker_queue.count
      · simp only [hc, if_true]
      · simp only [hc, if_false]
    | holding m =>
      simp only [step, hw, channel.write_up_eq _ _ _ h2 h4]
      by_cases hc : s.ch.worker_to_read_owner_queue.count <
          s.ch.worker_to_read_owner_queue.size
      · simp only [hc, if_true]
      · simp only [hc, if_false]
    | finished m => simp only [step, hw]

theorem inputs_set_holding (ws : List (Worker α)) (m : Option α) :
    ∀ j, ws[j]? = some Worker.idle →
      (inputs (ws.set j (Worker.holding m))).Perm (m :: inputs ws) := by
  induction ws with
  | nil => intro j h; simp at h
  | cons w ws ih =>
    intro j h
    cases j with
    | zero =>
      simp only [List.getElem?_cons_zero, Option.some.injEq] at h
      subst h
      simp only [List.set_cons_zero, inputs]
      exact List.Perm.refl _
    | succ j =>
      simp only [List.getElem?_cons_succ] at h
      have := ih j h
      cases w with
      | idle => simpa only [List.set_cons_succ, inputs] using this
      | holding x =>
        simp only [List.set_cons_succ, inputs]
        exact (List.Perm.cons x this).trans (List.Perm.swap m x _)
      | finished x =>
        simp only [List.set_cons_succ, inputs]
        exact (List.Perm.cons x this).trans (List.Perm.swap m x _)

theorem inputs_set_finished (ws : List (Worker α)) (m : Option α) :
    ∀ j, ws[j]? = some (Worker.holding m) →
      inputs (ws.set j (Worker.finished m)) = inputs ws := by
  induction ws with
  | nil => intro j h; simp at h
  | cons w ws ih =>
    intro j h
    cases j with
    | zero =>
      simp only [List.getElem?_cons_zero, Option.some.injEq] at h
      subst h
      simp only [List.set_cons_zero, inputs]
    | succ j =>
      simp only [List.getElem?_cons_succ] at h
      have := ih j h
      cases w <;> simp only [List.set_cons_succ, inputs, this]

theorem outputs_set_holding (f : Nat → Option α → Option α) (ws : List (Worker α))
    (m : Option α) :
    ∀ n j, ws[j]? = some Worker.idle →
      outputs f n (ws.set j (Worker.holding m)) = outputs f n ws := by
  induction ws with
  | nil => intro n j h; simp at h
  | cons w ws ih =>
    intro n j h
    cases j with
    | zero =>
      simp only [List.getElem?_cons_zero, Option.some.injEq] at h
      subst h
      simp only [List.set_cons_zero, outputs]
    | succ j =>
      simp only [List.getElem?_cons_succ] at h
      have := ih (n + 1) j h
      cases w <;> simp only [List.set_cons_succ, outputs, this]

theorem outputs_set_finished (f : Nat → Option α → Option α) (ws : List (Worker α))
    (m : Option α) :
    ∀ n j, ws[j]? = some (Worker.holding m) →
      (outputs f n (ws.set j (Worker.finished m))).Perm (f (n + j) m :: outputs f n ws) := by
  induction ws with
  | nil => intro n j h; simp at h
  | cons w ws ih =>
    intro n j h
    cases j with
    | zero =>
      simp only [List.getElem?_cons_zero, Option.some.injEq] at h
      subst h
      simp only [List.set_cons_zero, outputs, Nat.add_zero]
      exact List.Perm.refl _
    | succ j =>
      simp only [List.getElem?_cons_succ] at h
      have := ih (n + 1) j h
      have e : n + 1 + j = n + (j + 1) := by omega
      rw [e] at this
      cases w with
      | idle => simpa only [List.set_cons_succ, outputs] using this
      | holding x => simpa only [List.set_cons_succ, outputs] using this
      | finished x =>
        simp only [List.set_cons_succ, outputs]
        exact (List.Perm.cons _ this).trans (List.Perm.swap _ _ _)

theorem perm_sent_write (vs rest d i : List (Option α)) (v : Option α)
    (h : vs.Perm ((v :: rest) ++ d ++ i)) : vs.Perm (rest ++ (d ++ [v]) ++ i) := by
  classical
  rw [List.perm_iff_count] at *
  intro a
  have := h a
  simp only [List.count_append, List.count_cons, List.count_nil] at this ⊢
  omega

theorem perm_sent_read (vs t d i i1 : List (Option α)) (m : Option α)
    (h : vs.Perm (t ++ (m :: d) ++ i)) (h1 : i1.Perm (m :: i)) :
    vs.Perm (t ++ d ++ i1) := by
  classical
  rw [List.perm_iff_count] at *
  intro a
  have := h a
  have := h1 a
  simp only [List.count_append, List.count_cons, List.count_nil] at *
  omega

theorem perm_got_read (o u c : List (Option α)) (m : Option α)
    (h : o.Perm ((m :: u) ++ c)) : o.Perm (u ++ (c ++ [m])) := by
  classical
  rw [List.perm_iff_count] at *
  intro a
  have := h a
  simp only [List.count_append, List.count_cons, List.count_nil] at this ⊢
  omega

theorem perm_got_write (o o1 u c : List (Option α)) (x : Option α)
    (h1 : o1.Perm (x :: o)) (h : o.Perm (u ++ c)) : o1.Perm ((u ++ [x]) ++ c) := by
  classical
  rw [List.perm_iff_count] at *
  intro a
  have := h a
  have := h1 a
  simp only [List.count_append, List.count_cons, List.count_nil] at *
  omega

theorem present_add_elim (s : thr_safe_set) (i t : thread_id)
    (h : (s.add i).present t = true) : t = i ∨ s.present t = true := by
  rw [channel.present_add] at h
  simpa using h

theorem present_remove_elim (s : thr_safe_set) (i t : thread_id)
    (h : (s.remove i).present t = true) : s.present t = true := by
  rw [channel.present_remove] at h
  simp only [Bool.and_eq_true] at h
  exact h.2

theorem present_remove_intro (s : thr_safe_set) (i t : thread_id) (hne : t ≠ i)
    (h : s.present t = true) : (s.remove i).present t = true := by
  rw [channel.present_remove, h]
  simp [hne]

theorem present_add_intro (s : thr_safe_set) (i t : thread_id)
    (h : t = i ∨ s.present t = true) : (s.add i).present t = true := by
  rw [channel.present_add]
  simpa using h

/-- Every move of the scenario preserves the invariant. -/
theorem step_inv (ids : Ids) (f : Nat → Option α → Option α) (vs : List (Option α))
    (s s1 : Sys α) (a : Actor) (hd : ids.distinct vs.length) (hi : SInv ids f vs s)
    (h : step ids f s a = Except.ok (some s1)) : SInv ids f vs s1 := by
  cases a with
  | creator =>
    rw [step_creator] at h
    by_cases h0 : s.creator_pc = 0
    · rw [if_pos h0] at h
      cases h
      exact ⟨hi.up_inv, hi.down_inv, hi.non_readers,
        fun t ht => (present_add_elim _ _ _ ht).elim id (hi.non_writers t),
        hi.read_owners,
        fun t ht => hi.write_owners t (present_remove_elim _ _ _ ht),
        fun hp => present_remove_intro _ _ _ (Ne.symm hd.1) (hi.producer_owner hp),
        hi.collector_owner, hi.n_workers, hi.n_collect, hi.sent, hi.got⟩
    · rw [if_neg h0] at h
      by_cases h1 : s.creator_pc = 1
      · rw [if_pos h1] at h
        cases h
        exact ⟨hi.up_inv, hi.down_inv,
          fun t ht => (present_add_elim _ _ _ ht).elim id (hi.non_readers t),
          hi.non_writers,
          fun t ht => hi.read_owners t (present_remove_elim _ _ _ ht),
          hi.write_owners, hi.producer_owner,
          fun hp => present_remove_intro _ _ _ (Ne.symm hd.2.1) (hi.collector_owner hp),
          hi.n_workers, hi.n_collect, hi.sent, hi.got⟩
      · rw [if_neg h1] at h
        cases h
  | producer =>
    rw [step_producer ids f vs s hd hi] at h
    by_cases hr : s.producer_ready = true
    · rw [if_pos hr] at h
      cases hs : s.to_send with
      | nil => rw [hs] at h; cases h
      | cons v rest =>
        rw [hs] at h
        simp only at h
        by_cases hc : s.ch.write_owner_to_worker_queue.count <
            s.ch.write_owner_to_worker_queue.size
        · rw [if_pos hc] at h
          cases h
          refine ⟨hi.up_inv, circular_queue.inv_store _ v hi.down_inv hc, hi.non_readers,
            hi.non_writers, hi.read_owners, hi.write_owners, hi.producer_owner,
            hi.collector_owner, hi.n_workers, hi.n_collect, ?_, hi.got⟩
          have := hi.sent
          rw [hs] at this
          show vs.Perm (rest ++ (s.ch.write_owner_to_worker_queue._write_store v).contents ++
            inputs s.workers)
          rw [circular_queue.contents_store _ v hi.down_inv hc]
          exact perm_sent_write _ _ _ _ _ this
        · rw [if_neg hc] at h
          cases h
    · rw [if_neg hr] at h
      cases h
      exact ⟨hi.up_inv, hi.down_inv, hi.non_readers, hi.non_writers, hi.read_owners,
        fun t ht => (present_add_elim _ _ _ ht).elim Or.inr (hi.write_owners t),
        fun _ => present_add_intro _ _ _ (Or.inl rfl),
        hi.collector_owner, hi.n_workers, hi.n_collect, hi.sent, hi.got⟩
  | collector =>
    rw [step_collector ids f vs s hd hi] at h
    by_cases hr : s.collector_ready = true
    · rw [if_pos hr] at h
      cases hs : s.to_collect with
      | zero => rw [hs] at h; cases h
      | succ n =>
        rw [hs] at h
        simp only at h
        by_cases hc : 0 < s.ch.worker_to_read_owner_queue.count
        · rw [if_pos hc] at h
          cases h
          refine ⟨circular_queue.inv_take _ hi.up_inv hc, hi.down_inv, hi.non_readers,
            hi.non_writers, hi.read_owners, hi.write_owners, hi.producer_owner,
            hi.collector_owner, hi.n_workers, ?_, hi.sent, ?_⟩
          · have := hi.n_collect
            rw [hs] at this
            show n + (s.collected ++ [_]).length = vs.length
            rw [List.length_append, List.length_singleton]
            omega
          · have := hi.got
            rw [circular_queue.contents_take _ hi.up_inv hc] at this
            exact perm_got_read _ _ _ _ this
        · rw [if_neg hc] at h
          cases h
    · rw [if_neg hr] at h
      cases h
      exact ⟨hi.up_inv, hi.down_inv, hi.non_readers, hi.non_writers,
        fun t ht => (present_add_elim _ _ _ ht).elim Or.inr (hi.read_owners t),
        hi.write_owners, hi.producer_owner,
        fun _ => present_add_intro _ _ _ (Or.inl rfl),
        hi.n_workers, hi.n_collect, hi.sent, hi.got⟩
  | worker j =>
    rw [step_worker ids f vs s hd hi j] at h
    cases hw : s.workers[j]? with
    | none => rw [hw] at h; cases h
    | some w =>
      rw [hw] at h
      cases w with
      | idle =>
        simp only at h
        by_cases hc : 0 < s.ch.write_owner_to_worker_queue.count
        · rw [if_pos hc] at h
          cases h
          refine ⟨hi.up_inv, circular_queue.inv_take _ hi.down_inv hc, hi.non_readers,
            hi.non_writers, hi.read_owners, hi.write_owners, hi.producer_owner,
            hi.collector_owner, ?_, hi.n_collect, ?_, ?_⟩
          · show (s.workers.set j _).length = vs.length
            rw [List.length_set]
            exact hi.n_workers
          · have := hi.sent
            rw [circular_queue.contents_take _ hi.down_inv hc] at this
            exact perm_sent_read _ _ _ _ _ _ this (inputs_set_holding _ _ j hw)
          · show (outputs f 0 (s.workers.set j _)).Perm _
            rw [outputs_set_holding f _ _ 0 j hw]
            exact hi.got
        · rw [if_neg hc] at h
          cases h
      | holding m =>
        simp only at h
        by_cases hc : s.ch.worker_to_read_owner_queue.count <
            s.ch.worker_to_read_owner_queue.size
        · rw [if_pos hc] at h
          cases h
          refine ⟨circular_queue.inv_store _ _ hi.up_inv hc, hi.down_inv, hi.non_readers,
            hi.non_writers, hi.read_owners, hi.write_owners, hi.producer_owner,
            hi.collector_owner, ?_, hi.n_collect, ?_, ?_⟩
          · show (s.workers.set j _).length = vs.length
            rw [List.length_set]
            exact hi.n_workers
          · show vs.Perm (_ ++ _ ++ inputs (s.workers.set j _))
            rw [inputs_set_finished _ _ j hw]
            exact hi.sent
          · show (outputs f 0 (s.workers.set j _)).Perm
              ((s.ch.worker_to_read_owner_queue._write_store (f j m)).contents ++ _)
            rw [circular_queue.contents_store _ _ hi.up_inv hc]
            have := outputs_set_finished f _ _ 0 j hw
            rw [Nat.zero_add] at this
            exact perm_got_write _ _ _ _ _ this hi.got
        · rw [if_neg hc] at h
          cases h
      | finished m =>
        simp only at h
        cases h

/-- No move of the scenario aborts. -/
theorem step_no_abort (ids : Ids) (f : Nat → Option α → Option α) (vs : List (Option α))
    (s : Sys α) (a : Actor) (hd : ids.distinct vs.length) (hi : SInv ids f vs s) :
    step ids f s a ≠ Except.error Fault.abort := by
  intro h
  cases a with
  | creator =>
    rw [step_creator] at h
    split at h
    · cases h
    · split at h <;> cases h
  | producer =>
    rw [step_producer ids f vs s hd hi] at h
    split at h
    · split at h
      · cases h
      · split at h <;> cases h
    · cases h
  | collector =>
    rw [step_collector ids f vs s hd hi] at h
    split at h
    · split at h
      · cases h
      · split at h <;> cases h
    · cases h
  | worker j =>
    rw [step_worker ids f vs s hd hi j] at h
    split at h
    · cases h
    · split at h <;> cases h
    · split at h <;> cases h
    · cases h

theorem inputs_replicate_idle (k : Nat) :
    inputs (List.replicate k (Worker.idle : Worker α)) = [] := by
  induction k with
  | zero => rfl
  | succ k ih => simpa only [List.replicate_succ, inputs] using ih

theorem outputs_replicate_idle (f : Nat → Option α → Option α) (k : Nat) :
    ∀ n, outputs f n (List.replicate k (Worker.idle : Worker α)) = [] := by
  induction k with
  | zero => intro n; rfl
  | succ k ih => intro n; simpa only [List.replicate_succ, outputs] using ih (n + 1)

theorem single_present (i t : thread_id) (h : (thr_safe_set.single i).present t = true) :
    t = i := by
  simpa [thr_safe_set.single, thr_safe_set.present] using h

theorem empty_present (t : thread_id) : thr_safe_set.empty.present t = false := by
  simp [thr_safe_set.empty, thr_safe_set.present]

/-- Construction succeeds and establishes the invariant. -/
theorem init_inv (ids : Ids) (f : Nat → Option α → Option α) (up down : Int)
    (vs : List (Option α)) (hu1 : 1 ≤ up) (hu2 : up ≤ INT_MAX) (hd1 : 0 ≤ down)
    (hd2 : down ≤ INT_MAX) :
    ∃ s0 : Sys α, init ids up down vs = Except.ok s0 ∧ SInv ids f vs s0 ∧
      s0.creator_pc = 0 ∧ s0.producer_ready = false ∧ s0.collector_ready = false ∧
      s0.to_send = vs ∧ s0.workers = List.replicate vs.length Worker.idle ∧
      s0.to_collect = vs.length ∧ s0.collected = [] ∧
      s0.ch.worker_to_read_owner_queue.count = 0 ∧
      s0.ch.write_owner_to_worker_queue.count = 0 := by
  have hdn : (1 : Int) ≤ (if down = 0 then up else down) ∧
      (if down = 0 then up else down) ≤ INT_MAX := by
    split
    · exact ⟨hu1, hu2⟩
    · exact ⟨by omega, hd2⟩
  have e1 := circular_queue.size_construct (α := α) up hu1 hu2
  have e2 := circular_queue.size_construct (α := α) _ hdn.1 hdn.2
  have hc : init ids up down vs = Except.ok
      (⟨⟨thr_safe_set.single ids.creator, thr_safe_set.single ids.creator,
          thr_safe_set.empty, thr_safe_set.empty,
          ⟨up.toNat, 0, 0, 0, List.replicate up.toNat none⟩,
          ⟨(if down = 0 then up else down).toNat, 0, 0, 0,
            List.replicate (if down = 0 then up else down).toNat none⟩⟩,
        0, false, vs, List.replicate vs.length Worker.idle, false, vs.length, []⟩ :
        Sys α) := by
    unfold init channel.construct
    rw [e1, e2]
  refine ⟨_, hc, ?_, rfl, rfl, rfl, rfl, rfl, rfl, rfl, rfl, rfl⟩
  refine ⟨circular_queue.inv_construct up _ e1, circular_queue.inv_construct _ _ e2,
    ?_, ?_, ?_, ?_, ?_, ?_, ?_, ?_, ?_, ?_⟩
  · intro t ht
    rw [show (thr_safe_set.empty.present t) = false from empty_present t] at ht
    cases ht
  · intro t ht
    rw [show (thr_safe_set.empty.present t) = false from empty_present t] at ht
    cases ht
  · intro t ht
    exact Or.inl (single_present _ _ ht)
  · intro t ht
    exact Or.inl (single_present _ _ ht)
  · intro h; cases h
  · intro h; cases h
  · exact List.length_replicate _ _
  · exact Nat.add_zero _
  · show vs.Perm (vs ++ circular_queue.contents _ ++ inputs (List.replicate vs.length _))
    rw [circular_queue.contents_construct _ _ e2, inputs_replicate_idle, List.append_nil,
      List.append_nil]
  · show (outputs f 0 (List.replicate vs.length _)).Perm (circular_queue.contents _ ++ [])
    rw [circular_queue.contents_construct _ _ e1, outputs_replicate_idle]
    exact List.Perm.refl _

theorem run_of_step (ids : Ids) (f : Nat → Option α → Option α) (s s1 : Sys α)
    (a : Actor) (rest : List Actor) (h : step ids f s a = Except.ok (some s1)) :
    run ids f s (a :: rest) = run ids f s1 rest := by
  simp only [run, h]

/-- Along every interleaving the invariant holds and nothing aborts. -/
theorem run_sinv (ids : Ids) (f : Nat → Option α → Option α) (vs : List (Option α))
    (hd : ids.distinct vs.length) (sched : List Actor) :
    ∀ s : Sys α, SInv ids f vs s →
      run ids f s sched ≠ Except.error Fault.abort ∧
      ∀ s1, run ids f s sched = Except.ok (some s1) → SInv ids f vs s1 := by
  induction sched with
  | nil =>
    intro s hi
    refine ⟨(by intro h; cases h), ?_⟩
    intro s1 h
    simp only [run, Except.ok.injEq, Option.some.injEq] at h
    subst h
    exact hi
  | cons a rest ih =>
    intro s hi
    cases hs : step ids f s a with
    | error e =>
      cases e with
      | abort => exact absurd hs (step_no_abort ids f vs s a hd hi)
      | length_error =>
        simp only [run, hs]
        exact ⟨(by intro h; cases h), (by intro s1 h; cases h)⟩
    | ok o =>
      cases o with
      | none =>
        simp only [run, hs]
        exact ⟨(by intro h; cases h), (by intro s1 h; cases h)⟩
      | some s2 =>
        rw [run_of_step ids f s s2 a rest hs]
        exact ih s2 (step_inv ids f vs s s2 a hd hi hs)

theorem finished_lists (f : Nat → Option α → Option α) (ws : List (Worker α))
    (h : ∀ w ∈ ws, ∃ m, w = Worker.finished m) :
    (inputs ws).length = ws.length ∧ ∀ n, outputs f n ws = results f n (inputs ws) := by
  induction ws with
  | nil => exact ⟨rfl, fun _ => rfl⟩
  | cons w ws ih =>
    obtain ⟨m, rfl⟩ := h w (List.mem_cons_self _ _)
    obtain ⟨h1, h2⟩ := ih fun w hw => h w (List.mem_cons_of_mem _ hw)
    refine ⟨by simp only [inputs, List.length_cons, h1], ?_⟩
    intro n
    simp only [outputs, inputs, results, h2]

theorem results_uniform (g : Option α → Option α) (ms : List (Option α)) :
    ∀ n, results (fun _ => g) n ms = ms.map g := by
  induction ms with
  | nil => intro n; rfl
  | cons m ms ih => intro n; simp only [results, List.map_cons, ih]

/-- When every thread has run its whole program, the collector holds exactly
the workers' results for a rearrangement of the values sent. -/
theorem completed_result (ids : Ids) (f : Nat → Option α → Option α)
    (vs : List (Option α)) (s : Sys α) (hi : SInv ids f vs s) (hc : completed s) :
    s.ch.write_owner_to_worker_queue.contents = [] ∧
    s.ch.worker_to_read_owner_queue.contents = [] ∧
    s.collected.length = vs.length ∧
    ∃ ms : List (Option α), vs.Perm ms ∧ s.collected.Perm (results f 0 ms) := by
  obtain ⟨_, _, hts, hw, _, htc⟩ := hc
  obtain ⟨hl, ho⟩ := finished_lists f s.workers hw
  have hsent := hi.sent
  have hgot := hi.got
  have hn := hi.n_collect
  rw [htc, Nat.zero_add] at hn
  rw [hts, List.nil_append] at hsent
  have hlen := hsent.length_eq
  rw [List.length_append, hl, hi.n_workers] at hlen
  have hdown : s.ch.write_owner_to_worker_queue.contents = [] :=
    List.eq_nil_of_length_eq_zero (by omega)
  rw [hdown, List.nil_append] at hsent
  rw [ho 0] at hgot
  have hlen2 := hgot.length_eq
  have hres : ∀ (ms : List (Option α)) (n : Nat), (results f n ms).length = ms.length := by
    intro ms
    induction ms with
    | nil => intro n; rfl
    | cons m ms ih => intro n; simp only [results, List.length_cons, ih]
  rw [hres, hl, hi.n_workers, List.length_append, hn] at hlen2
  have hup : s.ch.worker_to_read_owner_queue.contents = [] :=
    List.eq_nil_of_length_eq_zero (by omega)
  rw [hup, List.nil_append] at hgot
  exact ⟨hdown, hup, hn, inputs s.workers, hsent, hgot.symm⟩

/-- Which queue each data move uses. -/
theorem step_routing (ids : Ids) (f : Nat → Option α → Option α) (vs : List (Option α))
    (s s1 : Sys α) (a : Actor) (hd : ids.distinct vs.length) (hi : SInv ids f vs s)
    (h : step ids f s a = Except.ok (some s1)) :
    (a = Actor.producer → s.producer_ready = true →
      s1.ch.worker_to_read_owner_queue = s.ch.worker_to_read_owner_queue ∧
      ∃ v, s.to_send = v :: s1.to_send ∧
        s1.ch.write_owner_to_worker_queue.contents =
          s.ch.write_owner_to_worker_queue.contents ++ [v]) ∧
    (∀ j, a = Actor.worker j → s.workers[j]? = some Worker.idle →
      s1.ch.worker_to_read_owner_queue = s.ch.worker_to_read_owner_queue ∧
      ∃ m, s1.workers[j]? = some (Worker.holding m) ∧
        s.ch.write_owner_to_worker_queue.contents =
          m :: s1.ch.write_owner_to_worker_queue.contents) ∧
    (∀ j m, a = Actor.worker j → s.workers[j]? = some (Worker.holding m) →
      s1.ch.write_owner_to_worker_queue = s.ch.write_owner_to_worker_queue ∧
      s1.workers[j]? = some (Worker.finished m) ∧
      s1.ch.worker_to_read_owner_queue.contents =
        s.ch.worker_to_read_owner_queue.contents ++ [f j m]) ∧
    (a = Actor.collector → s.collector_ready = true →
      s1.ch.write_owner_to_worker_queue = s.ch.write_owner_to_worker_queue ∧
      ∃ m, s1.collected = s.collected ++ [m] ∧
        s.ch.worker_to_read_owner_queue.contents =
          m :: s1.ch.worker_to_read_owner_queue.contents) := by
  refine ⟨?_, ?_, ?_, ?_⟩
  · intro ha hr
    subst ha
    rw [step_producer ids f vs s hd hi, if_pos hr] at h
    cases hs : s.to_send with
    | nil => rw [hs] at h; cases h
    | cons v rest =>
      rw [hs] at h
      simp only at h
      by_cases hc : s.ch.write_owner_to_worker_queue.count <
          s.ch.write_owner_to_worker_queue.size
      · rw [if_pos hc] at h
        cases h
        exact ⟨rfl, v, rfl, circular_queue.contents_store _ v hi.down_inv hc⟩
      · rw [if_neg hc] at h
        cases h
  · intro j ha hw
    subst ha
    have hj : j < s.workers.length := by
      by_contra hge
      rw [List.getElem?_eq_none (by omega)] at hw
      cases hw
    rw [step_worker ids f vs s hd hi j, hw] at h
    simp only at h
    by_cases hc : 0 < s.ch.write_owner_to_worker_queue.count
    · rw [if_pos hc] at h
      cases h
      exact ⟨rfl, _, List.getElem?_set_self hj,
        circular_queue.contents_take _ hi.down_inv hc⟩
    · rw [if_neg hc] at h
      cases h
  · intro j m ha hw
    subst ha
    have hj : j < s.workers.length := by
      by_contra hge
      rw [List.getElem?_eq_none (by omega)] at hw
      cases hw
    rw [step_worker ids f vs s hd hi j, hw] at h
    simp only at h
    by_cases hc : s.ch.worker_to_read_owner_queue.count <
        s.ch.worker_to_read_owner_queue.size
    · rw [if_pos hc] at h
      cases h
      exact ⟨rfl, List.getElem?_set_self hj,
        circular_queue.contents_store _ _ hi.up_inv hc⟩
    · rw [if_neg hc] at h
      cases h
  · intro ha hr
    subst ha
    rw [step_collector ids f vs s hd hi, if_pos hr] at h
    cases hs : s.to_collect with
    | zero => rw [hs] at h; cases h
    | succ n =>
      rw [hs] at h
      simp only at h
      by_cases hc : 0 < s.ch.worker_to_read_owner_queue.count
      · rw [if_pos hc] at h
        cases h
        exact ⟨rfl, _, rfl, circular_queue.contents_take _ hi.up_inv hc⟩
      · rw [if_neg hc] at h
        cases h

theorem move_creator0 (ids : Ids) (f : Nat → Option α → Option α) (s : Sys α)
    (h : s.creator_pc = 0) :
    ∃ s1, step ids f s Actor.creator = Except.ok (some s1) ∧ s1.creator_pc = 1 ∧
      s1.producer_ready = s.producer_ready ∧ s1.collector_ready = s.collector_ready ∧
      s1.to_send = s.to_send ∧ s1.workers = s.workers ∧ s1.to_collect = s.to_collect ∧
      s1.ch.worker_to_read_owner_queue = s.ch.worker_to_read_owner_queue ∧
      s1.ch.write_owner_to_worker_queue = s.ch.write_owner_to_worker_queue := by
  rw [step_creator, if_pos h]
  exact ⟨_, rfl, rfl, rfl, rfl, rfl, rfl, rfl, rfl, rfl⟩

theorem move_creator1 (ids : Ids) (f : Nat → Option α → Option α) (s : Sys α)
    (h : s.creator_pc = 1) :
    ∃ s1, step ids f s Actor.creator = Except.ok (some s1) ∧ s1.creator_pc = 2 ∧
      s1.producer_ready = s.producer_ready ∧ s1.collector_ready = s.collector_ready ∧
      s1.to_send = s.to_send ∧ s1.workers = s.workers ∧ s1.to_collect = s.to_collect ∧
      s1.ch.worker_to_read_owner_queue = s.ch.worker_to_read_owner_queue ∧
      s1.ch.write_owner_to_worker_queue = s.ch.write_owner_to_worker_queue := by
  rw [step_creator, if_neg (by omega), if_pos h]
  exact ⟨_, rfl, rfl, rfl, rfl, rfl, rfl, rfl, rfl, rfl⟩

theorem move_producer_role (ids : Ids) (f : Nat → Option α → Option α)
    (vs : List (Option α)) (s : Sys α) (hd : ids.distinct vs.length)
    (hi : SInv ids f vs s) (h : s.producer_ready = false) :
    ∃ s1, step ids f s Actor.producer = Except.ok (some s1) ∧
      s1.creator_pc = s.creator_pc ∧
      s1.producer_ready = true ∧ s1.collector_ready = s.collector_ready ∧
      s1.to_send = s.to_send ∧ s1.workers = s.workers ∧ s1.to_collect = s.to_collect ∧
      s1.ch.worker_to_read_owner_queue = s.ch.worker_to_read_owner_queue ∧
      s1.ch.write_owner_to_worker_queue = s.ch.write_owner_to_worker_queue := by
  rw [step_producer ids f vs s hd hi, if_neg (by rw [h]; decide)]
  exact ⟨_, rfl, rfl, rfl, rfl, rfl, rfl, rfl, rfl, rfl⟩

theorem move_collector_role (ids : Ids) (f : Nat → Option α → Option α)
    (vs : List (Option α)) (s : Sys α) (hd : ids.distinct vs.length)
    (hi : SInv ids f vs s) (h : s.collector_ready = false) :
    ∃ s1, step ids f s Actor.collector = Except.ok (some s1) ∧
      s1.creator_pc = s.creator_pc ∧
      s1.producer_ready = s.producer_ready ∧ s1.collector_ready = true ∧
      s1.to_send = s.to_send ∧ s1.workers = s.workers ∧ s1.to_collect = s.to_collect ∧
      s1.ch.worker_to_read_owner_queue = s.ch.worker_to_read_owner_queue ∧
      s1.ch.write_owner_to_worker_queue = s.ch.write_owner_to_worker_queue := by
  rw [step_collector ids f vs s hd hi, if_neg (by rw [h]; decide)]
  exact ⟨_, rfl, rfl, rfl, rfl, rfl, rfl, rfl, rfl, rfl⟩

theorem move_producer (ids : Ids) (f : Nat → Option α → Option α)
    (vs : List (Option α)) (s : Sys α) (hd : ids.distinct vs.length)
    (hi : SInv ids f vs s) (v : Option α) (rest : List (Option α))
    (hr : s.producer_ready = true) (hts : s.to_send = v :: rest)
    (hc : s.ch.write_owner_to_worker_queue.count = 0) :
    ∃ s1, step ids f s Actor.producer = Except.ok (some s1) ∧
      s1.creator_pc = s.creator_pc ∧
      s1.producer_ready = true ∧ s1.collector_ready = s.collector_ready ∧
      s1.to_send = rest ∧ s1.workers = s.workers ∧ s1.to_collect = s.to_collect ∧
      s1.ch.worker_to_read_owner_queue = s.ch.worker_to_read_owner_queue ∧
      s1.ch.write_owner_to_worker_queue.count = 1 := by
  have hlt : s.ch.write_owner_to_worker_queue.count <
      s.ch.write_owner_to_worker_queue.size := by
    rw [hc]; exact hi.down_inv.size_pos
  obtain ⟨_, _, _, h4, _⟩ := circular_queue.store_fields _ v hi.down_inv.write_lt
    hi.down_inv.size_lt hlt
  rw [step_producer ids f vs s hd hi, if_pos hr, hts]
  simp only [if_pos hlt]
  exact ⟨_, rfl, rfl, hr, rfl, rfl, rfl, rfl, rfl, by rw [h4, hc]⟩

theorem move_worker_read (ids : Ids) (f : Nat → Option α → Option α)
    (vs : List (Option α)) (s : Sys α) (hd : ids.distinct vs.length)
    (hi : SInv ids f vs s) (j : Nat) (hw : s.workers[j]? = some Worker.idle)
    (hc : s.ch.write_owner_to_worker_queue.count = 1) :
    ∃ s1 m, step ids f s (Actor.worker j) = Except.ok (some s1) ∧
      s1.creator_pc = s.creator_pc ∧
      s1.producer_ready = s.producer_ready ∧ s1.collector_ready = s.collector_ready ∧
      s1.to_send = s.to_send ∧ s1.workers = s.workers.set j (Worker.holding m) ∧
      s1.to_collect = s.to_collect ∧
      s1.ch.worker_to_read_owner_queue = s.ch.worker_to_read_owner_queue ∧
      s1.ch.write_owner_to_worker_queue.count = 0 := by
  have hpos : 0 < s.ch.write_owner_to_worker_queue.count := by rw [hc]; decide
  obtain ⟨_, _, _, h4, _⟩ := circular_queue.take_fields _ hi.down_inv.read_lt
    hi.down_inv.size_lt hpos hi.down_inv.count_le
  rw [step_worker ids f vs s hd hi j, hw]
  simp only [if_pos hpos]
  exact ⟨_, _, rfl, rfl, rfl, rfl, rfl, rfl, rfl, rfl, by rw [h4, hc]⟩

theorem move_worker_write (ids : Ids) (f : Nat → Option α → Option α)
    (vs : List (Option α)) (s : Sys α) (hd : ids.distinct vs.length)
    (hi : SInv ids f vs s) (j : Nat) (m : Option α)
    (hw : s.workers[j]? = some (Worker.holding m))
    (hc : s.ch.worker_to_read_owner_queue.count = 0) :
    ∃ s1, step ids f s (Actor.worker j) = Except.ok (some s1) ∧
      s1.creator_pc = s.creator_pc ∧
      s1.producer_ready = s.producer_ready ∧ s1.collector_ready = s.collector_ready ∧
      s1.to_send = s.to_send ∧ s1.workers = s.workers.set j (Worker.finished m) ∧
      s1.to_collect = s.to_collect ∧
      s1.ch.worker_to_read_owner_queue.count = 1 ∧
      s1.ch.write_owner_to_worker_queue = s.ch.write_owner_to_worker_queue := by
  have hlt : s.ch.worker_to_read_owner_queue.count <
      s.ch.worker_to_read_owner_queue.size := by
    rw [hc]; exact hi.up_inv.size_pos
  obtain ⟨_, _, _, h4, _⟩ := circular_queue.store_fields _ (f j m) hi.up_inv.write_lt
    hi.up_inv.size_lt hlt
  rw [step_worker ids f vs s hd hi j, hw]
  simp only [if_pos hlt]
  exact ⟨_, rfl, rfl, rfl, rfl, rfl, rfl, rfl, by rw [h4, hc], rfl⟩

theorem move_collector (ids : Ids) (f : Nat → Option α → Option α)
    (vs : List (Option α)) (s : Sys α) (hd : ids.distinct vs.length)
    (hi : SInv ids f vs s) (n : Nat) (hr : s.collector_ready = true)
    (htc : s.to_collect = n + 1) (hc : s.ch.worker_to_read_owner_queue.count = 1) :
    ∃ s1, step ids f s Actor.collector = Except.ok (some s1) ∧
      s1.creator_pc = s.creator_pc ∧
      s1.producer_ready = s.producer_ready ∧ s1.collector_ready = true ∧
      s1.to_send = s.to_send ∧ s1.workers = s.workers ∧ s1.to_collect = n ∧
      s1.ch.worker_to_read_owner_queue.count = 0 ∧
      s1.ch.write_owner_to_worker_queue = s.ch.write_owner_to_worker_queue := by
  have hpos : 0 < s.ch.worker_to_read_owner_queue.count := by rw [hc]; decide
  obtain ⟨_, _, _, h4, _⟩ := circular_queue.take_fields _ hi.up_inv.read_lt
    hi.up_inv.size_lt hpos hi.up_inv.count_le
  rw [step_collector ids f vs s hd hi, if_pos hr, htc]
  simp only [if_pos hpos]
  exact ⟨_, rfl, rfl, rfl, hr, rfl, rfl, rfl, by rw [h4, hc], rfl⟩

/-- One round of the sequential interleaving runs to completion. -/
theorem round (ids : Ids) (f : Nat → Option α → Option α) (vs : List (Option α))
    (hd : ids.distinct vs.length) (i : Nat) (s : Sys α) (hi : SInv ids f vs s)
    (hr : Ready vs i s) (hlt : i < vs.length) :
    ∃ s4, SInv ids f vs s4 ∧ Ready vs (i + 1) s4 ∧
      ∀ rest, run ids f s
        (Actor.producer :: Actor.worker i :: Actor.worker i :: Actor.collector :: rest) =
        run ids f s4 rest := by
  have hts : s.to_send = vs[i] :: vs.drop (i + 1) := by
    rw [hr.to_send, List.drop_eq_getElem_cons hlt]
  obtain ⟨s1, e1, a1, b1, c1, d1, w1, t1, u1, q1⟩ :=
    move_producer ids f vs s hd hi _ _ hr.producer_ready hts hr.down_empty
  have hi1 := step_inv ids f vs s s1 _ hd hi e1
  have hw1 : s1.workers[i]? = some Worker.idle := by
    rw [w1]; exact hr.idle i (Nat.le_refl i) hlt
  obtain ⟨s2, m, e2, a2, b2, c2, d2, w2, t2, u2, q2⟩ :=
    move_worker_read ids f vs s1 hd hi1 i hw1 q1
  have hi2 := step_inv ids f vs s1 s2 _ hd hi1 e2
  have hil : i < s.workers.length := by rw [hi.n_workers]; exact hlt
  have hw2 : s2.workers[i]? = some (Worker.holding m) := by
    rw [w2, w1]; exact List.getElem?_set_self hil
  have hu2 : s2.ch.worker_to_read_owner_queue.count = 0 := by
    rw [u2, u1]; exact hr.up_empty
  obtain ⟨s3, e3, a3, b3, c3, d3, w3, t3, u3, q3⟩ :=
    move_worker_write ids f vs s2 hd hi2 i m hw2 hu2
  have hi3 := step_inv ids f vs s2 s3 _ hd hi2 e3
  have htc := hr.to_collect
  have htc3 : s3.to_collect = (vs.length - i - 1) + 1 := by
    rw [t3, t2, t1]; omega
  have hc3 : s3.collector_ready = true := by
    rw [c3, c2, c1]; exact hr.collector_ready
  obtain ⟨s4, e4, a4, b4, c4, d4, w4, t4, u4, q4⟩ :=
    move_collector ids f vs s3 hd hi3 _ hc3 htc3 u3
  have hi4 := step_inv ids f vs s3 s4 _ hd hi3 e4
  have hws : s4.workers = (s.workers.set i (Worker.holding m)).set i (Worker.finished m) := by
    rw [w4, w3, w2, w1]
  refine ⟨s4, hi4, ⟨?_, ?_, c4, ?_, u4, ?_, ?_, ?_, ?_⟩, ?_⟩
  · rw [a4, a3, a2, a1]; exact hr.creator_done
  · rw [b4, b3, b2, b1]
  · rw [q4, q3, q2]
  · rw [d4, d3, d2, d1]
  · rw [t4]; omega
  · intro j hj
    by_cases hji : j = i
    · subst hji
      refine ⟨m, ?_⟩
      rw [hws]
      exact List.getElem?_set_self (by rw [List.length_set]; exact hil)
    · obtain ⟨x, hx⟩ := hr.done j (by omega)
      refine ⟨x, ?_⟩
      rw [hws, List.getElem?_set_ne (Ne.symm hji), List.getElem?_set_ne (Ne.symm hji)]
      exact hx
  · intro j hj hjl
    have hji : i ≠ j := by omega
    rw [hws, List.getElem?_set_ne hji, List.getElem?_set_ne hji]
    exact hr.idle j (by omega) hjl
  · intro rest
    rw [run_of_step ids f s s1 _ _ e1, run_of_step ids f s1 s2 _ _ e2,
      run_of_step ids f s2 s3 _ _ e3, run_of_step ids f s3 s4 _ _ e4]

/-- The remaining rounds of the sequential interleaving run to completion. -/
theorem rounds (ids : Ids) (f : Nat → Option α → Option α) (vs : List (Option α))
    (hd : ids.distinct vs.length) (k : Nat) :
    ∀ (i : Nat) (s : Sys α), SInv ids f vs s → Ready vs i s → i + k = vs.length →
      ∃ s1, run ids f s (sequential i k) = Except.ok (some s1) ∧ SInv ids f vs s1 ∧
        Ready vs vs.length s1 := by
  induction k with
  | zero =>
    intro i s hi hr hk
    have : i = vs.length := by omega
    subst this
    exact ⟨s, rfl, hi, hr⟩
  | succ k ih =>
    intro i s hi hr hk
    obtain ⟨s4, hi4, hr4, hrun⟩ := round ids f vs hd i s hi hr (by omega)
    obtain ⟨s5, h5, hi5, hr5⟩ := ih (i + 1) s4 hi4 hr4 (by omega)
    refine ⟨s5, ?_, hi5, hr5⟩
    show run ids f s (Actor.producer :: Actor.worker i :: Actor.worker i ::
      Actor.collector :: sequential (i + 1) k) = _
    rw [hrun, h5]

/-- The four role calls run to completion from the initial state. -/
theorem prelude (ids : Ids) (f : Nat → Option α → Option α) (vs : List (Option α))
    (hd : ids.distinct vs.length) (s : Sys α) (hi : SInv ids f vs s)
    (h0 : s.creator_pc = 0) (hp : s.producer_ready = false)
    (hc : s.collector_ready = false) (hts : s.to_send = vs)
    (hw : s.workers = List.replicate vs.length Worker.idle)
    (htc : s.to_collect = vs.length)
    (hu : s.ch.worker_to_read_owner_queue.count = 0)
    (hdn : s.ch.write_owner_to_worker_queue.count = 0) :
    ∃ s4, SInv ids f vs s4 ∧ Ready vs 0 s4 ∧
      ∀ rest, run ids f s
        (Actor.creator :: Actor.creator :: Actor.producer :: Actor.collector :: rest) =
        run ids f s4 rest := by
  obtain ⟨s1, e1, a1, b1, c1, d1, w1, t1, u1, q1⟩ := move_creator0 ids f s h0
  have hi1 := step_inv ids f vs s s1 _ hd hi e1
  obtain ⟨s2, e2, a2, b2, c2, d2, w2, t2, u2, q2⟩ := move_creator1 ids f s1 a1
  have hi2 := step_inv ids f vs s1 s2 _ hd hi1 e2
  obtain ⟨s3, e3, a3, b3, c3, d3, w3, t3, u3, q3⟩ :=
    move_producer_role ids f vs s2 hd hi2 (by rw [b2, b1, hp])
  have hi3 := step_inv ids f vs s2 s3 _ hd hi2 e3
  obtain ⟨s4, e4, a4, b4, c4, d4, w4, t4, u4, q4⟩ :=
    move_collector_role ids f vs s3 hd hi3 (by rw [c3, c2, c1, hc])
  have hi4 := step_inv ids f vs s3 s4 _ hd hi3 e4
  refine ⟨s4, hi4, ⟨?_, ?_, c4, ?_, ?_, ?_, ?_, ?_, ?_⟩, ?_⟩
  · rw [a4, a3, a2]
  · rw [b4, b3]
  · rw [q4, q3, q2, q1, hdn]
  · rw [u4, u3, u2, u1, hu]
  · rw [d4, d3, d2, d1, hts]; rfl
  · rw [t4, t3, t2, t1, htc]; rfl
  · intro j hj; omega
  · intro j _ hjl
    rw [w4, w3, w2, w1, hw, List.getElem?_replicate, if_pos hjl]
  · intro rest
    rw [run_of_step ids f s s1 _ _ e1, run_of_step ids f s1 s2 _ _ e2,
      run_of_step ids f s2 s3 _ _ e3, run_of_step ids f s3 s4 _ _ e4]

theorem ready_completed (ids : Ids) (f : Nat → Option α → Option α)
    (vs : List (Option α)) (s : Sys α) (hi : SInv ids f vs s)
    (hr : Ready vs vs.length s) : completed s := by
  refine ⟨hr.creator_done, hr.producer_ready, ?_, ?_, hr.collector_ready, ?_⟩
  · rw [hr.to_send, List.drop_length]
  · intro w hw
    obtain ⟨j, hj, rfl⟩ := List.getElem_of_mem hw
    obtain ⟨m, hm⟩ := hr.done j (by rw [← hi.n_workers]; exact hj)
    rw [List.getElem?_eq_getElem hj, Option.some.injEq] at hm
    exact ⟨m, hm⟩
  · have := hr.to_collect
    omega

/-! ## The claim on the scenario -/

/-- C19: scenario C (producer / workers / collector).  Thread `creator`
constructs `channel(up, down)` and runs `become_a_non_writer();
become_a_non_reader()`; thread `producer` runs `become_a_write_owner()` and then
writes the values `vs` in order; thread `collector` runs `become_a_read_owner()`
and then reads once per value; each of the `vs.length` role-less workers reads
one handle, applies its transformation `f j` and writes the result.  Then

* the sequential interleaving (role calls first, then one round per worker)
  runs every program to completion;
* in every interleaving (role calls first or not) no call aborts, in particular
  none of the role calls;
* in every state reached, a producer write and a worker read act on queueDown
  and leave queueUp untouched, a worker write and a collector read act on
  queueUp and leave queueDown untouched, each at the FIFO end it should;
* when every thread has run its whole program the collector has read exactly
  `vs.length` handles, and they are, up to order, the workers' results for a
  rearrangement `ms` of `vs` (worker `j` having received the `j`-th handle of
  `ms`); if all workers apply the same transformation `g`, they are `vs.map g`
  up to order. -/
theorem C19_scenario_C (ids : Ids) (f : Nat → Option α → Option α) (up down : Int)
    (vs : List (Option α)) (hu1 : 1 ≤ up) (hu2 : up ≤ INT_MAX) (hd1 : 0 ≤ down)
    (hd2 : down ≤ INT_MAX) (hd : ids.distinct vs.length) :
    ∃ s0 : Sys α, init ids up down vs = Except.ok s0 ∧
      (∃ s, run ids f s0 (Actor.creator :: Actor.creator :: Actor.producer ::
          Actor.collector :: sequential 0 vs.length) = Except.ok (some s) ∧
        completed s) ∧
      ∀ sched : List Actor,
        run ids f s0 sched ≠ Except.error Fault.abort ∧
        ∀ s, run ids f s0 sched = Except.ok (some s) →
          (∀ a, step ids f s a ≠ Except.error Fault.abort) ∧
          (∀ a s1, step ids f s a = Except.ok (some s1) →
            (a = Actor.producer → s.producer_ready = true →
              s1.ch.worker_to_read_owner_queue = s.ch.worker_to_read_owner_queue ∧
              ∃ v, s.to_send = v :: s1.to_send ∧
                s1.ch.write_owner_to_worker_queue.contents =
                  s.ch.write_owner_to_worker_queue.contents ++ [v]) ∧
            (∀ j, a = Actor.worker j → s.workers[j]? = some Worker.idle →
              s1.ch.worker_to_read_owner_queue = s.ch.worker_to_read_owner_queue ∧
              ∃ m, s1.workers[j]? = some (Worker.holding m) ∧
                s.ch.write_owner_to_worker_queue.contents =
                  m :: s1.ch.write_owner_to_worker_queue.contents) ∧
            (∀ j m, a = Actor.worker j → s.workers[j]? = some (Worker.holding m) →
              s1.ch.write_owner_to_worker_queue = s.ch.write_owner_to_worker_queue ∧
              s1.workers[j]? = some (Worker.finished m) ∧
              s1.ch.worker_to_read_owner_queue.contents =
                s.ch.worker_to_read_owner_queue.contents ++ [f j m]) ∧
            (a = Actor.collector → s.collector_ready = true →
              s1.ch.write_owner_to_worker_queue = s.ch.write_owner_to_worker_queue ∧
              ∃ m, s1.collected = s.collected ++ [m] ∧
                s.ch.worker_to_read_owner_queue.contents =
                  m :: s1.ch.worker_to_read_owner_queue.contents)) ∧
          (completed s →
            s.collected.length = vs.length ∧
            (∃ ms : List (Option α), vs.Perm ms ∧ s.collected.Perm (results f 0 ms)) ∧
            ∀ g : Option α → Option α, (∀ j, f j = g) →
              s.collected.Perm (vs.map g)) := by
  obtain ⟨s0, h0, hi0, a0, b0, c0, d0, w0, t0, _, u0, q0⟩ :=
    init_inv ids f up down vs hu1 hu2 hd1 hd2
  refine ⟨s0, h0, ?_, ?_⟩
  · obtain ⟨s4, hi4, hr4, hrun4⟩ := prelude ids f vs hd s0 hi0 a0 b0 c0 d0 w0 t0 u0 q0
    obtain ⟨s5, h5, hi5, hr5⟩ := rounds ids f vs hd vs.length 0 s4 hi4 hr4 (Nat.zero_add _)
    exact ⟨s5, by rw [hrun4, h5], ready_completed ids f vs s5 hi5 hr5⟩
  · intro sched
    obtain ⟨hna, hinv⟩ := run_sinv ids f vs hd sched s0 hi0
    refine ⟨hna, ?_⟩
    intro s hs
    have hi := hinv s hs
    refine ⟨fun a => step_no_abort ids f vs s a hd hi,
      fun a s1 h1 => step_routing ids f vs s s1 a hd hi h1, ?_⟩
    intro hc
    obtain ⟨_, _, hlen, ms, hp1, hp2⟩ := completed_result ids f vs s hi hc
    refine ⟨hlen, ⟨ms, hp1, hp2⟩, ?_⟩
    intro g hg
    have hf : f = fun _ => g := funext hg
    rw [hf, results_uniform] at hp2
    exact hp2.trans (hp1.symm.map g)

/-- Witness for C19: creator 0, producer 1, collector 2, workers 10 and 11,
`channel(2, 2)`, the values 1 and 2, worker `j` adding `100 * (j + 1)`.  In the
interleaving listed the workers start before the role calls are made and
worker 1 gets the first value. -/
theorem C19_scenario_C_witness :
    Ids.distinct ⟨0, 1, 2, fun j => 10 + j⟩ ([some 1, some 2] : List (Option Nat)).length ∧
    (∃ s0 : Sys Nat,
      init ⟨0, 1, 2, fun j => 10 + j⟩ 2 2 [some 1, some 2] = Except.ok s0 ∧
      (∃ s, run ⟨0, 1, 2, fun j => 10 + j⟩ (fun j m => m.map (· + 100 * (j + 1))) s0
          (Actor.creator :: Actor.creator :: Actor.producer :: Actor.collector ::
            sequential 0 2) = Except.ok (some s) ∧ completed s) ∧
      ∀ sched : List Actor,
        run ⟨0, 1, 2, fun j => 10 + j⟩ (fun j m => m.map (· + 100 * (j + 1))) s0 sched
          ≠ Except.error Fault.abort ∧
        ∀ s, run ⟨0, 1, 2, fun j => 10 + j⟩ (fun j m => m.map (· + 100 * (j + 1))) s0
            sched = Except.ok (some s) → completed s →
          s.collected.length = 2 ∧
          ∃ ms : List (Option Nat), [some 1, some 2].Perm ms ∧
            s.collected.Perm (results (fun j m => m.map (· + 100 * (j + 1))) 0 ms)) := by
  have hd : Ids.distinct ⟨0, 1, 2, fun j => 10 + j⟩
      ([some 1, some 2] : List (Option Nat)).length := by
    refine ⟨by decide, by decide, ?_⟩
    intro j _
    show 10 + j ≠ 0 ∧ 10 + j ≠ 1 ∧ 10 + j ≠ 2
    omega
  obtain ⟨s0, h0, hex, hall⟩ := C19_scenario_C (α := Nat) ⟨0, 1, 2, fun j => 10 + j⟩
    (fun j m => m.map (· + 100 * (j + 1))) 2 2 [some 1, some 2] (by decide) (by decide)
    (by decide) (by decide) hd
  refine ⟨hd, s0, h0, hex, ?_⟩
  intro sched
  refine ⟨(hall sched).1, ?_⟩
  intro s hs hc
  obtain ⟨hl, hm, _⟩ := ((hall sched).2 s hs).2.2 hc
  exact ⟨hl, hm⟩

end scenario

namespace circular_queue

variable {α : Type}

/-! ## Lemmas on conversion and storage -/

/-- The constructor on any `int` argument: the zero check rejects 0 only; a
positive argument constructs; a negative one is converted to a size of
`2^64 + c`, passes the zero check and fails in the allocation. -/
theorem construct_int (c : Int) (h1 : INT_MIN ≤ c) (h2 : c ≤ INT_MAX) :
    (c = 0 → construct (α := α) c = Except.error Fault.abort) ∧
    (0 < c → construct (α := α) c =
      Except.ok ⟨c.toNat, 0, 0, 0, List.replicate c.toNat none⟩) ∧
    (c < 0 → construct_size c = (18446744073709551616 + c).toNat ∧
      construct (α := α) c = Except.error Fault.length_error) := by
  simp only [INT_MIN, INT_MAX] at h1 h2
  refine ⟨?_, ?_, ?_⟩
  · intro h
    subst h
    rfl
  · intro h
    have e : construct_size c = c.toNat := by
      simp only [construct_size, SIZE_T_MOD, Nat.cast_ofNat]
      omega
    have hne : c.toNat ≠ 0 := by omega
    have hm : ¬ VECTOR_MAX_SIZE < c.toNat := by
      unfold VECTOR_MAX_SIZE
      omega
    simp only [construct, e, if_neg hne, if_neg hm]
  · intro h
    have e : construct_size c = (18446744073709551616 + c).toNat := by
      simp only [construct_size, SIZE_T_MOD, Nat.cast_ofNat]
      omega
    have hne : (18446744073709551616 + c).toNat ≠ 0 := by omega
    have hm : VECTOR_MAX_SIZE < (18446744073709551616 + c).toNat := by
      unfold VECTOR_MAX_SIZE
      omega
    exact ⟨e, by simp only [construct, e, if_neg hne, if_pos hm]⟩

theorem getD_replicate_none (n i : Nat) :
    (List.replicate n (none : Option α)).getD i none = none := by
  rw [List.getD_eq_getElem?_getD]
  by_cases h : i < n
  · rw [List.getElem?_replicate, if_pos h]
    rfl
  · rw [List.getElem?_replicate, if_neg h]
    rfl

/-- The slot the next write stores into is outside the occupied window. -/
theorem write_slot_free (q : circular_queue α) (hq : Inv q) (hc : q.count < q.size) :
    ¬ occupied q q.write_index := by
  rintro ⟨k, hk, e⟩
  have hr := hq.read_lt
  rw [hq.write_eq, mod_wrap _ _ _ hr (by omega), mod_wrap _ _ _ hr (by omega)] at e
  split at e <;> split at e <;> omega

/-- After a read the slot read from is outside the occupied window. -/
theorem read_slot_free (q : circular_queue α) (hq : Inv q) (hc : 0 < q.count) :
    ¬ occupied (q._read_take).1 q.read_index := by
  obtain ⟨h1, h2, _, h4, _, _⟩ := take_fields q hq.read_lt hq.size_lt hc hq.count_le
  rintro ⟨k, hk, e⟩
  have hr := hq.read_lt
  have hcl := hq.count_le
  have hlt : (q.read_index + 1) % q.size < q.size := Nat.mod_lt _ hq.size_pos
  rw [h4] at hk
  rw [h2, h1, mod_wrap _ _ _ hlt (by omega), mod_wrap _ _ _ hr (by omega)] at e
  split at e <;> split at e <;> omega

/-- A slot occupied after a read was occupied before it. -/
theorem occupied_take (q : circular_queue α) (hq : Inv q) (hc : 0 < q.count) (i : Nat)
    (hi : i ≠ q.read_index) (ho : occupied q i) : occupied (q._read_take).1 i := by
  obtain ⟨h1, h2, _, h4, _, _⟩ := take_fields q hq.read_lt hq.size_lt hc hq.count_le
  obtain ⟨k, hk, e⟩ := ho
  have hr := hq.read_lt
  cases k with
  | zero =>
    rw [Nat.add_zero, Nat.mod_eq_of_lt hr] at e
    exact absurd e hi
  | succ k =>
    refine ⟨k, by rw [h4]; omega, ?_⟩
    have e2 : q.read_index + (k + 1) = q.read_index + 1 + k := by omega
    rw [h2, h1, Nat.mod_add_mod, e, e2]

theorem clean_store (q : circular_queue α) (message : Option α) (hq : Inv q)
    (hcl : Clean q) (hc : q.count < q.size) : Clean (q._write_store message) := by
  obtain ⟨h1, h2, _, h4, h5⟩ := store_fields q message hq.write_lt hq.size_lt hc
  intro i hi hno
  rw [h1] at hi
  have hne : q.write_index ≠ i := by
    intro e
    apply hno
    exact ⟨q.count, by rw [h4]; omega, by rw [h2, h1, ← e]; exact hq.write_eq⟩
  rw [h5, getD_set_ne _ _ _ _ hne]
  apply hcl i hi
  rintro ⟨k, hk, e⟩
  exact hno ⟨k, by rw [h4]; omega, by rw [h2, h1]; exact e⟩

theorem clean_take (q : circular_queue α) (hq : Inv q) (hcl : Clean q)
    (hc : 0 < q.count) : Clean (q._read_take).1 := by
  obtain ⟨h1, _, _, _, h5, _⟩ := take_fields q hq.read_lt hq.size_lt hc hq.count_le
  intro i hi hno
  rw [h1] at hi
  by_cases e : i = q.read_index
  · rw [h5, e, getD_set_eq _ _ _ (by rw [hq.data_len]; exact hq.read_lt)]
  · rw [h5, getD_set_ne _ _ _ _ (Ne.symm e)]
    apply hcl i hi
    intro ho
    exact hno (occupied_take q hq hc i e ho)

theorem clean_construct (c : Int) (q : circular_queue α)
    (h : construct c = Except.ok q) : Clean q := by
  obtain ⟨_, _, _, _, _, hd⟩ := construct_ok c q h
  intro i _ _
  rw [hd]
  exact getD_replicate_none _ _

theorem run_clean (ops : List (Op α)) : ∀ (q q2 : circular_queue α) (tr : List (Step α)),
    Inv q → Clean q → run q ops = some (q2, tr) → Clean q2 := by
  induction ops with
  | nil =>
    intro q q2 tr _ hcl h
    simp only [run, Option.some.injEq, Prod.mk.injEq] at h
    obtain ⟨rfl, _⟩ := h
    exact hcl
  | cons op ops ih =>
    intro q q2 tr hq hcl h
    obtain ⟨q1, r, tr1, hc, hr, _⟩ := run_cons q op ops q2 tr h
    have hi1 := (call_step q q1 op r hq hc).1
    refine ih q1 q2 tr1 hi1 ?_ hr
    rcases call_cases q q1 op r hc with ⟨hlt, m, rfl, _, _⟩ | ⟨hpos, rfl, _, _⟩ | ⟨rfl, _, _⟩
    · exact clean_store q m hq hcl hlt
    · exact clean_take q hq hcl hpos
    · exact hcl

/-- Every reachable state satisfies the ring invariant and has clean storage. -/
theorem reachable_inv (c : Int) (q : circular_queue α) (h : Reachable c q) :
    Inv q ∧ Clean q := by
  obtain ⟨q0, ops, tr, h0, hr⟩ := h
  have hi0 := inv_construct c q0 h0
  exact ⟨(run_inv ops q0 q tr hi0 hr).1, run_clean ops q0 q tr hi0 (clean_construct c q0 h0) hr⟩

theorem perm_set_eraseIdx (b : Option α) : ∀ (l : List (Option α)) (i : Nat),
    i < l.length → (l.set i b).Perm (b :: l.eraseIdx i) := by
  intro l
  induction l with
  | nil => intro i hi; simp at hi
  | cons a t ih =>
    intro i hi
    cases i with
    | zero => exact List.Perm.refl _
    | succ i =>
      have h := ih i (by simpa using hi)
      show (a :: t.set i b).Perm (b :: a :: t.eraseIdx i)
      exact (List.Perm.cons a h).trans (List.Perm.swap b a _)

theorem perm_getD_eraseIdx : ∀ (l : List (Option α)) (i : Nat),
    i < l.length → l.Perm (l.getD i none :: l.eraseIdx i) := by
  intro l
  induction l with
  | nil => intro i hi; simp at hi
  | cons a t ih =>
    intro i hi
    cases i with
    | zero => exact List.Perm.refl _
    | succ i =>
      have h := ih i (by simpa using hi)
      show (a :: t).Perm (t.getD i none :: a :: t.eraseIdx i)
      exact (List.Perm.cons a h).trans (List.Perm.swap _ a _)

/-- Overwriting slot `i` replaces one occurrence of its old handle. -/
theorem perm_set (l rest : List (Option α)) (i : Nat) (b : Option α) (hi : i < l.length)
    (h : l.Perm (l.getD i none :: rest)) : (l.set i b).Perm (b :: rest) := by
  have h1 := perm_getD_eraseIdx l i hi
  have h2 : (l.eraseIdx i).Perm rest := (h1.symm.trans h).cons_inv
  exact (perm_set_eraseIdx b l i hi).trans (List.Perm.cons b h2)

theorem perm_store (q : circular_queue α) (message : Option α) (hq : Inv q)
    (hcl : Clean q) (hc : q.count < q.size)
    (hp : q.data.Perm (contents q ++ List.replicate (q.size - q.count) none)) :
    (q._write_store message).data.Perm
      (contents (q._write_store message) ++
        List.replicate ((q._write_store message).size - (q._write_store message).count)
          none) := by
  obtain ⟨h1, _, _, h4, h5⟩ := store_fields q message hq.write_lt hq.size_lt hc
  have hw : q.data.getD q.write_index none = none :=
    hcl _ hq.write_lt (write_slot_free q hq hc)
  have en : q.size - q.count = (q.size - (q.count + 1)) + 1 := by omega
  rw [en, List.replicate_succ] at hp
  have hp2 : q.data.Perm (q.data.getD q.write_index none ::
      (contents q ++ List.replicate (q.size - (q.count + 1)) none)) := by
    rw [hw]
    exact hp.trans List.perm_middle
  have hs := perm_set q.data _ q.write_index message
    (by rw [hq.data_len]; exact hq.write_lt) hp2
  rw [h5, h1, h4, contents_store q message hq hc, List.append_assoc, List.singleton_append]
  exact hs.trans List.perm_middle.symm

theorem perm_take (q : circular_queue α) (hq : Inv q) (hc : 0 < q.count)
    (hp : q.data.Perm (contents q ++ List.replicate (q.size - q.count) none)) :
    (q._read_take).1.data.Perm
      (contents (q._read_take).1 ++
        List.replicate ((q._read_take).1.size - (q._read_take).1.count) none) := by
  obtain ⟨h1, _, _, h4, h5, h6⟩ := take_fields q hq.read_lt hq.size_lt hc hq.count_le
  have hcl := hq.count_le
  rw [contents_take q hq hc, h6, List.cons_append] at hp
  have hs := perm_set q.data _ q.read_index none
    (by rw [hq.data_len]; exact hq.read_lt) hp
  have en : q.size - (q.count - 1) = (q.size - q.count) + 1 := by omega
  rw [h5, h1, h4, en, List.replicate_succ]
  exact hs.trans List.perm_middle.symm

theorem perm_construct (c : Int) (q : circular_queue α)
    (h : construct c = Except.ok q) :
    q.data.Perm (contents q ++ List.replicate (q.size - q.count) none) := by
  have hc := contents_construct c q h
  obtain ⟨_, _, _, _, h0, hd⟩ := construct_ok c q h
  rw [hc, h0, hd, List.nil_append, Nat.sub_zero]

theorem run_perm (ops : List (Op α)) : ∀ (q q2 : circular_queue α) (tr : List (Step α)),
    Inv q → Clean q →
    q.data.Perm (contents q ++ List.replicate (q.size - q.count) none) →
    run q ops = some (q2, tr) →
    q2.data.Perm (contents q2 ++ List.replicate (q2.size - q2.count) none) := by
  induction ops with
  | nil =>
    intro q q2 tr _ _ hp h
    simp only [run, Option.some.injEq, Prod.mk.injEq] at h
    obtain ⟨rfl, _⟩ := h
    exact hp
  | cons op ops ih =>
    intro q q2 tr hq hcl hp h
    obtain ⟨q1, r, tr1, hc, hr, _⟩ := run_cons q op ops q2 tr h
    have hi1 := (call_step q q1 op r hq hc).1
    rcases call_cases q q1 op r hc with ⟨hlt, m, rfl, _, _⟩ | ⟨hpos, rfl, _, _⟩ | ⟨rfl, _, _⟩
    · exact ih _ q2 tr1 hi1 (clean_store q m hq hcl hlt) (perm_store q m hq hcl hlt hp) hr
    · exact ih _ q2 tr1 hi1 (clean_take q hq hcl hpos) (perm_take q hq hpos hp) hr
    · exact ih _ q2 tr1 hi1 hcl hp hr

/-- In every reachable state the storage holds the queued handles and empty
handles, nothing else. -/
theorem reachable_perm (c : Int) (q : circular_queue α) (h : Reachable c q) :
    q.data.Perm (contents q ++ List.replicate (q.size - q.count) none) := by
  obtain ⟨q0, ops, tr, h0, hr⟩ := h
  exact run_perm ops q0 q tr (inv_construct c q0 h0) (clean_construct c q0 h0)
    (perm_construct c q0 h0) hr

/-- One more completed call keeps a state reachable. -/
theorem reachable_call (c : Int) (q q1 : circular_queue α) (op : Op α) (r : Ret α)
    (hq : Reachable c q) (h : q.call op = some (q1, r)) : Reachable c q1 := by
  obtain ⟨q0, ops, tr, h0, hr⟩ := hq
  have h1 : run q [op] = some (q1, [⟨q, op, r⟩]) := by
    rw [run_step q op [] q1 r h]
    rfl
  exact ⟨q0, ops ++ [op], tr ++ [⟨q, op, r⟩], h0, run_append ops [op] q0 q q1 tr _ hr h1⟩

/-- On an empty queue a stored handle is the next handle taken. -/
theorem store_take_empty (q : circular_queue α) (m : Option α) (hq : Inv q)
    (h0 : q.count = 0) :
    q.count < q.size ∧ 0 < (q._write_store m).count ∧
    ((q._write_store m)._read_take).2 = m ∧
    contents (q._write_store m) = [m] ∧
    Inv ((q._write_store m)._read_take).1 ∧
    ((q._write_store m)._read_take).1.count = 0 := by
  have hc : q.count < q.size := by rw [h0]; exact hq.size_pos
  obtain ⟨_, _, _, h4, _⟩ := store_fields q m hq.write_lt hq.size_lt hc
  have hi1 := inv_store q m hq hc
  have hpos : 0 < (q._write_store m).count := by rw [h4]; omega
  have hnil : contents q = [] := by
    apply List.eq_nil_of_length_eq_zero
    rw [contents_length, h0]
  have hcs : contents (q._write_store m) = [m] := by
    rw [contents_store q m hq hc, hnil, List.nil_append]
  have e := contents_take (q._write_store m) hi1 hpos
  rw [hcs, List.cons.injEq] at e
  obtain ⟨_, _, _, t4, _, _⟩ :=
    take_fields (q._write_store m) hi1.read_lt hi1.size_lt hpos hi1.count_le
  exact ⟨hc, hpos, e.1.symm, hcs, inv_take _ hi1 hpos, by rw [t4, h4, h0]⟩

end circular_queue

namespace channel

variable {α : Type}

/-! ## Lemmas on queue selection and reachable channel states -/

theorem queue_with_queue (c : channel α) (s : Side) (q : circular_queue α) :
    (c.with_queue s q).queue s = q := by
  cases s <;> rfl

theorem queue_with_queue_ne (c : channel α) (s s1 : Side) (q : circular_queue α)
    (h : s1 ≠ s) : (c.with_queue s q).queue s1 = c.queue s1 := by
  cases s <;> cases s1 <;> first | rfl | exact absurd rfl h

theorem with_queue_roles (c : channel α) (s : Side) (q : circular_queue α) :
    same_roles c (c.with_queue s q) := by
  cases s <;> exact ⟨rfl, rfl, rfl, rfl⟩

theorem read_side_of (c c1 : channel α) (t : thread_id)
    (h : c1.read_owners = c.read_owners) : c1.read_side t = c.read_side t := by
  simp only [read_side, h]

theorem write_side_of (c c1 : channel α) (t : thread_id)
    (h : c1.write_owners = c.write_owners) : c1.write_side t = c.write_side t := by
  simp only [write_side, h]

theorem read_via (c : channel α) (t : thread_id) (h : c.non_readers.present t = false) :
    c.read t = Except.ok ((c.queue (c.read_side t)).read.map
      fun r => (c.with_queue (c.read_side t) r.1, r.2)) := by
  cases ho : c.read_owners.present t
  · rw [read_down c t h ho]
    simp only [read_side, ho, Bool.false_eq_true, if_false, queue, with_queue]
  · rw [read_up c t h ho]
    simp only [read_side, ho, if_true, queue, with_queue]

theorem try_reading_via (c : channel α) (t : thread_id)
    (h : c.non_readers.present t = false) :
    c.try_reading t = Except.ok ((c.queue (c.read_side t)).try_reading.map
      fun r => (c.with_queue (c.read_side t) r.1, r.2)) := by
  cases ho : c.read_owners.present t
  · rw [try_reading_down c t h ho]
    simp only [read_side, ho, Bool.false_eq_true, if_false, queue, with_queue]
  · rw [try_reading_up c t h ho]
    simp only [read_side, ho, if_true, queue, with_queue]

theorem timed_read_via (c : channel α) (t : thread_id) (duration : Int) (timed_out : Bool)
    (h : c.non_readers.present t = false) :
    c.timed_read t duration timed_out =
      Except.ok (((c.queue (c.read_side t)).timed_read duration timed_out).map
        fun r => (c.with_queue (c.read_side t) r.1, r.2)) := by
  cases ho : c.read_owners.present t
  · rw [timed_read_down c t duration timed_out h ho]
    simp only [read_side, ho, Bool.false_eq_true, if_false, queue, with_queue]
  · rw [timed_read_up c t duration timed_out h ho]
    simp only [read_side, ho, if_true, queue, with_queue]

theorem write_via (c : channel α) (t : thread_id) (message : Option α)
    (h : c.non_writers.present t = false) :
    c.write t message = Except.ok (((c.queue (c.write_side t)).write message).map
      fun r => (c.with_queue (c.write_side t) r.1, r.2)) := by
  cases ho : c.write_owners.present t
  · rw [write_up c t message h ho]
    simp only [write_side, ho, Bool.false_eq_true, if_false, queue, with_queue]
  · rw [write_down c t message h ho]
    simp only [write_side, ho, if_true, queue, with_queue]

theorem try_writing_via (c : channel α) (t : thread_id) (message : Option α)
    (h : c.non_writers.present t = false) :
    c.try_writing t message =
      Except.ok (((c.queue (c.write_side t)).try_writing message).map
        fun r => (c.with_queue (c.write_side t) r.1, r.2)) := by
  cases ho : c.write_owners.present t
  · rw [try_writing_up c t message h ho]
    simp only [write_side, ho, Bool.false_eq_true, if_false, queue, with_queue]
  · rw [try_writing_down c t message h ho]
    simp only [write_side, ho, if_true, queue, with_queue]

theorem timed_write_via (c : channel α) (t : thread_id) (message : Option α)
    (duration : Int) (h : c.non_writers.present t = false) :
    c.timed_write t message duration =
      Except.ok (((c.queue (c.write_side t)).timed_write message duration).map
        fun r => (c.with_queue (c.write_side t) r.1, r.2)) := by
  cases ho : c.write_owners.present t
  · rw [timed_write_up c t message duration h ho]
    simp only [write_side, ho, Bool.false_eq_true, if_false, queue, with_queue]
  · rw [timed_write_down c t message duration h ho]
    simp only [write_side, ho, if_true, queue, with_queue]

/-- The sides of a thread differ exactly when its two ownership flags agree. -/
theorem sides_differ (c : channel α) (t : thread_id) :
    c.write_side t ≠ c.read_side t ↔
      c.read_owners.present t = c.write_owners.present t := by
  cases hr : c.read_owners.present t <;> cases hw : c.write_owners.present t <;>
    simp [write_side, read_side, hr, hw]

theorem via_queues {γ : Type} (c c1 : channel α) (sd : Side)
    (o : Option (circular_queue α × γ)) (x : γ)
    (h : (Except.ok (o.map fun r => (c.with_queue sd r.1, r.2)) :
      Outcome (channel α × γ)) = Except.ok (some (c1, x))) :
    ∃ q1, o = some (q1, x) ∧ c1 = c.with_queue sd q1 := by
  obtain ⟨b, hb, e⟩ := ok_map_some _ o c1 x h
  obtain ⟨q1, y⟩ := b
  simp only [Prod.mk.injEq] at e
  obtain ⟨rfl, rfl⟩ := e
  exact ⟨q1, hb, rfl⟩

theorem with_queue_call (c : channel α) (sd : Side) (q1 : circular_queue α)
    (qop : circular_queue.Op α) (qr : circular_queue.Ret α)
    (hq : (c.queue sd).call qop = some (q1, qr)) (s : Side) :
    (c.with_queue sd q1).queue s = c.queue s ∨
    ∃ qop qr, (c.queue s).call qop = some ((c.with_queue sd q1).queue s, qr) := by
  by_cases e : s = sd
  · subst e
    right
    rw [queue_with_queue]
    exact ⟨qop, qr, hq⟩
  · left
    exact queue_with_queue_ne c sd s q1 e

/-- A completed channel call leaves each queue alone or runs one completed queue
call on it. -/
theorem call_queues (c c1 : channel α) (t : thread_id) (op : Call α) (r : Reply α)
    (h : c.call t op = Except.ok (some (c1, r))) (s : Side) :
    c1.queue s = c.queue s ∨
    ∃ qop qr, (c.queue s).call qop = some (c1.queue s, qr) := by
  cases op with
  | read =>
    simp only [call] at h
    cases hx : c.read t with
    | error e => rw [hx] at h; cases h
    | ok o =>
      cases o with
      | none => rw [hx] at h; cases h
      | some p =>
        obtain ⟨c2, m⟩ := p
        rw [hx] at h
        cases h
        cases hn : c.non_readers.present t
        · rw [read_via c t hn] at hx
          obtain ⟨q1, hq, rfl⟩ := via_queues c c1 _ _ m hx
          exact with_queue_call c _ q1 circular_queue.Op.read (circular_queue.Ret.read m)
            (by simp only [circular_queue.call, hq]) s
        · rw [read_abort c t hn] at hx
          cases hx
  | write message =>
    simp only [call] at h
    cases hx : c.write t message with
    | error e => rw [hx] at h; cases h
    | ok o =>
      cases o with
      | none => rw [hx] at h; cases h
      | some p =>
        obtain ⟨c2, m⟩ := p
        rw [hx] at h
        cases h
        cases hn : c.non_writers.present t
        · rw [write_via c t message hn] at hx
          obtain ⟨q1, hq, rfl⟩ := via_queues c c1 _ _ m hx
          exact with_queue_call c _ q1 (circular_queue.Op.write message)
            (circular_queue.Ret.write m) (by simp only [circular_queue.call, hq]) s
        · rw [write_abort c t message hn] at hx
          cases hx
  | try_reading =>
    simp only [call] at h
    cases hx : c.try_reading t with
    | error e => rw [hx] at h; cases h
    | ok o =>
      cases o with
      | none => rw [hx] at h; cases h
      | some p =>
        obtain ⟨c2, m⟩ := p
        rw [hx] at h
        cases h
        cases hn : c.non_readers.present t
        · rw [try_reading_via c t hn] at hx
          obtain ⟨q1, hq, rfl⟩ := via_queues c c1 _ _ m hx
          exact with_queue_call c _ q1 circular_queue.Op.try_reading
            (circular_queue.Ret.try_reading m) (by simp only [circular_queue.call, hq]) s
        · rw [try_reading_abort c t hn] at hx
          cases hx
  | timed_read duration timed_out =>
    simp only [call] at h
    cases hx : c.timed_read t duration timed_out with
    | error e => rw [hx] at h; cases h
    | ok o =>
      cases o with
      | none => rw [hx] at h; cases h
      | some p =>
        obtain ⟨c2, m, b⟩ := p
        rw [hx] at h
        cases h
        cases hn : c.non_readers.present t
        · rw [timed_read_via c t duration timed_out hn] at hx
          obtain ⟨q1, hq, rfl⟩ := via_queues c c1 _ _ (m, b) hx
          exact with_queue_call c _ q1 (circular_queue.Op.timed_read duration timed_out)
            (circular_queue.Ret.timed_read m b) (by simp only [circular_queue.call, hq]) s
        · rw [timed_read_abort c t duration timed_out hn] at hx
          cases hx
  | read_msg_count =>
    simp only [call, Except.ok.injEq, Option.some.injEq, Prod.mk.injEq] at h
    obtain ⟨rfl, _⟩ := h
    exact Or.inl rfl
  | try_writing message =>
    simp only [call] at h
    cases hx : c.try_writing t message with
    | error e => rw [hx] at h; cases h
    | ok o =>
      cases o with
      | none => rw [hx] at h; cases h
      | some p =>
        obtain ⟨c2, m, b⟩ := p
        rw [hx] at h
        cases h
        cases hn : c.non_writers.present t
        · rw [try_writing_via c t message hn] at hx
          obtain ⟨q1, hq, rfl⟩ := via_queues c c1 _ _ (m, b) hx
          exact with_queue_call c _ q1 (circular_queue.Op.try_writing message)
            (circular_queue.Ret.try_writing b m) (by simp only [circular_queue.call, hq]) s
        · rw [try_writing_abort c t message hn] at hx
          cases hx
  | timed_write message duration =>
    simp only [call] at h
    cases hx : c.timed_write t message duration with
    | error e => rw [hx] at h; cases h
    | ok o =>
      cases o with
      | none => rw [hx] at h; cases h
      | some p =>
        obtain ⟨c2, m, b⟩ := p
        rw [hx] at h
        cases h
        cases hn : c.non_writers.present t
        · rw [timed_write_via c t message duration hn] at hx
          obtain ⟨q1, hq, rfl⟩ := via_queues c c1 _ _ (m, b) hx
          exact with_queue_call c _ q1 (circular_queue.Op.timed_write message duration)
            (circular_queue.Ret.timed_write b m) (by simp only [circular_queue.call, hq]) s
        · rw [timed_write_abort c t message duration hn] at hx
          cases hx
  | write_msg_count =>
    simp only [call, Except.ok.injEq, Option.some.injEq, Prod.mk.injEq] at h
    obtain ⟨rfl, _⟩ := h
    exact Or.inl rfl
  | become_a_non_reader =>
    simp only [call, Except.ok.injEq, Option.some.injEq, Prod.mk.injEq] at h
    obtain ⟨rfl, _⟩ := h
    cases s <;> exact Or.inl rfl
  | become_a_non_writer =>
    simp only [call, Except.ok.injEq, Option.some.injEq, Prod.mk.injEq] at h
    obtain ⟨rfl, _⟩ := h
    cases s <;> exact Or.inl rfl
  | become_a_read_owner =>
    simp only [call, become_a_read_owner_eq] at h
    cases hn : c.non_readers.present t
    · simp only [hn, Bool.false_eq_true, if_false, Except.ok.injEq, Option.some.injEq,
        Prod.mk.injEq] at h
      obtain ⟨rfl, _⟩ := h
      cases s <;> exact Or.inl rfl
    · simp only [hn, if_true] at h
      cases h
  | become_a_write_owner =>
    simp only [call, become_a_write_owner_eq] at h
    cases hn : c.non_writers.present t
    · simp only [hn, Bool.false_eq_true, if_false, Except.ok.injEq, Option.some.injEq,
        Prod.mk.injEq] at h
      obtain ⟨rfl, _⟩ := h
      cases s <;> exact Or.inl rfl
    · simp only [hn, if_true] at h
      cases h

/-- Induction over the completed calls of a run. -/
theorem run_induct (P : channel α → Prop)
    (hstep : ∀ (c c1 : channel α) (t : thread_id) (op : Call α) (r : Reply α),
      c.call t op = Except.ok (some (c1, r)) → P c → P c1)
    (calls : List (thread_id × Call α)) :
    ∀ (c c2 : channel α) (rs : List (Reply α)),
      c.run calls = Except.ok (some (c2, rs)) → P c → P c2 := by
  induction calls with
  | nil =>
    intro c c2 rs h hp
    simp only [run, Except.ok.injEq, Option.some.injEq, Prod.mk.injEq] at h
    obtain ⟨rfl, _⟩ := h
    exact hp
  | cons x rest ih =>
    intro c c2 rs h hp
    obtain ⟨t, op⟩ := x
    obtain ⟨c1, r, rs1, hc, hr, _⟩ := run_cons_ok c t op rest c2 rs h
    exact ih c1 c2 rs1 hr (hstep c c1 t op r hc hp)

theorem construct_parts (creator : thread_id) (up down : Int) (c0 : channel α)
    (h : construct creator up down = Except.ok c0) :
    circular_queue.construct up = Except.ok c0.worker_to_read_owner_queue ∧
    circular_queue.construct (if down = 0 then up else down) =
      Except.ok c0.write_owner_to_worker_queue ∧
    c0.read_owners = thr_safe_set.single creator ∧
    c0.write_owners = thr_safe_set.single creator ∧
    c0.non_readers = thr_safe_set.empty ∧ c0.non_writers = thr_safe_set.empty := by
  unfold construct at h
  cases h1 : (circular_queue.construct up : Except Fault (circular_queue α)) with
  | error e => rw [h1] at h; cases h
  | ok q1 =>
    rw [h1] at h
    simp only at h
    cases h2 : (circular_queue.construct (if down = 0 then up else down) :
        Except Fault (circular_queue α)) with
    | error e => rw [h2] at h; cases h
    | ok q2 =>
      rw [h2] at h
      cases h
      exact ⟨rfl, rfl, rfl, rfl, rfl, rfl⟩

/-- Both queues of a reachable channel state are reachable queue states. -/
theorem reachable_queues (creator : thread_id) (up down : Int) (c : channel α)
    (h : Reachable creator up down c) :
    circular_queue.Reachable up c.worker_to_read_owner_queue ∧
    circular_queue.Reachable (if down = 0 then up else down)
      c.write_owner_to_worker_queue := by
  obtain ⟨c0, calls, rs, h0, hr⟩ := h
  obtain ⟨e1, e2, _⟩ := construct_parts creator up down c0 h0
  refine run_induct
    (fun c => circular_queue.Reachable up c.worker_to_read_owner_queue ∧
      circular_queue.Reachable (if down = 0 then up else down)
        c.write_owner_to_worker_queue) ?_ calls c0 c rs hr
    ⟨⟨_, [], [], e1, rfl⟩, ⟨_, [], [], e2, rfl⟩⟩
  intro c c1 t op r hc hp
  constructor
  · rcases call_queues c c1 t op r hc Side.worker_to_read_owner with e | ⟨qop, qr, e⟩
    · have e3 : c1.worker_to_read_owner_queue = c.worker_to_read_owner_queue := e
      rw [e3]
      exact hp.1
    · exact circular_queue.reachable_call up _ _ qop qr hp.1 e
  · rcases call_queues c c1 t op r hc Side.write_owner_to_worker with e | ⟨qop, qr, e⟩
    · have e3 : c1.write_owner_to_worker_queue = c.write_owner_to_worker_queue := e
      rw [e3]
      exact hp.2
    · exact circular_queue.reachable_call _ _ _ qop qr hp.2 e

theorem call_disjoint (c c1 : channel α) (t : thread_id) (op : Call α) (r : Reply α)
    (h : c.call t op = Except.ok (some (c1, r))) (hd : roles_disjoint c) :
    roles_disjoint c1 := by
  rcases call_roles c c1 t op r h with ⟨h1, h2, h3, h4⟩ | rfl | rfl | ⟨hn, rfl⟩ | ⟨hn, rfl⟩
  · intro u
    rw [h1, h2, h3, h4]
    exact hd u
  · intro u
    refine ⟨?_, (hd u).2⟩
    show ¬ ((c.read_owners.remove t).present u = true ∧
      (c.non_readers.add t).present u = true)
    rw [present_remove, present_add]
    have hx := (hd u).1
    by_cases e : u = t
    · simp [e]
    · cases h1 : c.read_owners.present u <;> cases h2 : c.non_readers.present u <;>
        simp_all
  · intro u
    refine ⟨(hd u).1, ?_⟩
    show ¬ ((c.write_owners.remove t).present u = true ∧
      (c.non_writers.add t).present u = true)
    rw [present_remove, present_add]
    have hx := (hd u).2
    by_cases e : u = t
    · simp [e]
    · cases h1 : c.write_owners.present u <;> cases h2 : c.non_writers.present u <;>
        simp_all
  · intro u
    refine ⟨?_, (hd u).2⟩
    show ¬ ((c.read_owners.add t).present u = true ∧ c.non_readers.present u = true)
    rw [present_add]
    have hx := (hd u).1
    by_cases e : u = t
    · subst e; simp [hn]
    · cases h1 : c.read_owners.present u <;> cases h2 : c.non_readers.present u <;>
        simp_all
  · intro u
    refine ⟨(hd u).1, ?_⟩
    show ¬ ((c.write_owners.add t).present u = true ∧ c.non_writers.present u = true)
    rw [present_add]
    have hx := (hd u).2
    by_cases e : u = t
    · subst e; simp [hn]
    · cases h1 : c.write_owners.present u <;> cases h2 : c.non_writers.present u <;>
        simp_all

theorem construct_disjoint (creator : thread_id) (up down : Int) (c0 : channel α)
    (h : construct creator up down = Except.ok c0) : roles_disjoint c0 := by
  obtain ⟨_, _, _, _, h3, h4⟩ := construct_parts creator up down c0 h
  intro u
  rw [h3, h4]
  simp [thr_safe_set.empty, thr_safe_set.present]

theorem with_queue_self (c : channel α) (s : Side) : c.with_queue s (c.queue s) = c := by
  cases s <;> rfl

/-- On an empty queue, a write by a thread whose write side is a reader's read
side is what that reader reads next; the other queue and the role sets are
untouched. -/
theorem write_then_read (c : channel α) (tw tr : thread_id) (v : Option α)
    (hw : c.non_writers.present tw = false) (hr : c.non_readers.present tr = false)
    (hs : c.write_side tw = c.read_side tr)
    (hi : circular_queue.Inv (c.queue (c.write_side tw)))
    (h0 : (c.queue (c.write_side tw)).count = 0) :
    ∃ c1 c2 : channel α,
      c.write tw v = Except.ok (some (c1, none)) ∧
      c1.read tr = Except.ok (some (c2, v)) ∧
      same_roles c c1 ∧ same_roles c c2 ∧
      circular_queue.contents (c1.queue (c.write_side tw)) = [v] ∧
      circular_queue.Inv (c2.queue (c.write_side tw)) ∧
      (c2.queue (c.write_side tw)).count = 0 ∧
      ∀ s, s ≠ c.write_side tw → c1.queue s = c.queue s ∧ c2.queue s = c.queue s := by
  obtain ⟨hc, hpos, hm, hcs, hi2, h02⟩ :=
    circular_queue.store_take_empty (c.queue (c.write_side tw)) v hi h0
  have hr1 := with_queue_roles c (c.write_side tw)
    ((c.queue (c.write_side tw))._write_store v)
  have hside : (c.with_queue (c.write_side tw)
      ((c.queue (c.write_side tw))._write_store v)).read_side tr = c.write_side tw := by
    rw [read_side_of c _ tr hr1.1, hs]
  refine ⟨c.with_queue (c.write_side tw) ((c.queue (c.write_side tw))._write_store v),
    (c.with_queue (c.write_side tw) ((c.queue (c.write_side tw))._write_store v)).with_queue
      (c.write_side tw) (((c.queue (c.write_side tw))._write_store v)._read_take).1,
    ?_, ?_, hr1, ?_, ?_, ?_, ?_, ?_⟩
  · rw [write_via c tw v hw, circular_queue.write_eq, if_pos hc]
    rfl
  · rw [read_via _ tr (by rw [hr1.2.2.1]; exact hr), hside, queue_with_queue,
      circular_queue.read_eq, if_pos hpos]
    simp only [Option.map_some', hm]
  · obtain ⟨a1, a2, a3, a4⟩ := with_queue_roles
      (c.with_queue (c.write_side tw) ((c.queue (c.write_side tw))._write_store v))
      (c.write_side tw) (((c.queue (c.write_side tw))._write_store v)._read_take).1
    exact ⟨a1.trans hr1.1, a2.trans hr1.2.1, a3.trans hr1.2.2.1, a4.trans hr1.2.2.2⟩
  · rw [queue_with_queue]
    exact hcs
  · rw [queue_with_queue]
    exact hi2
  · rw [queue_with_queue]
    exact h02
  · intro s hne
    constructor
    · exact queue_with_queue_ne c _ s _ hne
    · rw [queue_with_queue_ne _ _ s _ hne]
      exact queue_with_queue_ne c _ s _ hne

end channel

namespace circular_queue

variable {α : Type}

/-! ## The claims on variants, storage and conversion -/

/-- C24: the three variants agree whenever they can proceed.  On a queue with
`count < size`, `write`, `try_writing` and `timed_write` with any duration
(zero and negative ones included) complete, leave the same state, empty the
caller's handle, and the latter two return `true`.  On a queue with `count > 0`,
`read`, `try_reading` and `timed_read` with any duration complete, return the
same handle and leave the same state, and `timed_read` sets `timed_out` to
`false` whatever the flag held before.  The same holds for the channel functions
of a caller that is not barred, when `q` is the queue the call is handed to. -/
theorem C24_variant_agreement (q : circular_queue α) (message : Option α) :
    (q.count < q.size →
      ∃ q1 : circular_queue α, q.write message = some (q1, none) ∧
        q.try_writing message = some (q1, none, true) ∧
        ∀ duration : Int, q.timed_write message duration = some (q1, none, true)) ∧
    (0 < q.count →
      ∃ (q1 : circular_queue α) (m : Option α), q.read = some (q1, m) ∧
        q.try_reading = some (q1, m) ∧
        ∀ (duration : Int) (timed_out : Bool),
          q.timed_read duration timed_out = some (q1, m, false)) ∧
    (∀ (c : channel α) (t : thread_id), c.non_writers.present t = false →
      c.queue (c.write_side t) = q → q.count < q.size →
      ∃ c1 : channel α, c.write t message = Except.ok (some (c1, none)) ∧
        c.try_writing t message = Except.ok (some (c1, none, true)) ∧
        ∀ duration : Int,
          c.timed_write t message duration = Except.ok (some (c1, none, true))) ∧
    (∀ (c : channel α) (t : thread_id), c.non_readers.present t = false →
      c.queue (c.read_side t) = q → 0 < q.count →
      ∃ (c1 : channel α) (m : Option α), c.read t = Except.ok (some (c1, m)) ∧
        c.try_reading t = Except.ok (some (c1, m)) ∧
        ∀ (duration : Int) (timed_out : Bool),
          c.timed_read t duration timed_out = Except.ok (some (c1, m, false))) := by
  refine ⟨?_, ?_, ?_, ?_⟩
  · intro hc
    refine ⟨q._write_store message, ?_, ?_, ?_⟩
    · rw [write_eq, if_pos hc]
    · rw [try_writing_eq, if_pos hc]
    · intro duration
      rw [timed_write_eq, if_pos hc]
  · intro hc
    refine ⟨(q._read_take).1, (q._read_take).2, ?_, ?_, ?_⟩
    · rw [read_eq, if_pos hc]
    · rw [try_reading_eq, if_pos hc]
    · intro duration timed_out
      rw [timed_read_eq, if_pos hc]
  · intro c t hn hq hc
    refine ⟨c.with_queue (c.write_side t) (q._write_store message), ?_, ?_, ?_⟩
    · rw [channel.write_via c t message hn, hq, write_eq, if_pos hc]
      rfl
    · rw [channel.try_writing_via c t message hn, hq, try_writing_eq, if_pos hc]
      rfl
    · intro duration
      rw [channel.timed_write_via c t message duration hn, hq, timed_write_eq, if_pos hc]
      rfl
  · intro c t hn hq hc
    refine ⟨c.with_queue (c.read_side t) (q._read_take).1, (q._read_take).2, ?_, ?_, ?_⟩
    · rw [channel.read_via c t hn, hq, read_eq, if_pos hc]
      rfl
    · rw [channel.try_reading_via c t hn, hq, try_reading_eq, if_pos hc]
      rfl
    · intro duration timed_out
      rw [channel.timed_read_via c t duration timed_out hn, hq, timed_read_eq, if_pos hc]
      rfl

/-- Witness for C24: a queue of capacity 2 holding `some 5`; the flag passed to
`timed_read` is `true` before the call. -/
theorem C24_variant_agreement_witness :
    (∃ q1 : circular_queue Nat,
      (⟨2, 0, 1, 1, [some 5, none]⟩ : circular_queue Nat).write (some 6) =
        some (q1, none) ∧
      (⟨2, 0, 1, 1, [some 5, none]⟩ : circular_queue Nat).try_writing (some 6) =
        some (q1, none, true) ∧
      ∀ duration : Int,
        (⟨2, 0, 1, 1, [some 5, none]⟩ : circular_queue Nat).timed_write (some 6) duration =
          some (q1, none, true)) ∧
    (∃ (q1 : circular_queue Nat) (m : Option Nat),
      (⟨2, 0, 1, 1, [some 5, none]⟩ : circular_queue Nat).read = some (q1, m) ∧
      (⟨2, 0, 1, 1, [some 5, none]⟩ : circular_queue Nat).try_reading = some (q1, m) ∧
      ∀ (duration : Int) (timed_out : Bool),
        (⟨2, 0, 1, 1, [some 5, none]⟩ : circular_queue Nat).timed_read duration timed_out =
          some (q1, m, false)) ∧
    (⟨2, 0, 1, 1, [some 5, none]⟩ : circular_queue Nat).write (some 6) =
      some (⟨2, 0, 0, 2, [some 5, some 6]⟩, none) ∧
    (⟨2, 0, 1, 1, [some 5, none]⟩ : circular_queue Nat).timed_read 0 true =
      some (⟨2, 1, 1, 0, [none, none]⟩, some 5, false) :=
  have h := C24_variant_agreement (⟨2, 0, 1, 1, [some 5, none]⟩ : circular_queue Nat)
    (some 6)
  ⟨h.1 (by decide), h.2.1 (by decide), rfl, rfl⟩

/-- C25: no-duplication invariant of the storage.  In every state reachable from
construction every slot outside the occupied window
`{(read_index + i) mod size | 0 ≤ i < count}` holds an empty handle, and the
storage as a whole holds the queued handles and `size - count` empty handles,
nothing else.  A read takes its handle out of the storage: the slot read from
holds an empty handle afterwards and lies outside the window, the other slots
are untouched, and the storage holds the remaining queued handles and empty
handles only.  A write stores into a slot outside the window, which holds an
empty handle: no slot of the window (no handle not yet read) is overwritten. -/
theorem C25_storage_hygiene (c : Int) (q : circular_queue α) (hq : Reachable c q) :
    (∀ i, i < q.size → ¬ occupied q i → q.data[i]? = some none) ∧
    q.data.Perm (contents q ++ List.replicate (q.size - q.count) none) ∧
    (0 < q.count →
      ∃ (q1 : circular_queue α) (m : Option α), q.read = some (q1, m) ∧
        contents q = m :: contents q1 ∧
        q1.data = q.data.set q.read_index none ∧
        q1.data[q.read_index]? = some none ∧
        ¬ occupied q1 q.read_index ∧
        (∀ i, i ≠ q.read_index → q1.data[i]? = q.data[i]?) ∧
        q1.data.Perm (contents q1 ++ List.replicate (q.size - q.count + 1) none)) ∧
    (q.count < q.size →
      ¬ occupied q q.write_index ∧ q.data[q.write_index]? = some none ∧
      ∀ message : Option α, ∃ q1 : circular_queue α,
        q.write message = some (q1, none) ∧
        q1.data = q.data.set q.write_index message ∧
        contents q1 = contents q ++ [message] ∧
        ∀ i, occupied q i → q1.data[i]? = q.data[i]?) := by
  obtain ⟨hi, hcl⟩ := reachable_inv c q hq
  have hp := reachable_perm c q hq
  have hslot : ∀ i, i < q.size → q.data.getD i none = none → q.data[i]? = some none := by
    intro i hlt h
    have hl : i < q.data.length := by rw [hi.data_len]; exact hlt
    rw [List.getD_eq_getElem?_getD, List.getElem?_eq_getElem hl] at h
    rw [List.getElem?_eq_getElem hl]
    exact congrArg some h
  refine ⟨fun i hlt hno => hslot i hlt (hcl i hlt hno), hp, ?_, ?_⟩
  · intro hc
    obtain ⟨h1, _, _, h4, h5, _⟩ := take_fields q hi.read_lt hi.size_lt hc hi.count_le
    have hcl2 := hi.count_le
    have hp1 := perm_take q hi hc hp
    have en : (q._read_take).1.size - (q._read_take).1.count = q.size - q.count + 1 := by
      rw [h1, h4]; omega
    rw [en] at hp1
    refine ⟨(q._read_take).1, (q._read_take).2, by rw [read_eq, if_pos hc],
      contents_take q hi hc, h5, ?_, read_slot_free q hi hc, ?_, hp1⟩
    · rw [h5, List.getElem?_set_self (by rw [hi.data_len]; exact hi.read_lt)]
    · intro i hne
      rw [h5, List.getElem?_set_ne (Ne.symm hne)]
  · intro hc
    have hfree := write_slot_free q hi hc
    refine ⟨hfree, hslot _ hi.write_lt (hcl _ hi.write_lt hfree), ?_⟩
    intro message
    obtain ⟨_, _, _, _, h5⟩ := store_fields q message hi.write_lt hi.size_lt hc
    refine ⟨q._write_store message, by rw [write_eq, if_pos hc], h5,
      contents_store q message hi hc, ?_⟩
    intro i ho
    have hne : q.write_index ≠ i := by
      intro e
      rw [← e] at ho
      exact hfree ho
    rw [h5, List.getElem?_set_ne hne]

/-- Witness for C25: capacity 3, after `write(7); write(8); read()`. -/
theorem C25_storage_hygiene_witness :
    Reachable 3 (⟨3, 1, 2, 1, [none, some 8, none]⟩ : circular_queue Nat) ∧
    (∀ i, i < 3 → ¬ occupied (⟨3, 1, 2, 1, [none, some 8, none]⟩ : circular_queue Nat) i →
      ([none, some 8, none] : List (Option Nat))[i]? = some none) ∧
    ([none, some 8, none] : List (Option Nat)).Perm
      (contents (⟨3, 1, 2, 1, [none, some 8, none]⟩ : circular_queue Nat) ++
        List.replicate (3 - 1) none) ∧
    (⟨3, 1, 2, 1, [none, some 8, none]⟩ : circular_queue Nat).read =
      some (⟨3, 2, 2, 0, [none, none, none]⟩, some 8) :=
  have hreach : Reachable 3 (⟨3, 1, 2, 1, [none, some 8, none]⟩ : circular_queue Nat) :=
    ⟨⟨3, 0, 0, 0, [none, none, none]⟩, [Op.write (some 7), Op.write (some 8), Op.read],
      [⟨⟨3, 0, 0, 0, [none, none, none]⟩, Op.write (some 7), Ret.write none⟩,
       ⟨⟨3, 0, 1, 1, [some 7, none, none]⟩, Op.write (some 8), Ret.write none⟩,
       ⟨⟨3, 0, 2, 2, [some 7, some 8, none]⟩, Op.read, Ret.read (some 7)⟩], rfl, rfl⟩
  have h := C25_storage_hygiene (α := Nat) 3 ⟨3, 1, 2, 1, [none, some 8, none]⟩ hreach
  ⟨hreach, h.1, h.2.1, rfl⟩

/-- C28: `try_reading` cannot tell "nothing read" from "sentinel read".  On
every reachable state, if the queue is empty `try_reading` returns an empty
handle and leaves the state unchanged, and if the oldest queued handle is empty
`try_reading` returns an empty handle too, while `count` drops by one and
`read_index` advances; `timed_read` returns an empty handle in both states but
sets `timed_out` to `true` in the first and to `false` in the second.  Two such
states exist: a fresh queue of capacity 2 and the same queue after
`write(nullptr)`. -/
theorem C28_try_reading_ambiguity :
    (∀ (c : Int) (q : circular_queue α), Reachable c q →
      (q.count = 0 →
        q.try_reading = some (q, none) ∧
        ∀ (duration : Int) (timed_out : Bool),
          q.timed_read duration timed_out = some (q, none, true)) ∧
      (∀ rest : List (Option α), contents q = none :: rest →
        ∃ q1 : circular_queue α, q.try_reading = some (q1, none) ∧
          q1.count + 1 = q.count ∧
          q1.read_index = (q.read_index + 1) % q.size ∧
          contents q1 = rest ∧ q1 ≠ q ∧
          ∀ (duration : Int) (timed_out : Bool),
            q.timed_read duration timed_out = some (q1, none, false))) ∧
    (∃ qa qb qb1 : circular_queue α,
      Reachable 2 qa ∧ Reachable 2 qb ∧
      qa.count = 0 ∧ contents qa = [] ∧ contents qb = [none] ∧
      qa.try_reading = some (qa, none) ∧
      qb.try_reading = some (qb1, none) ∧
      qb1.count + 1 = qb.count ∧ qb.read_index = 0 ∧ qb1.read_index = 1 ∧
      ∀ (duration : Int) (timed_out : Bool),
        qa.timed_read duration timed_out = some (qa, none, true) ∧
        qb.timed_read duration timed_out = some (qb1, none, false)) := by
  constructor
  · intro c q hq
    obtain ⟨hi, _⟩ := reachable_inv c q hq
    constructor
    · intro h0
      have hn : ¬ 0 < q.count := by omega
      refine ⟨by rw [try_reading_eq, if_neg hn], ?_⟩
      intro duration timed_out
      rw [timed_read_eq, if_neg hn]
    · intro rest hrest
      have hpos : 0 < q.count := by
        have := contents_length q
        rw [hrest, List.length_cons] at this
        omega
      obtain ⟨_, t2, _, t4, _, _⟩ := take_fields q hi.read_lt hi.size_lt hpos hi.count_le
      have e := contents_take q hi hpos
      rw [hrest, List.cons.injEq] at e
      have hcnt : (q._read_take).1.count + 1 = q.count := by rw [t4]; omega
      refine ⟨(q._read_take).1, ?_, hcnt, t2, e.2.symm, ?_, ?_⟩
      · rw [try_reading_eq, if_pos hpos, e.1]
      · intro heq
        rw [heq] at hcnt
        omega
      · intro duration timed_out
        rw [timed_read_eq, if_pos hpos, ← e.1]
  · have hw : (⟨2, 0, 0, 0, [none, none]⟩ : circular_queue α).call (Op.write none) =
        some (⟨2, 0, 1, 1, [none, none]⟩, Ret.write none) := by
      simp only [call, write_eq, _write_store, SIZE_T_MOD]
      norm_num
    have ht : (⟨2, 0, 1, 1, [none, none]⟩ : circular_queue α)._read_take =
        (⟨2, 1, 1, 0, [none, none]⟩, none) := by
      simp only [_read_take, SIZE_T_MOD]
      norm_num
    have hpos : 0 < (⟨2, 0, 1, 1, [none, none]⟩ : circular_queue α).count := Nat.one_pos
    refine ⟨⟨2, 0, 0, 0, [none, none]⟩, ⟨2, 0, 1, 1, [none, none]⟩,
      ⟨2, 1, 1, 0, [none, none]⟩,
      ⟨⟨2, 0, 0, 0, [none, none]⟩, [], [], rfl, rfl⟩,
      ⟨⟨2, 0, 0, 0, [none, none]⟩, [Op.write none],
        [⟨⟨2, 0, 0, 0, [none, none]⟩, Op.write none, Ret.write none⟩], rfl, ?_⟩,
      rfl, rfl, rfl, rfl, ?_, rfl, rfl, rfl, ?_⟩
    · rw [run_step _ _ _ _ _ hw]
      rfl
    · rw [try_reading_eq, if_pos hpos, ht]
    · intro duration timed_out
      refine ⟨rfl, ?_⟩
      rw [timed_read_eq, if_pos hpos, ht]

/-- C29: the constructor's zero check does not reject negative capacities.  For
every `int` argument `c` the stored `size` is `c` converted to `std::size_t`,
that is `c mod 2^64`, and the abort branch of `circular_queue`'s constructor is
taken if and only if `c == 0`.  Every negative `c` therefore passes the zero
check with `size = 2^64 + c`, which is at least `2^63`: it is not answered by
the abort of the zero check; the constructor then fails in the allocation of
`data`, which throws `std::length_error`.  A positive `c` constructs a queue of
size `c`.  Likewise for `channel`: its constructor takes the abort branch if
and only if `read_q_size == 0`, and a negative `read_q_size` or `write_q_size`
passes the zero check of its queue with a size of at least `2^63`, the
construction ending in `std::length_error`. -/
theorem C29_negative_capacity (c : Int) (h1 : INT_MIN ≤ c) (h2 : c ≤ INT_MAX) :
    (construct_size c : Int) = c % 18446744073709551616 ∧
    (construct (α := α) c = Except.error Fault.abort ↔ c = 0) ∧
    (construct_size c = 0 ↔ c = 0) ∧
    (0 < c → ∃ q : circular_queue α, construct c = Except.ok q ∧
      q.size = construct_size c ∧ (q.size : Int) = c) ∧
    (c < 0 →
      (construct_size c : Int) = 18446744073709551616 + c ∧
      9223372036854775808 ≤ construct_size c ∧
      construct (α := α) c ≠ Except.error Fault.abort ∧
      construct (α := α) c = Except.error Fault.length_error) ∧
    (∀ (creator : thread_id) (d : Int), INT_MIN ≤ d → d ≤ INT_MAX →
      (channel.construct (α := α) creator c d = Except.error Fault.abort ↔ c = 0) ∧
      (c < 0 →
        channel.construct (α := α) creator c d = Except.error Fault.length_error) ∧
      (0 < c → d < 0 →
        (construct_size d : Int) = 18446744073709551616 + d ∧
        9223372036854775808 ≤ construct_size d ∧
        channel.construct (α := α) creator c d = Except.error Fault.length_error) ∧
      (0 < c → 0 ≤ d → ∃ ch : channel α, channel.construct creator c d = Except.ok ch ∧
        (ch.worker_to_read_owner_queue.size : Int) = c ∧
        (ch.write_owner_to_worker_queue.size : Int) = (if d = 0 then c else d))) := by
  have hsize : ∀ x : Int, INT_MIN ≤ x → x ≤ INT_MAX →
      (construct_size x : Int) = x % 18446744073709551616 ∧
      (construct_size x = 0 ↔ x = 0) ∧
      (x < 0 → (construct_size x : Int) = 18446744073709551616 + x ∧
        9223372036854775808 ≤ construct_size x) := by
    intro x hx1 hx2
    simp only [INT_MIN, INT_MAX] at hx1 hx2
    simp only [construct_size, SIZE_T_MOD, Nat.cast_ofNat]
    refine ⟨by omega, by omega, ?_⟩
    intro hx
    constructor <;> omega
  have hiff : ∀ x : Int, INT_MIN ≤ x → x ≤ INT_MAX →
      (construct (α := α) x = Except.error Fault.abort ↔ x = 0) := by
    intro x hx1 hx2
    obtain ⟨hz, hp, hn⟩ := construct_int (α := α) x hx1 hx2
    constructor
    · intro h
      by_contra hx
      rcases lt_or_gt_of_ne hx with hlt | hgt
      · rw [(hn hlt).2] at h
        cases h
      · rw [hp hgt] at h
        cases h
    · exact hz
  obtain ⟨hz, hp, hn⟩ := construct_int (α := α) c h1 h2
  obtain ⟨s1, s2, s3⟩ := hsize c h1 h2
  refine ⟨s1, hiff c h1 h2, s2, ?_, ?_, ?_⟩
  · intro hc
    refine ⟨_, hp hc, ?_, ?_⟩
    · show c.toNat = construct_size c
      have := s1
      simp only [INT_MIN, INT_MAX] at h1 h2
      omega
    · show ((c.toNat : Nat) : Int) = c
      omega
  · intro hc
    refine ⟨(s3 hc).1, (s3 hc).2, ?_, (hn hc).2⟩
    rw [(hn hc).2]
    intro h
    cases h
  · intro creator d hd1 hd2
    have hsel1 : INT_MIN ≤ (if d = 0 then c else d) := by split <;> assumption
    have hsel2 : (if d = 0 then c else d) ≤ INT_MAX := by split <;> assumption
    obtain ⟨dz, dp, dn⟩ := construct_int (α := α) (if d = 0 then c else d) hsel1 hsel2
    refine ⟨?_, ?_, ?_, ?_⟩
    · constructor
      · intro h
        by_contra hx
        rcases lt_or_gt_of_ne hx with hlt | hgt
        · unfold channel.construct at h
          rw [(hn hlt).2] at h
          cases h
        · unfold channel.construct at h
          rw [hp hgt] at h
          simp only at h
          by_cases hd0 : d = 0
          · rw [if_pos hd0, hp hgt] at h
            cases h
          · rw [if_neg hd0] at h
            rcases lt_or_gt_of_ne hd0 with hdl | hdg
            · rw [if_neg hd0] at dn
              rw [(dn hdl).2] at h
              cases h
            · rw [if_neg hd0] at dp
              rw [dp hdg] at h
              cases h
      · intro h
        subst h
        unfold channel.construct
        rw [hz rfl]
    · intro hc
      unfold channel.construct
      rw [(hn hc).2]
    · intro hc hd
      obtain ⟨_, _, t3⟩ := hsize d hd1 hd2
      have hd0 : ¬ d = 0 := by omega
      rw [if_neg hd0] at dn
      refine ⟨(t3 hd).1, (t3 hd).2, ?_⟩
      unfold channel.construct
      rw [hp hc]
      simp only
      rw [if_neg hd0, (dn hd).2]
    · intro hc hd
      have hsel : 0 < (if d = 0 then c else d) := by
        split
        · exact hc
        · omega
      refine ⟨⟨thr_safe_set.single creator, thr_safe_set.single creator,
        thr_safe_set.empty, thr_safe_set.empty,
        ⟨c.toNat, 0, 0, 0, List.replicate c.toNat none⟩,
        ⟨(if d = 0 then c else d).toNat, 0, 0, 0,
          List.replicate (if d = 0 then c else d).toNat none⟩⟩, ?_, ?_, ?_⟩
      · unfold channel.construct
        rw [hp hc, dp hsel]
      · show ((c.toNat : Nat) : Int) = c
        omega
      · show (((if d = 0 then c else d).toNat : Nat) : Int) = _
        omega

/-- Witness for C29: the argument `-1` is stored as `2^64 - 1`, passes the zero
check and ends in `std::length_error`. -/
theorem C29_negative_capacity_witness :
    INT_MIN ≤ -1 ∧ (-1 : Int) ≤ INT_MAX ∧
    (construct_size (-1) : Int) = 18446744073709551616 + -1 ∧
    9223372036854775808 ≤ construct_size (-1) ∧
    construct (α := Nat) (-1) ≠ Except.error Fault.abort ∧
    construct (α := Nat) (-1) = Except.error Fault.length_error ∧
    construct_size (-1) = 18446744073709551615 :=
  have h := (C29_negative_capacity (α := Nat) (-1) (by decide) (by decide)).2.2.2.2.1
    (by decide)
  ⟨by decide, by decide, h.1, h.2.1, h.2.2.1, h.2.2.2, by decide⟩

end circular_queue

namespace channel

variable {α : Type}

/-! ## The claims on topology, role operations and role sets -/

/-- C21: an owner / worker pair never receives its own messages.  For every
thread `t` that is in both owner sets or in neither, `write` and `read` select
different queues: a completed write by `t` leaves the queue `t` reads from
untouched and a completed read by `t` leaves the queue `t` writes to untouched.
The creator of a fresh channel is in both owner sets and every other thread in
neither.  In particular, on a reachable state with both queues empty, for a
thread `t` in both owner sets and a thread `w` in neither (neither of them
barred): `t` writes `v`; `t`'s `try_reading` then returns an empty handle and
changes nothing, `v` staying alone in queueDown; `w`'s `read` returns `v`; `w`
writes `wv`; `t`'s `read` returns `wv`. -/
theorem C21_no_self_delivery (creator : thread_id) (up down : Int) (c : channel α)
    (hc : Reachable creator up down c) (t : thread_id)
    (hb : c.read_owners.present t = c.write_owners.present t) :
    c.write_side t ≠ c.read_side t ∧
    (∀ (message m : Option α) (c1 : channel α),
      c.write t message = Except.ok (some (c1, m)) →
      c1.queue (c.read_side t) = c.queue (c.read_side t)) ∧
    (∀ (m : Option α) (c1 : channel α), c.read t = Except.ok (some (c1, m)) →
      c1.queue (c.write_side t) = c.queue (c.write_side t)) ∧
    (∀ c0 : channel α, construct creator up down = Except.ok c0 →
      c0.read_owners.present creator = true ∧ c0.write_owners.present creator = true ∧
      ∀ w, w ≠ creator →
        c0.read_owners.present w = false ∧ c0.write_owners.present w = false) ∧
    (∀ (w : thread_id) (v wv : Option α),
      c.read_owners.present t = true →
      c.non_readers.present t = false → c.non_writers.present t = false →
      c.read_owners.present w = false → c.write_owners.present w = false →
      c.non_readers.present w = false → c.non_writers.present w = false →
      c.worker_to_read_owner_queue.count = 0 →
      c.write_owner_to_worker_queue.count = 0 →
      ∃ c1 c2 c3 c4 : channel α,
        c.write t v = Except.ok (some (c1, none)) ∧
        c1.try_reading t = Except.ok (some (c1, none)) ∧
        c1.write_owner_to_worker_queue.contents = [v] ∧
        c1.read w = Except.ok (some (c2, v)) ∧
        c2.write w wv = Except.ok (some (c3, none)) ∧
        c3.read t = Except.ok (some (c4, wv))) := by
  have hne : c.write_side t ≠ c.read_side t := (sides_differ c t).2 hb
  obtain ⟨hru, hrd⟩ := reachable_queues creator up down c hc
  have hiu := (circular_queue.reachable_inv _ _ hru).1
  have hid := (circular_queue.reachable_inv _ _ hrd).1
  refine ⟨hne, ?_, ?_, ?_, ?_⟩
  · intro message m c1 h
    cases hn : c.non_writers.present t
    · rw [write_via c t message hn] at h
      obtain ⟨q1, _, rfl⟩ := via_queues c c1 _ _ m h
      exact queue_with_queue_ne c _ _ q1 (Ne.symm hne)
    · rw [write_abort c t message hn] at h
      cases h
  · intro m c1 h
    cases hn : c.non_readers.present t
    · rw [read_via c t hn] at h
      obtain ⟨q1, _, rfl⟩ := via_queues c c1 _ _ m h
      exact queue_with_queue_ne c _ _ q1 hne
    · rw [read_abort c t hn] at h
      cases h
  · intro c0 h0
    obtain ⟨_, _, e1, e2, _, _⟩ := construct_parts creator up down c0 h0
    rw [e1, e2]
    refine ⟨by simp [thr_safe_set.single, thr_safe_set.present],
      by simp [thr_safe_set.single, thr_safe_set.present], ?_⟩
    intro w hw
    simp [thr_safe_set.single, thr_safe_set.present, hw]
  · intro w v wv hto htr htw hwr hww hwnr hwnw hu0 hd0
    have htwo : c.write_owners.present t = true := by rw [← hb]; exact hto
    have s1 : c.write_side t = Side.write_owner_to_worker := by
      simp only [write_side, htwo, if_true]
    have s2 : c.read_side w = Side.write_owner_to_worker := by
      simp only [read_side, hwr, Bool.false_eq_true, if_false]
    have s3 : c.read_side t = Side.worker_to_read_owner := by
      simp only [read_side, hto, if_true]
    have s4 : c.write_side w = Side.worker_to_read_owner := by
      simp only [write_side, hww, Bool.false_eq_true, if_false]
    obtain ⟨c1, c2, e1, e2, r1, r2, hcs, _, _, hoth⟩ :=
      write_then_read c t w v htw hwnr (by rw [s1, s2]) (by rw [s1]; exact hid)
        (by rw [s1]; exact hd0)
    rw [s1] at hcs hoth
    have hup1 := (hoth Side.worker_to_read_owner (by decide)).1
    have hup2 := (hoth Side.worker_to_read_owner (by decide)).2
    have s4b : c2.write_side w = Side.worker_to_read_owner := by
      rw [write_side_of c c2 w r2.2.1, s4]
    have s3b : c2.read_side t = Side.worker_to_read_owner := by
      rw [read_side_of c c2 t r2.1, s3]
    obtain ⟨c3, c4, e3, e4, _, _, _, _, _, _⟩ :=
      write_then_read c2 w t wv (by rw [r2.2.2.2]; exact hwnw)
        (by rw [r2.2.2.1]; exact htr) (by rw [s4b, s3b])
        (by rw [s4b, hup2]; exact hiu) (by rw [s4b, hup2]; exact hu0)
    refine ⟨c1, c2, c3, c4, e1, ?_, hcs, e2, e3, e4⟩
    have s3a : c1.read_side t = Side.worker_to_read_owner := by
      rw [read_side_of c c1 t r1.1, s3]
    have hcnt : ¬ 0 < (c1.queue Side.worker_to_read_owner).count := by
      rw [hup1]
      show ¬ 0 < c.worker_to_read_owner_queue.count
      omega
    rw [try_reading_via c1 t (by rw [r1.2.2.1]; exact htr), s3a,
      circular_queue.try_reading_eq, if_neg hcnt]
    simp only [Option.map_some', with_queue_self]

/-- Witness for C21: `channel(1)` created by thread 0, worker thread 1, the
values 5 and 3. -/
theorem C21_no_self_delivery_witness :
    Reachable 0 1 0
      (⟨⟨{0}⟩, ⟨{0}⟩, ⟨∅⟩, ⟨∅⟩, ⟨1, 0, 0, 0, [none]⟩, ⟨1, 0, 0, 0, [none]⟩⟩ :
        channel Nat) ∧
    (⟨⟨{0}⟩, ⟨{0}⟩, ⟨∅⟩, ⟨∅⟩, ⟨1, 0, 0, 0, [none]⟩, ⟨1, 0, 0, 0, [none]⟩⟩ :
        channel Nat).write_side 0 ≠
      (⟨⟨{0}⟩, ⟨{0}⟩, ⟨∅⟩, ⟨∅⟩, ⟨1, 0, 0, 0, [none]⟩, ⟨1, 0, 0, 0, [none]⟩⟩ :
        channel Nat).read_side 0 ∧
    (∃ c1 c2 c3 c4 : channel Nat,
      (⟨⟨{0}⟩, ⟨{0}⟩, ⟨∅⟩, ⟨∅⟩, ⟨1, 0, 0, 0, [none]⟩, ⟨1, 0, 0, 0, [none]⟩⟩ :
        channel Nat).write 0 (some 5) = Except.ok (some (c1, none)) ∧
      c1.try_reading 0 = Except.ok (some (c1, none)) ∧
      c1.write_owner_to_worker_queue.contents = [some 5] ∧
      c1.read 1 = Except.ok (some (c2, some 5)) ∧
      c2.write 1 (some 3) = Except.ok (some (c3, none)) ∧
      c3.read 0 = Except.ok (some (c4, some 3))) :=
  have hreach : Reachable 0 1 0
      (⟨⟨{0}⟩, ⟨{0}⟩, ⟨∅⟩, ⟨∅⟩, ⟨1, 0, 0, 0, [none]⟩, ⟨1, 0, 0, 0, [none]⟩⟩ :
        channel Nat) := ⟨_, [], [], rfl, rfl⟩
  have h := C21_no_self_delivery (α := Nat) 0 1 0
    ⟨⟨{0}⟩, ⟨{0}⟩, ⟨∅⟩, ⟨∅⟩, ⟨1, 0, 0, 0, [none]⟩, ⟨1, 0, 0, 0, [none]⟩⟩ hreach 0
    (by decide)
  ⟨hreach, h.1, h.2.2.2.2 1 (some 5) (some 3) (by decide) (by decide) (by decide)
    (by decide) (by decide) (by decide) (by decide) rfl rfl⟩

/-- C22: role operations are self-targeted and direction-local.
`become_a_non_reader()` by thread `t` never aborts and leaves `t` out of
`read_owners` and in `non_readers`; `become_a_read_owner()` by `t` aborts exactly
when `t` is in `non_readers` and otherwise leaves `t` in `read_owners`;
symmetrically for the writer operations.  Each such call leaves unchanged the
membership of every other thread `u` in the sets it touches, the two sets of the
other direction as a whole, and both queues.  Hence a write-owner that is not
barred from writing (such as the creator of a fresh channel) is still a
write-owner after its `become_a_non_reader()`, and its writes still go to
queueDown. -/
theorem C22_role_operations_local (c : channel α) (t u : thread_id) (hu : u ≠ t) :
    ((c.become_a_non_reader t).read_owners.present t = false ∧
      (c.become_a_non_reader t).non_readers.present t = true ∧
      (c.become_a_non_reader t).read_owners.present u = c.read_owners.present u ∧
      (c.become_a_non_reader t).non_readers.present u = c.non_readers.present u ∧
      (c.become_a_non_reader t).write_owners = c.write_owners ∧
      (c.become_a_non_reader t).non_writers = c.non_writers ∧
      (c.become_a_non_reader t).worker_to_read_owner_queue = c.worker_to_read_owner_queue ∧
      (c.become_a_non_reader t).write_owner_to_worker_queue =
        c.write_owner_to_worker_queue) ∧
    ((c.become_a_non_writer t).write_owners.present t = false ∧
      (c.become_a_non_writer t).non_writers.present t = true ∧
      (c.become_a_non_writer t).write_owners.present u = c.write_owners.present u ∧
      (c.become_a_non_writer t).non_writers.present u = c.non_writers.present u ∧
      (c.become_a_non_writer t).read_owners = c.read_owners ∧
      (c.become_a_non_writer t).non_readers = c.non_readers ∧
      (c.become_a_non_writer t).worker_to_read_owner_queue = c.worker_to_read_owner_queue ∧
      (c.become_a_non_writer t).write_owner_to_worker_queue =
        c.write_owner_to_worker_queue) ∧
    ((c.become_a_read_owner t = Except.error Fault.abort ↔
        c.non_readers.present t = true) ∧
      (c.non_readers.present t = false → ∃ c1, c.become_a_read_owner t = Except.ok c1) ∧
      ∀ c1 : channel α, c.become_a_read_owner t = Except.ok c1 →
        c1.read_owners.present t = true ∧
        c1.read_owners.present u = c.read_owners.present u ∧
        c1.non_readers = c.non_readers ∧
        c1.write_owners = c.write_owners ∧ c1.non_writers = c.non_writers ∧
        c1.worker_to_read_owner_queue = c.worker_to_read_owner_queue ∧
        c1.write_owner_to_worker_queue = c.write_owner_to_worker_queue) ∧
    ((c.become_a_write_owner t = Except.error Fault.abort ↔
        c.non_writers.present t = true) ∧
      (c.non_writers.present t = false → ∃ c1, c.become_a_write_owner t = Except.ok c1) ∧
      ∀ c1 : channel α, c.become_a_write_owner t = Except.ok c1 →
        c1.write_owners.present t = true ∧
        c1.write_owners.present u = c.write_owners.present u ∧
        c1.non_writers = c.non_writers ∧
        c1.read_owners = c.read_owners ∧ c1.non_readers = c.non_readers ∧
        c1.worker_to_read_owner_queue = c.worker_to_read_owner_queue ∧
        c1.write_owner_to_worker_queue = c.write_owner_to_worker_queue) ∧
    (c.write_owners.present t = true → c.non_writers.present t = false →
      (c.become_a_non_reader t).write_owners.present t = true ∧
      (c.become_a_non_reader t).write_side t = Side.write_owner_to_worker ∧
      (c.become_a_non_reader t).read t = Except.error Fault.abort ∧
      ∀ message : Option α,
        (c.become_a_non_reader t).write t message =
          Except.ok ((c.write_owner_to_worker_queue.write message).map fun r =>
            ({ c.become_a_non_reader t with write_owner_to_worker_queue := r.1 }, r.2))) ∧
    (∀ (up down : Int) (c0 : channel α), construct t up down = Except.ok c0 →
      c0.write_owners.present t = true ∧ c0.non_writers.present t = false ∧
      (c0.become_a_non_reader t).write_owners.present t = true ∧
      (c0.become_a_non_reader t).write_side t = Side.write_owner_to_worker) := by
  have hut : decide (u = t) = false := decide_eq_false hu
  have hnr : (c.become_a_non_reader t).non_readers.present t = true := by
    show (c.non_readers.add t).present t = true
    rw [present_add]; simp
  refine ⟨⟨?_, hnr, ?_, ?_, rfl, rfl, rfl, rfl⟩, ⟨?_, ?_, ?_, ?_, rfl, rfl, rfl, rfl⟩,
    ⟨?_, ?_, ?_⟩, ⟨?_, ?_, ?_⟩, ?_, ?_⟩
  · show (c.read_owners.remove t).present t = false
    rw [present_remove]; simp
  · show (c.read_owners.remove t).present u = _
    rw [present_remove, hut]; simp
  · show (c.non_readers.add t).present u = _
    rw [present_add, hut]; simp
  · show (c.write_owners.remove t).present t = false
    rw [present_remove]; simp
  · show (c.non_writers.add t).present t = true
    rw [present_add]; simp
  · show (c.write_owners.remove t).present u = _
    rw [present_remove, hut]; simp
  · show (c.non_writers.add t).present u = _
    rw [present_add, hut]; simp
  · rw [become_a_read_owner_eq]
    cases hn : c.non_readers.present t <;> simp
  · intro hn
    rw [become_a_read_owner_eq, hn]
    exact ⟨_, rfl⟩
  · intro c1 h
    rw [become_a_read_owner_eq] at h
    cases hn : c.non_readers.present t
    · rw [hn] at h
      simp only [Bool.false_eq_true, if_false, Except.ok.injEq] at h
      subst h
      refine ⟨?_, ?_, rfl, rfl, rfl, rfl, rfl⟩
      · show (c.read_owners.add t).present t = true
        rw [present_add]; simp
      · show (c.read_owners.add t).present u = _
        rw [present_add, hut]; simp
    · rw [hn] at h
      simp only [if_true] at h
      cases h
  · rw [become_a_write_owner_eq]
    cases hn : c.non_writers.present t <;> simp
  · intro hn
    rw [become_a_write_owner_eq, hn]
    exact ⟨_, rfl⟩
  · intro c1 h
    rw [become_a_write_owner_eq] at h
    cases hn : c.non_writers.present t
    · rw [hn] at h
      simp only [Bool.false_eq_true, if_false, Except.ok.injEq] at h
      subst h
      refine ⟨?_, ?_, rfl, rfl, rfl, rfl, rfl⟩
      · show (c.write_owners.add t).present t = true
        rw [present_add]; simp
      · show (c.write_owners.add t).present u = _
        rw [present_add, hut]; simp
    · rw [hn] at h
      simp only [if_true] at h
      cases h
  · intro hwo hnw
    have h1 : (c.become_a_non_reader t).write_owners.present t = true := hwo
    have h2 : (c.become_a_non_reader t).non_writers.present t = false := hnw
    refine ⟨h1, by simp only [write_side, h1, if_true], read_abort _ t hnr, ?_⟩
    intro message
    rw [write_down _ t message h2 h1]
    rfl
  · intro up down c0 h0
    obtain ⟨_, _, _, e2, _, e4⟩ := construct_parts t up down c0 h0
    have h1 : c0.write_owners.present t = true := by
      rw [e2]; simp [thr_safe_set.single, thr_safe_set.present]
    have h2 : c0.non_writers.present t = false := by
      rw [e4]; simp [thr_safe_set.empty, thr_safe_set.present]
    have h3 : (c0.become_a_non_reader t).write_owners.present t = true := h1
    exact ⟨h1, h2, h3, by simp only [write_side, h3, if_true]⟩

/-- Witness for C22: `channel(1)` created by thread 0; thread 1 is another
thread. -/
theorem C22_role_operations_local_witness :
    (1 : thread_id) ≠ 0 ∧
    ((⟨⟨{0}⟩, ⟨{0}⟩, ⟨∅⟩, ⟨∅⟩, ⟨1, 0, 0, 0, [none]⟩, ⟨1, 0, 0, 0, [none]⟩⟩ :
        channel Nat).become_a_non_reader 0) =
      ⟨⟨∅⟩, ⟨{0}⟩, ⟨{0}⟩, ⟨∅⟩, ⟨1, 0, 0, 0, [none]⟩, ⟨1, 0, 0, 0, [none]⟩⟩ ∧
    ((⟨⟨{0}⟩, ⟨{0}⟩, ⟨∅⟩, ⟨∅⟩, ⟨1, 0, 0, 0, [none]⟩, ⟨1, 0, 0, 0, [none]⟩⟩ :
        channel Nat).become_a_non_reader 0).write_owners.present 0 = true ∧
    ((⟨⟨{0}⟩, ⟨{0}⟩, ⟨∅⟩, ⟨∅⟩, ⟨1, 0, 0, 0, [none]⟩, ⟨1, 0, 0, 0, [none]⟩⟩ :
        channel Nat).become_a_non_reader 0).write_side 0 = Side.write_owner_to_worker ∧
    ((⟨⟨{0}⟩, ⟨{0}⟩, ⟨∅⟩, ⟨∅⟩, ⟨1, 0, 0, 0, [none]⟩, ⟨1, 0, 0, 0, [none]⟩⟩ :
        channel Nat).become_a_non_reader 0).read 0 = Except.error Fault.abort ∧
    ((⟨⟨{0}⟩, ⟨{0}⟩, ⟨∅⟩, ⟨∅⟩, ⟨1, 0, 0, 0, [none]⟩, ⟨1, 0, 0, 0, [none]⟩⟩ :
        channel Nat).become_a_non_reader 0).write 0 (some 4) =
      Except.ok (some
        (⟨⟨∅⟩, ⟨{0}⟩, ⟨{0}⟩, ⟨∅⟩, ⟨1, 0, 0, 0, [none]⟩, ⟨1, 0, 0, 1, [some 4]⟩⟩, none)) :=
  have h := C22_role_operations_local (α := Nat)
    ⟨⟨{0}⟩, ⟨{0}⟩, ⟨∅⟩, ⟨∅⟩, ⟨1, 0, 0, 0, [none]⟩, ⟨1, 0, 0, 0, [none]⟩⟩ 0 1 (by decide)
  have h5 := h.2.2.2.2.1 (by decide) (by decide)
  ⟨by decide, by decide, h5.1, h5.2.1, h5.2.2.1, rfl⟩

/-- C26: role-set disjointness.  In every channel state reachable from
construction by any sequence of completed calls (the `become_*` operations, the
read and write variants, the occupancy queries) by any threads, no thread is in
both `read_owners` and `non_readers`, and no thread is in both `write_owners`
and `non_writers`. -/
theorem C26_role_sets_disjoint (creator : thread_id) (up down : Int) (c : channel α)
    (hc : Reachable creator up down c) :
    (∀ t : thread_id,
      ¬ (c.read_owners.present t = true ∧ c.non_readers.present t = true) ∧
      ¬ (c.write_owners.present t = true ∧ c.non_writers.present t = true)) ∧
    Disjoint c.read_owners.owner_ids c.non_readers.owner_ids ∧
    Disjoint c.write_owners.owner_ids c.non_writers.owner_ids := by
  obtain ⟨c0, calls, rs, h0, hr⟩ := hc
  have hd : roles_disjoint c :=
    run_induct roles_disjoint call_disjoint calls c0 c rs hr
      (construct_disjoint creator up down c0 h0)
  refine ⟨hd, ?_, ?_⟩
  · rw [Finset.disjoint_left]
    intro a h1 h2
    exact (hd a).1 ⟨(present_iff _ a).2 h1, (present_iff _ a).2 h2⟩
  · rw [Finset.disjoint_left]
    intro a h1 h2
    exact (hd a).2 ⟨(present_iff _ a).2 h1, (present_iff _ a).2 h2⟩

/-- Witness for C26: `channel(1)` created by thread 0, after thread 0 called
`become_a_non_reader()`, thread 1 `become_a_read_owner()`, thread 0 wrote 7 and
thread 2 called `become_a_non_writer()`. -/
theorem C26_role_sets_disjoint_witness :
    Reachable 0 1 0
      (⟨⟨{1}⟩, ⟨{0}⟩, ⟨{0}⟩, ⟨{2}⟩, ⟨1, 0, 0, 0, [none]⟩, ⟨1, 0, 0, 1, [some 7]⟩⟩ :
        channel Nat) ∧
    Disjoint ({1} : Finset thread_id) {0} ∧ Disjoint ({0} : Finset thread_id) {2} :=
  have hreach : Reachable 0 1 0
      (⟨⟨{1}⟩, ⟨{0}⟩, ⟨{0}⟩, ⟨{2}⟩, ⟨1, 0, 0, 0, [none]⟩, ⟨1, 0, 0, 1, [some 7]⟩⟩ :
        channel Nat) :=
    ⟨⟨⟨{0}⟩, ⟨{0}⟩, ⟨∅⟩, ⟨∅⟩, ⟨1, 0, 0, 0, [none]⟩, ⟨1, 0, 0, 0, [none]⟩⟩,
      [(0, Call.become_a_non_reader), (1, Call.become_a_read_owner),
        (0, Call.write (some 7)), (2, Call.become_a_non_writer)],
      [Reply.void, Reply.void, Reply.write none, Reply.void], rfl, rfl⟩
  have h := C26_role_sets_disjoint (α := Nat) 0 1 0 _ hreach
  ⟨hreach, h.2.1, h.2.2⟩

/-- C27: a thread holding exactly one ownership role talks to itself.  `write`
and `read` of a thread select different queues if and only if the thread is in
both owner sets or in neither.  A thread in `write_owners` but not in
`read_owners` writes to and reads from queueDown: when it is not barred and
queueDown is empty, its `write(v)` followed by its own `read()` returns `v`,
queueUp being untouched.  Symmetrically a thread in `read_owners` but not in
`write_owners` writes to and reads from queueUp.  A thread without any role
gets into the first situation by `become_a_write_owner()` alone, and into the
second by `become_a_read_owner()` alone. -/
theorem C27_single_ownership (creator : thread_id) (up down : Int) (c : channel α)
    (hc : Reachable creator up down c) (t : thread_id) :
    (c.write_side t ≠ c.read_side t ↔
      (c.read_owners.present t = true ∧ c.write_owners.present t = true) ∨
      (c.read_owners.present t = false ∧ c.write_owners.present t = false)) ∧
    (c.write_owners.present t = true → c.read_owners.present t = false →
      c.write_side t = Side.write_owner_to_worker ∧
      c.read_side t = Side.write_owner_to_worker ∧
      (c.non_readers.present t = false → c.non_writers.present t = false →
        c.write_owner_to_worker_queue.count = 0 → ∀ v : Option α,
        ∃ c1 c2 : channel α,
          c.write t v = Except.ok (some (c1, none)) ∧
          c1.write_owner_to_worker_queue.contents = [v] ∧
          c1.read t = Except.ok (some (c2, v)) ∧
          c1.worker_to_read_owner_queue = c.worker_to_read_owner_queue ∧
          c2.worker_to_read_owner_queue = c.worker_to_read_owner_queue)) ∧
    (c.read_owners.present t = true → c.write_owners.present t = false →
      c.write_side t = Side.worker_to_read_owner ∧
      c.read_side t = Side.worker_to_read_owner ∧
      (c.non_readers.present t = false → c.non_writers.present t = false →
        c.worker_to_read_owner_queue.count = 0 → ∀ v : Option α,
        ∃ c1 c2 : channel α,
          c.write t v = Except.ok (some (c1, none)) ∧
          c1.worker_to_read_owner_queue.contents = [v] ∧
          c1.read t = Except.ok (some (c2, v)) ∧
          c1.write_owner_to_worker_queue = c.write_owner_to_worker_queue ∧
          c2.write_owner_to_worker_queue = c.write_owner_to_worker_queue)) ∧
    (c.read_owners.present t = false → c.write_owners.present t = false →
      (c.non_writers.present t = false →
        ∃ c1 : channel α, c.become_a_write_owner t = Except.ok c1 ∧
          c1.write_owners.present t = true ∧ c1.read_owners.present t = false ∧
          c1.write_side t = c1.read_side t) ∧
      (c.non_readers.present t = false →
        ∃ c1 : channel α, c.become_a_read_owner t = Except.ok c1 ∧
          c1.read_owners.present t = true ∧ c1.write_owners.present t = false ∧
          c1.write_side t = c1.read_side t)) := by
  obtain ⟨hru, hrd⟩ := reachable_queues creator up down c hc
  have hiu := (circular_queue.reachable_inv _ _ hru).1
  have hid := (circular_queue.reachable_inv _ _ hrd).1
  refine ⟨?_, ?_, ?_, ?_⟩
  · rw [sides_differ]
    cases c.read_owners.present t <;> cases c.write_owners.present t <;> simp
  · intro hwo hro
    have s1 : c.write_side t = Side.write_owner_to_worker := by
      simp only [write_side, hwo, if_true]
    have s2 : c.read_side t = Side.write_owner_to_worker := by
      simp only [read_side, hro, Bool.false_eq_true, if_false]
    refine ⟨s1, s2, ?_⟩
    intro hnr hnw h0 v
    obtain ⟨c1, c2, e1, e2, _, _, hcs, _, _, hoth⟩ :=
      write_then_read c t t v hnw hnr (by rw [s1, s2]) (by rw [s1]; exact hid)
        (by rw [s1]; exact h0)
    rw [s1] at hcs hoth
    exact ⟨c1, c2, e1, hcs, e2, (hoth Side.worker_to_read_owner (by decide)).1,
      (hoth Side.worker_to_read_owner (by decide)).2⟩
  · intro hro hwo
    have s1 : c.write_side t = Side.worker_to_read_owner := by
      simp only [write_side, hwo, Bool.false_eq_true, if_false]
    have s2 : c.read_side t = Side.worker_to_read_owner := by
      simp only [read_side, hro, if_true]
    refine ⟨s1, s2, ?_⟩
    intro hnr hnw h0 v
    obtain ⟨c1, c2, e1, e2, _, _, hcs, _, _, hoth⟩ :=
      write_then_read c t t v hnw hnr (by rw [s1, s2]) (by rw [s1]; exact hiu)
        (by rw [s1]; exact h0)
    rw [s1] at hcs hoth
    exact ⟨c1, c2, e1, hcs, e2, (hoth Side.write_owner_to_worker (by decide)).1,
      (hoth Side.write_owner_to_worker (by decide)).2⟩
  · intro hro hwo
    constructor
    · intro hnw
      have h1 : ({ c with write_owners := c.write_owners.add t } :
          channel α).write_owners.present t = true := by
        show (c.write_owners.add t).present t = true
        rw [present_add]; simp
      have h2 : ({ c with write_owners := c.write_owners.add t } :
          channel α).read_owners.present t = false := hro
      refine ⟨{ c with write_owners := c.write_owners.add t }, ?_, h1, h2, ?_⟩
      · rw [become_a_write_owner_eq, hnw]
        rfl
      · simp only [write_side, read_side, h1, h2, if_true, Bool.false_eq_true, if_false]
    · intro hnr
      have h1 : ({ c with read_owners := c.read_owners.add t } :
          channel α).read_owners.present t = true := by
        show (c.read_owners.add t).present t = true
        rw [present_add]; simp
      have h2 : ({ c with read_owners := c.read_owners.add t } :
          channel α).write_owners.present t = false := hwo
      refine ⟨{ c with read_owners := c.read_owners.add t }, ?_, h1, h2, ?_⟩
      · rw [become_a_read_owner_eq, hnr]
        rfl
      · simp only [write_side, read_side, h1, h2, if_true, Bool.false_eq_true, if_false]

/-- Witness for C27: `channel(1)` created by thread 0, after thread 1 called
`become_a_write_owner()` and nothing else: thread 1 reads back its own 7. -/
theorem C27_single_ownership_witness :
    Reachable 0 1 0
      (⟨⟨{0}⟩, ⟨{1, 0}⟩, ⟨∅⟩, ⟨∅⟩, ⟨1, 0, 0, 0, [none]⟩, ⟨1, 0, 0, 0, [none]⟩⟩ :
        channel Nat) ∧
    (⟨⟨{0}⟩, ⟨{1, 0}⟩, ⟨∅⟩, ⟨∅⟩, ⟨1, 0, 0, 0, [none]⟩, ⟨1, 0, 0, 0, [none]⟩⟩ :
        channel Nat).write_side 1 = Side.write_owner_to_worker ∧
    (⟨⟨{0}⟩, ⟨{1, 0}⟩, ⟨∅⟩, ⟨∅⟩, ⟨1, 0, 0, 0, [none]⟩, ⟨1, 0, 0, 0, [none]⟩⟩ :
        channel Nat).read_side 1 = Side.write_owner_to_worker ∧
    (∃ c1 c2 : channel Nat,
      (⟨⟨{0}⟩, ⟨{1, 0}⟩, ⟨∅⟩, ⟨∅⟩, ⟨1, 0, 0, 0, [none]⟩, ⟨1, 0, 0, 0, [none]⟩⟩ :
        channel Nat).write 1 (some 7) = Except.ok (some (c1, none)) ∧
      c1.write_owner_to_worker_queue.contents = [some 7] ∧
      c1.read 1 = Except.ok (some (c2, some 7)) ∧
      c1.worker_to_read_owner_queue = ⟨1, 0, 0, 0, [none]⟩ ∧
      c2.worker_to_read_owner_queue = ⟨1, 0, 0, 0, [none]⟩) :=
  have hreach : Reachable 0 1 0
      (⟨⟨{0}⟩, ⟨{1, 0}⟩, ⟨∅⟩, ⟨∅⟩, ⟨1, 0, 0, 0, [none]⟩, ⟨1, 0, 0, 0, [none]⟩⟩ :
        channel Nat) :=
    ⟨⟨⟨{0}⟩, ⟨{0}⟩, ⟨∅⟩, ⟨∅⟩, ⟨1, 0, 0, 0, [none]⟩, ⟨1, 0, 0, 0, [none]⟩⟩,
      [(1, Call.become_a_write_owner)], [Reply.void], rfl, rfl⟩
  have h := (C27_single_ownership (α := Nat) 0 1 0
    ⟨⟨{0}⟩, ⟨{1, 0}⟩, ⟨∅⟩, ⟨∅⟩, ⟨1, 0, 0, 0, [none]⟩, ⟨1, 0, 0, 0, [none]⟩⟩ hreach 1).2.1
    (by decide) (by decide)
  ⟨hreach, h.1, h.2.1, h.2.2 (by decide) (by decide) rfl (some 7)⟩

end channel

end thread_comm
